import Mathlib

/-!
# busybox `networking/ftpd.c`: a shallow embedding

The session engine of the busybox FTP daemon, translated function by function.

Conventions of the embedding

* A byte is a `Nat` (values below 256); `Bytes` is a list of bytes.  A C string
  is the list of its bytes without the terminating NUL.  Where the source
  mutates a buffer in place (`replace_char`, the CR loop, the verb/argument
  split) the buffer is modelled as *memory*: the bytes followed by the NUL (and
  whatever lies behind it), and `cstr` reads the C string stored at its start.
* `struct globals` becomes the record `Globals`, threaded through the handlers.
  The bytes the server writes on the control socket (file descriptors 0 and 1
  are the same socket under inetd) are collected in `Globals.out`; writes on the
  control socket are taken to succeed.
* Everything outside `ftpd.c` (libc, libbb, the kernel, the peer) is a field of
  the record `World`: one value of `World` fixes the outcome of every call a
  single command can make.  A function of libbb whose name starts with `x`
  terminates the process on failure; such a call has an `Option` (or `Bool`)
  outcome and `none` (or `false`) ends the run with `Res.exit`.
* `Globals.events` is ghost state: the log of state-changing system calls.
* The source is taken with `ENABLE_FEATURE_FTP_WRITE` on.  With the feature off
  the option `-w` does not exist, `G.opts & OPT_w` is always 0, and the loop of
  `ftpd_main` is the one modelled here with `opts_w = false`.
-/

namespace Ftpd

/-! ## Bytes, C strings, printf -/

abbrev Bytes := List Nat

/-- Bytes of a string literal. -/
def str (s : String) : Bytes := s.toList.map Char.toNat

/-- Digits of `%u`, least significant digit produced first and pushed in front. -/
def utoa_loop : Nat → Nat → Bytes → Bytes
  | 0, _, acc => acc
  | fuel + 1, n, acc =>
    if n / 10 = 0 then (48 + n % 10) :: acc
    else utoa_loop fuel (n / 10) ((48 + n % 10) :: acc)

/-- Conversion `%u` of printf. -/
def utoa (n : Nat) : Bytes := utoa_loop (n + 1) n []

/-- C `strlen` on memory: the offset of the first NUL. -/
def strlen : Bytes → Nat
  | [] => 0
  | b :: rest => if b = 0 then 0 else strlen rest + 1

/-- The C string stored at the start of a piece of memory. -/
def cstr : Bytes → Bytes
  | [] => []
  | b :: rest => if b = 0 then [] else b :: cstr rest

/-- C `strchr(s, c)`: offset of the first `c` in the C string at the start of
the memory, `none` for NULL. -/
def strchr : Bytes → Nat → Option Nat
  | [], _ => none
  | b :: rest, c =>
    if b = c then some 0
    else if b = 0 then none
    else (strchr rest c).map (· + 1)

/-- C `strrchr(s, c)`: offset of the last `c` in the C string, `none` for NULL. -/
def strrchr : Bytes → Nat → Option Nat
  | [], _ => none
  | b :: rest, c =>
    if b = 0 then none
    else match strrchr rest c with
      | some k => some (k + 1)
      | none => if b = c then some 0 else none

/-! ## Reply codes and verb tokens (`ftpd.c` lines 20-96) -/

def FTP_DATACONN : Nat := 150
def FTP_NOOPOK : Nat := 200
def FTP_TYPEOK : Nat := 200
def FTP_PORTOK : Nat := 200
def FTP_STRUOK : Nat := 200
def FTP_MODEOK : Nat := 200
def FTP_ALLOOK : Nat := 202
def FTP_STATOK : Nat := 211
def FTP_STATFILE_OK : Nat := 213
def FTP_HELP : Nat := 214
def FTP_SYSTOK : Nat := 215
def FTP_GREET : Nat := 220
def FTP_GOODBYE : Nat := 221
def FTP_TRANSFEROK : Nat := 226
def FTP_PASVOK : Nat := 227
def FTP_LOGINOK : Nat := 230
def FTP_CWDOK : Nat := 250
def FTP_RMDIROK : Nat := 250
def FTP_DELEOK : Nat := 250
def FTP_RENAMEOK : Nat := 250
def FTP_PWDOK : Nat := 257
def FTP_MKDIROK : Nat := 257
def FTP_GIVEPWORD : Nat := 331
def FTP_RESTOK : Nat := 350
def FTP_RNFROK : Nat := 350
def FTP_BADSENDCONN : Nat := 425
def FTP_BADSENDFILE : Nat := 451
def FTP_BADCMD : Nat := 500
def FTP_NEEDRNFR : Nat := 503
def FTP_FILEFAIL : Nat := 550
def FTP_UPLOADFAIL : Nat := 553

def mk_const4 (a b c d : Nat) : Nat := ((a * 0x100 + b) * 0x100 + c) * 0x100 + d
def mk_const3 (a b c : Nat) : Nat := (a * 0x100 + b) * 0x100 + c

def const_ALLO : Nat := mk_const4 65 76 76 79
def const_APPE : Nat := mk_const4 65 80 80 69
def const_CDUP : Nat := mk_const4 67 68 85 80
def const_CWD : Nat := mk_const3 67 87 68
def const_DELE : Nat := mk_const4 68 69 76 69
def const_HELP : Nat := mk_const4 72 69 76 80
def const_LIST : Nat := mk_const4 76 73 83 84
def const_MKD : Nat := mk_const3 77 75 68
def const_MODE : Nat := mk_const4 77 79 68 69
def const_NLST : Nat := mk_const4 78 76 83 84
def const_NOOP : Nat := mk_const4 78 79 79 80
def const_PASS : Nat := mk_const4 80 65 83 83
def const_PASV : Nat := mk_const4 80 65 83 86
def const_PORT : Nat := mk_const4 80 79 82 84
def const_PWD : Nat := mk_const3 80 87 68
def const_QUIT : Nat := mk_const4 81 85 73 84
def const_REST : Nat := mk_const4 82 69 83 84
def const_RETR : Nat := mk_const4 82 69 84 82
def const_RMD : Nat := mk_const3 82 77 68
def const_RNFR : Nat := mk_const4 82 78 70 82
def const_RNTO : Nat := mk_const4 82 78 84 79
def const_STAT : Nat := mk_const4 83 84 65 84
def const_STOR : Nat := mk_const4 83 84 79 82
def const_STOU : Nat := mk_const4 83 84 79 85
def const_STRU : Nat := mk_const4 83 84 82 85
def const_SYST : Nat := mk_const4 83 89 83 84
def const_TYPE : Nat := mk_const4 84 89 80 69
def const_USER : Nat := mk_const4 85 83 69 82

/-! ## `replace_text`, `replace_char`, `cmdio_write` (lines 115-202) -/

/-- The `for (;;)` loop of `replace_text`: `remain` is the unread rest of `str`,
`ret` the bytes stored so far.  Every round consumes at least one byte of
`remain`, so `strlen(str) + 1` rounds always reach the `break`. -/
def replace_text_loop (c : Nat) (to_s : Bytes) : Nat → Bytes → Bytes → Bytes
  | 0, _, ret => ret
  | fuel + 1, remain, ret =>
    match strchr remain c with
    | some chunklen =>
      replace_text_loop c to_s fuel (remain.drop (chunklen + 1))
        (ret ++ remain.take chunklen ++ to_s)
    | none => ret ++ cstr remain

/-- Function `replace_text(str, from, to)`: a fresh string, every `from` of
`str` replaced by the string `to`. -/
def replace_text (s : Bytes) (c : Nat) (to_s : Bytes) : Bytes :=
  replace_text_loop c to_s (s.length + 1) s []

/-- The `while` loop of `replace_char` on memory: `strchr` from the current
pointer, store `to`, step one byte further. -/
def replace_char_loop (c to_c : Nat) : Nat → Bytes → Bytes
  | 0, mem => mem
  | fuel + 1, mem =>
    match strchr mem c with
    | none => mem
    | some k => mem.take k ++ to_c :: replace_char_loop c to_c fuel (mem.drop (k + 1))

/-- Function `replace_char(str, from, to)`, in place on the memory at `str`. -/
def replace_char (mem : Bytes) (c to_c : Nat) : Bytes :=
  replace_char_loop c to_c mem.length mem

/-- Function `cmdio_write(status, str)`: the bytes handed to `xwrite`. -/
def cmdio_write (status : Nat) (s : Bytes) : Bytes :=
  let escaped_str := replace_text s 0xff [0xff, 0xff]
  -- xasprintf("%u%s\r", status, escaped_str), with its terminating NUL
  let response := utoa (status % 2 ^ 32) ++ escaped_str ++ [13, 0]
  let len := strlen response
  let response := replace_char response 10 0
  let response := response.set len 10
  response.take (len + 1)

/-- Function `cmdio_write_ok(status)`. -/
def cmdio_write_ok (status : Nat) : Bytes :=
  utoa (status % 2 ^ 32) ++ str " Operation successful\r\n"

/-- Function `cmdio_write_error(status)`. -/
def cmdio_write_error (status : Nat) : Bytes :=
  utoa (status % 2 ^ 32) ++ str " Error\r\n"

/-! ## `cmdio_get_cmd_and_arg` (lines 868-897) -/

/-- Number of values of `size_t`. -/
def SIZE_MOD : Nat := 2 ^ 32

/-- The loop `while (len >= 0 && cmd[len] == '\r') { cmd[len] = '\0'; len--; }`.
`len` is a `size_t`, so `len >= 0` holds always and `len--` wraps around.
`cmd` is the memory of the line (bytes and NUL); an index outside of it reads
the byte `oob len` of foreign memory.  The result is the memory of the line and
the indices used, in order. -/
def cr_loop (oob : Nat → Nat) : Nat → Bytes → Nat → List Nat → Bytes × List Nat
  | 0, cmd, _, used => (cmd, used)
  | fuel + 1, cmd, len, used =>
    if (if len < cmd.length then cmd.getD len 0 else oob len) = 13 then
      cr_loop oob fuel (cmd.set len 0) ((len + SIZE_MOD - 1) % SIZE_MOD) (used ++ [len])
    else (cmd, used ++ [len])

/-- The loop `while (*cmd) cmdval = (cmdval << 8) + (*cmd++ & ~0x20)` in
`uint32_t` arithmetic. -/
def cmdval_loop : Bytes → Nat → Nat
  | [], cmdval => cmdval
  | b :: rest, cmdval =>
    if b = 0 then cmdval
    else cmdval_loop rest ((cmdval * 2 ^ 8 + (b &&& 0xDF)) % 2 ^ 32)

structure Cmd where
  cmdval : Nat
  ftp_arg : Option Bytes
  used : List Nat
  deriving DecidableEq, Repr

/-- Function `cmdio_get_cmd_and_arg`.  `line` is what `xmalloc_reads` returned:
`none` at end of input (the function calls `exit(0)`), else the bytes in front
of the LF.  The result holds the token, the new `G.ftp_arg` and the indices the
CR loop used. -/
def cmdio_get_cmd_and_arg (oob : Nat → Nat) (line : Option Bytes) : Option Cmd :=
  match line with
  | none => none
  | some l =>
    let cmd := l ++ [0]
    let len := (strlen cmd + SIZE_MOD - 1) % SIZE_MOD
    let r := cr_loop oob cmd.length cmd len []
    let cmd := r.1
    match strchr cmd 32 with
    | some k =>
      some ⟨cmdval_loop (cmd.set k 0) 0, some (cstr (cmd.drop (k + 1))), r.2⟩
    | none => some ⟨cmdval_loop cmd 0, none, r.2⟩

/-! ## `statbuf_getperms` (lines 544-580) -/

def S_IFMT : Nat := 0o170000
def S_IFSOCK : Nat := 0o140000
def S_IFLNK : Nat := 0o120000
def S_IFREG : Nat := 0o100000
def S_IFBLK : Nat := 0o060000
def S_IFDIR : Nat := 0o040000
def S_IFCHR : Nat := 0o020000
def S_IFIFO : Nat := 0o010000
def S_ISUID : Nat := 0o4000
def S_ISGID : Nat := 0o2000
def S_ISVTX : Nat := 0o1000
def S_IRUSR : Nat := 0o400
def S_IWUSR : Nat := 0o200
def S_IXUSR : Nat := 0o100
def S_IRGRP : Nat := 0o040
def S_IWGRP : Nat := 0o020
def S_IXGRP : Nat := 0o010
def S_IROTH : Nat := 0o004
def S_IWOTH : Nat := 0o002
def S_IXOTH : Nat := 0o001

def S_ISREG (m : Nat) : Bool := m &&& S_IFMT == S_IFREG
def S_ISLNK (m : Nat) : Bool := m &&& S_IFMT == S_IFLNK
def S_ISDIR (m : Nat) : Bool := m &&& S_IFMT == S_IFDIR

/-- The statement `if (statbuf->st_mode & mask) perms[i] = v;`. -/
def perm_bit (st_mode mask : Nat) (perms : Bytes) (i v : Nat) : Bytes :=
  if st_mode &&& mask ≠ 0 then perms.set i v else perms

/-- The statement `if (statbuf->st_mode & mask) perms[i] = (perms[i] == x) ? lo : up;`. -/
def perm_special (st_mode mask : Nat) (perms : Bytes) (i lo up : Nat) : Bytes :=
  if st_mode &&& mask ≠ 0 then perms.set i (if perms.getD i 0 = 120 then lo else up)
  else perms

/-- The `switch (statbuf->st_mode & S_IFMT)` of `statbuf_getperms`, after
`perms[0] = '?'`. -/
def perm_type (st_mode : Nat) (perms : Bytes) : Bytes :=
  if st_mode &&& S_IFMT = S_IFREG then perms.set 0 45
  else if st_mode &&& S_IFMT = S_IFDIR then perms.set 0 100
  else if st_mode &&& S_IFMT = S_IFLNK then perms.set 0 108
  else if st_mode &&& S_IFMT = S_IFIFO then perms.set 0 112
  else if st_mode &&& S_IFMT = S_IFSOCK then perms.set 0 115
  else if st_mode &&& S_IFMT = S_IFCHR then perms.set 0 99
  else if st_mode &&& S_IFMT = S_IFBLK then perms.set 0 98
  else perms

/-- Function `statbuf_getperms`: the ten glyphs in front of the NUL `perms[10]`
(`r` = 114, `w` = 119, `x` = 120, `s` = 115, `S` = 83, `t` = 116, `T` = 84). -/
def statbuf_getperms (st_mode : Nat) : Bytes :=
  let perms := List.replicate 10 45
  let perms := perms.set 0 63
  let perms := perm_type st_mode perms
  let perms := perm_bit st_mode S_IRUSR perms 1 114
  let perms := perm_bit st_mode S_IWUSR perms 2 119
  let perms := perm_bit st_mode S_IXUSR perms 3 120
  let perms := perm_bit st_mode S_IRGRP perms 4 114
  let perms := perm_bit st_mode S_IWGRP perms 5 119
  let perms := perm_bit st_mode S_IXGRP perms 6 120
  let perms := perm_bit st_mode S_IROTH perms 7 114
  let perms := perm_bit st_mode S_IWOTH perms 8 119
  let perms := perm_bit st_mode S_IXOTH perms 9 120
  let perms := perm_special st_mode S_ISUID perms 3 115 83
  let perms := perm_special st_mode S_ISGID perms 6 115 83
  let perms := perm_special st_mode S_ISVTX perms 9 116 84
  perms

/-! ## The session state and the outside world -/

/-- The fields of `struct stat` the daemon reads. -/
structure Stat where
  st_mode : Nat
  st_nlink : Nat
  st_size : Nat
  st_mtime : Nat
  deriving DecidableEq, Repr

/-- What a `len_and_sockaddr` made by `xdotted2sockaddr(host, port)` stands for. -/
structure Sockaddr where
  host : Bytes
  port : Nat
  deriving DecidableEq, Repr

/-- State-changing system calls, with their arguments and results. -/
inductive Event where
  | chdir (path : Bytes) (ret : Int)
  | socket (fd : Int)
  | bind (fd : Int) (port : Nat) (ret : Int)
  | listen (fd : Int)
  | accept (listen_fd : Int) (ret : Int)
  | connect (addr : Sockaddr) (fd : Int)
  | close (fd : Int)
  | open_ (path : Bytes) (flags : Nat) (ret : Int)
  | mkstemp (ret : Int) (name : Bytes)
  | lseek (fd : Int) (offset : Nat)
  | copyfd (src dst : Int) (ret : Int)
  | mkdir (path : Bytes) (ret : Int)
  | rmdir (path : Bytes) (ret : Int)
  | unlink (path : Bytes) (ret : Int)
  | rename (old new : Bytes) (ret : Int)
  deriving DecidableEq, Repr

/-- The record `struct globals` (`G` in the source), with the bytes written on
the control socket, the bytes written on data sockets by the listing code, and
the log of system calls. -/
structure Globals where
  port_addr : Option Sockaddr
  pasv_listen_fd : Int
  data_fd : Int
  restart_pos : Nat
  ftp_arg : Option Bytes
  rnfr_filename : Option Bytes
  opts_w : Bool
  out : Bytes
  data : Bytes
  events : List Event
  deriving DecidableEq, Repr

/-- The globals at process start: `G` lives in zero-filled static storage. -/
def G_init (opts_w : Bool) : Globals :=
  { port_addr := none, pasv_listen_fd := 0, data_fd := 0, restart_pos := 0,
    ftp_arg := none, rnfr_filename := none, opts_w := opts_w,
    out := [], data := [], events := [] }

/-- Outcomes of the calls one command can make into libc, libbb and the kernel. -/
structure World where
  /-- Byte of foreign memory at `cmd[len]` for an index outside the line. -/
  oob : Nat → Nat
  /-- Function `xrealloc_getcwd_or_warn(NULL)`; `none` is NULL. -/
  getcwd : Option Bytes
  chdir : Bytes → Int
  /-- Function `xsocket`; `none`: it died. -/
  xsocket : Option Int
  /-- Value of the k-th call of `rand()` (k = 0, 1, ...). -/
  rand : Nat → Nat
  /-- Result of the k-th call of `bind()`, made for the given port. -/
  bind : Nat → Nat → Int
  /-- Function `xlisten`; `false`: it died. -/
  xlisten : Bool
  /-- Function `xmalloc_sockaddr2dotted_noport(&G.local_addr->u.sa)`. -/
  sockaddr2dotted : Bytes
  /-- Function `xatou16`; `none`: it died. -/
  xatou16 : Bytes → Option Nat
  /-- Function `xdotted2sockaddr`; `none`: it died, `some none`: it returned NULL. -/
  xdotted2sockaddr : Bytes → Nat → Option (Option Sockaddr)
  /-- Function `xatoi_u`; `none`: it died. -/
  xatoi_u : Bytes → Option Nat
  accept : Int
  /-- Function `xconnect_stream`; `none`: it died. -/
  xconnect_stream : Option Int
  open_ : Bytes → Nat → Int
  /-- Result of `fstat` and the buffer it filled. -/
  fstat : Int × Stat
  /-- Function `xlseek`; `false`: it died. -/
  xlseek : Bool
  bb_copyfd_eof : Int
  /-- Result of the first `close(G.data_fd)` in `ftpdataio_dispose_transfer_fd`. -/
  close_data : Int
  /-- Result of `mkstemp` and the name it stored over `uniq.XXXXXX`. -/
  mkstemp : Int × Bytes
  /-- Call of `lstat`; `none`: it failed. -/
  lstat : Bytes → Option Stat
  /-- Names `readdir` yields for a directory; `none`: `xopendir` died. -/
  opendir : Bytes → Option (List Bytes)
  /-- Function `xmalloc_readlink`; `none` is NULL. -/
  readlink : Bytes → Option Bytes
  /-- Text `strftime` stores for `gmtime(&st_mtime)`; its result is the length. -/
  strftime : Nat → Bytes
  /-- Function `bb_get_last_path_component_nostrip`. -/
  last_path_component : Bytes → Bytes
  /-- Whether `xwrite_str` on the data socket succeeds; `false`: it died. -/
  data_write : Bool
  mkdir : Bytes → Int
  rmdir : Bytes → Int
  unlink : Bytes → Int
  rename : Bytes → Bytes → Int

/-- Result of a piece of code: it returned, the process ended (`exit`, a dying
libbb call, `return` from `ftpd_main`), or it dereferenced NULL. -/
inductive Res (α : Type) where
  | ok (g : Globals) (a : α)
  | exit (g : Globals) (status : Nat)
  | fault (g : Globals)
  deriving DecidableEq, Repr

abbrev Step := Res Unit

def STDOUT_FILENO : Int := 1
def STDIN_FILENO : Int := 0

def O_RDONLY : Nat := 0o0
def O_WRONLY : Nat := 0o1
def O_CREAT : Nat := 0o100
def O_TRUNC : Nat := 0o1000
def O_APPEND : Nat := 0o2000
def O_NONBLOCK : Nat := 0o4000

/-- Append to the control socket. -/
def Globals.write (g : Globals) (b : Bytes) : Globals := { g with out := g.out ++ b }

/-- Append to the log of system calls. -/
def Globals.log (g : Globals) (e : Event) : Globals := { g with events := g.events ++ [e] }

/-! ## Simple commands (lines 204-275) -/

/-- Function `handle_pwd`. -/
def handle_pwd (w : World) (g : Globals) : Step :=
  let cwd := match w.getcwd with
    | some c => c
    | none => []
  let promoted_cwd := replace_text cwd 34 [34, 34]
  let response := [32, 34] ++ promoted_cwd ++ [34]
  .ok (g.write (cmdio_write FTP_PWDOK response)) ()

/-- Function `handle_cwd`. -/
def handle_cwd (w : World) (g : Globals) : Step :=
  match g.ftp_arg with
  | none => .ok (g.write (cmdio_write_error FTP_FILEFAIL)) ()
  | some arg =>
    let g := g.log (.chdir arg (w.chdir arg))
    if w.chdir arg ≠ 0 then .ok (g.write (cmdio_write_error FTP_FILEFAIL)) ()
    else .ok (g.write (cmdio_write_ok FTP_CWDOK)) ()

/-- Function `handle_cdup`. -/
def handle_cdup (w : World) (g : Globals) : Step :=
  handle_cwd w { g with ftp_arg := some (str "..") }

/-- Function `handle_stat`. -/
def handle_stat (g : Globals) : Step :=
  .ok (g.write (str "211-FTP server status:\r\nTYPE: BINARY\r\n211 Ok\r\n")) ()

/-- Function `handle_help`. -/
def handle_help (g : Globals) : Step :=
  .ok (g.write (str ("214-Commands:\r\n"
    ++ "ALLO CDUP CWD HELP LIST\r\n"
    ++ "MODE NLST NOOP PASS PASV PORT PWD QUIT\r\n"
    ++ "REST RETR STAT STRU SYST TYPE USER\r\n"
    ++ "APPE DELE MKD RMD RNFR RNTO STOR STOU\r\n"
    ++ "214 Ok\r\n"))) ()

/-! ## The data connection (lines 277-387) -/

/-- Function `ftpdataio_get_pasv_fd`. -/
def ftpdataio_get_pasv_fd (w : World) (g : Globals) : Globals × Int :=
  let remote_fd := w.accept
  let g := g.log (.accept g.pasv_listen_fd remote_fd)
  if remote_fd < 0 then (g.write (cmdio_write_error FTP_BADSENDCONN), remote_fd)
  else ({ g with data_fd := remote_fd }, remote_fd)

/-- Function `ftpdataio_get_port_fd`. -/
def ftpdataio_get_port_fd (w : World) (g : Globals) : Res Int :=
  match g.port_addr with
  | none => .fault g
  | some addr =>
    match w.xconnect_stream with
    | none => .exit g 1
    | some remote_fd =>
      .ok { g.log (.connect addr remote_fd) with data_fd := remote_fd } remote_fd

/-- Function `ftpdataio_dispose_transfer_fd`. -/
def ftpdataio_dispose_transfer_fd (w : World) (g : Globals) : Globals :=
  let g :=
    if g.data_fd > STDOUT_FILENO then
      if w.close_data < 0 then (g.log (.close g.data_fd)).log (.close g.data_fd)
      else g.log (.close g.data_fd)
    else g
  { g with data_fd := -1 }

/-- Function `port_active`. -/
def port_active (g : Globals) : Bool := g.port_addr.isSome

/-- Function `pasv_active`. -/
def pasv_active (g : Globals) : Bool := decide (g.pasv_listen_fd > STDOUT_FILENO)

/-- Function `get_remote_transfer_fd`. -/
def get_remote_transfer_fd (w : World) (g : Globals) (p_status_msg : Bytes) : Res Int :=
  let r : Res Int :=
    if pasv_active g then
      let p := ftpdataio_get_pasv_fd w g
      .ok p.1 p.2
    else ftpdataio_get_port_fd w g
  match r with
  | .ok g remote_fd =>
    if remote_fd < 0 then .ok g remote_fd
    else .ok (g.write (cmdio_write FTP_DATACONN p_status_msg)) remote_fd
  | .exit g n => .exit g n
  | .fault g => .fault g

/-- Function `data_transfer_checks_ok`. -/
def data_transfer_checks_ok (g : Globals) : Globals × Bool :=
  if !pasv_active g && !port_active g then
    (g.write (str "425 Use PORT or PASV first\r\n"), false)
  else (g, true)

/-- Function `port_pasv_cleanup`. -/
def port_pasv_cleanup (g : Globals) : Globals :=
  let g := { g with port_addr := none }
  let g := if g.pasv_listen_fd > STDOUT_FILENO then g.log (.close g.pasv_listen_fd) else g
  { g with pasv_listen_fd := -1 }

/-! ## PASV, PORT, REST, RETR (lines 389-540) -/

/-- The statements `port = rand() % max_port; if (port < min_port) port += min_port;`
for the value `r` of `rand()`; `port` is an `unsigned short`. -/
def pasv_port (r : Nat) : Nat :=
  let port := (r % 65535) % 2 ^ 16
  if port < 1024 then (port + 1024) % 2 ^ 16 else port

/-- How the bind loop of `handle_pasv` ended. -/
structure BindLoop where
  g : Globals
  /-- Value of `bind_retries` behind the loop. -/
  bind_retries : Nat
  /-- Value of `port` behind the loop. -/
  port : Nat
  /-- Whether `xlisten` died. -/
  died : Bool

/-- The loop `while (--bind_retries) { ... }` of `handle_pasv`, entered with
`bind_retries` (positive), `k` calls of `rand()` and `bind()` made so far, and
the current value of `port`. -/
def pasv_bind_loop (w : World) : Nat → Nat → Nat → Globals → BindLoop
  | 0, _, port, g => ⟨g, 0, port, false⟩
  | n + 1, k, port, g =>
    -- `--bind_retries` leaves `n`
    if n = 0 then ⟨g, 0, port, false⟩
    else
      let port := pasv_port (w.rand k)
      let ret := w.bind k port
      let g := g.log (.bind g.pasv_listen_fd port ret)
      if ret ≠ 0 then pasv_bind_loop w n (k + 1) port g
      else if w.xlisten then ⟨g.log (.listen g.pasv_listen_fd), n, port, false⟩
      else ⟨g, n, port, true⟩

/-- Function `handle_pasv`. -/
def handle_pasv (w : World) (g : Globals) : Step :=
  let g := port_pasv_cleanup g
  match w.xsocket with
  | none => .exit g 1
  | some fd =>
    let g := { g.log (.socket fd) with pasv_listen_fd := fd }
    let l := pasv_bind_loop w 10 0 0 g
    if l.died then .exit l.g 1
    else if l.bind_retries = 0 then .exit l.g 1
    else
      let addr := cstr (replace_char (w.sockaddr2dotted ++ [0]) 46 44)
      let response := str " Entering Passive Mode (" ++ addr ++ [44]
        ++ utoa (l.port >>> 8) ++ [44] ++ utoa (l.port &&& 255) ++ [41]
      .ok (l.g.write (cmdio_write FTP_PASVOK response)) ()

/-- Function `handle_port`.  The argument buffer is cut in place at the commas
found, so `G.ftp_arg` changes along the way. -/
def handle_port (w : World) (g : Globals) : Step :=
  let g := port_pasv_cleanup g
  match g.ftp_arg with
  | none => .fault g
  | some raw =>
    match strrchr raw 44 with
    | none => .ok (g.write (cmdio_write_error FTP_BADCMD)) ()
    | some i =>
      match w.xatou16 (raw.drop (i + 1)) with
      | none => .exit g 1
      | some lo =>
        let port := lo % 2 ^ 16
        let raw := raw.take i
        let g := { g with ftp_arg := some raw }
        match strrchr raw 44 with
        | none => .ok (g.write (cmdio_write_error FTP_BADCMD)) ()
        | some j =>
          match w.xatou16 (raw.drop (j + 1)) with
          | none => .exit g 1
          | some hi =>
            let port := (port ||| ((hi % 2 ^ 16) <<< 8)) % 2 ^ 16
            let raw := raw.take j
            let raw := cstr (replace_char (raw ++ [0]) 44 46)
            let g := { g with ftp_arg := some raw }
            match w.xdotted2sockaddr raw port with
            | none => .exit g 1
            | some none => .ok (g.write (cmdio_write_error FTP_BADCMD)) ()
            | some (some lsa) =>
              .ok ({ g with port_addr := some lsa }.write (cmdio_write_ok FTP_PORTOK)) ()

/-- Function `handle_rest`. -/
def handle_rest (w : World) (g : Globals) : Step :=
  match g.ftp_arg with
  | none => .ok ({ g with restart_pos := 0 }.write (cmdio_write_ok FTP_RESTOK)) ()
  | some arg =>
    match w.xatoi_u arg with
    | none => .exit g 1
    | some n => .ok ({ g with restart_pos := n }.write (cmdio_write_ok FTP_RESTOK)) ()

/-- Function `handle_retr`. -/
def handle_retr (w : World) (g : Globals) : Step :=
  let offset := g.restart_pos
  let g := { g with restart_pos := 0 }
  let c := data_transfer_checks_ok g
  if !c.2 then .ok c.1 ()
  else
    let g := c.1
    match g.ftp_arg with
    | none => .ok (g.write (cmdio_write_error FTP_FILEFAIL)) ()
    | some arg =>
      let opened_file := w.open_ arg (O_RDONLY ||| O_NONBLOCK)
      let g := g.log (.open_ arg (O_RDONLY ||| O_NONBLOCK) opened_file)
      if opened_file < 0 then .ok (g.write (cmdio_write_error FTP_FILEFAIL)) ()
      else if w.fstat.1 < 0 || !S_ISREG w.fstat.2.st_mode then
        -- goto file_close_out
        .ok ((g.write (cmdio_write_error FTP_FILEFAIL)).log (.close opened_file)) ()
      else if offset ≠ 0 && !w.xlseek then .exit g 1
      else
        let g := if offset ≠ 0 then g.log (.lseek opened_file offset) else g
        let response := str " Opening BINARY mode data connection for " ++ arg
          ++ str " (" ++ utoa w.fstat.2.st_size ++ str " bytes)"
        match get_remote_transfer_fd w g response with
        | .exit g n => .exit g n
        | .fault g => .fault g
        | .ok g remote_fd =>
          if remote_fd < 0 then
            -- goto port_pasv_cleanup_out
            .ok ((port_pasv_cleanup g).log (.close opened_file)) ()
          else
            let trans_ret := w.bb_copyfd_eof
            let g := g.log (.copyfd opened_file remote_fd trans_ret)
            let g := ftpdataio_dispose_transfer_fd w g
            let g :=
              if trans_ret < 0 then g.write (cmdio_write_error FTP_BADSENDFILE)
              else g.write (cmdio_write_ok FTP_TRANSFEROK)
            .ok ((port_pasv_cleanup g).log (.close opened_file)) ()

/-! ## Listings (lines 582-726) -/

/-- Bytes a piece of listing code wrote, and whether it came back (`false`: a
libbb call died on the way). -/
structure Emit where
  bytes : Bytes
  alive : Bool
  deriving DecidableEq, Repr

/-- Function `write_filestats(fd, filename, statbuf)`; `statbuf = none` is NULL. -/
def write_filestats (w : World) (filename : Bytes) (statbuf : Option Stat) : Emit :=
  let name := w.last_path_component filename
  match statbuf with
  | some sb =>
    let lnkname := if S_ISLNK sb.st_mode then w.readlink filename else none
    let timestr := w.strftime sb.st_mtime
    if timestr.length = 0 then ⟨[], false⟩
    else
      let perms := statbuf_getperms sb.st_mode
      let stats := perms ++ [32] ++ utoa (sb.st_nlink % 2 ^ 32) ++ str "\tftp ftp "
        ++ utoa sb.st_size ++ [9] ++ timestr ++ [32] ++ name
      match lnkname with
      | some l => ⟨stats ++ str " -> " ++ l ++ str "\r\n", true⟩
      | none => ⟨stats ++ str "\r\n", true⟩
  | none => ⟨name ++ str "\r\n", true⟩

/-- The `for (;;)` loop of `write_dirstats` over the names `readdir` yields. -/
def write_dirstats_loop (w : World) (dname : Bytes) (details : Bool) : List Bytes → Emit
  | [] => ⟨[], true⟩
  | d_name :: rest =>
    match d_name with
    | [46] => write_dirstats_loop w dname details rest
    | [46, 46] => write_dirstats_loop w dname details rest
    | _ =>
      if details then
        let filename := dname ++ [47] ++ d_name
        match w.lstat filename with
        | none => ⟨[], true⟩
        | some statbuf =>
          let e := write_filestats w filename (some statbuf)
          if e.alive then
            let e2 := write_dirstats_loop w dname details rest
            ⟨e.bytes ++ e2.bytes, e2.alive⟩
          else e
      else
        let e := write_filestats w d_name none
        let e2 := write_dirstats_loop w dname details rest
        ⟨e.bytes ++ e2.bytes, e2.alive⟩

/-- Function `write_dirstats(fd, dname, details)`. -/
def write_dirstats (w : World) (dname : Bytes) (details : Bool) : Emit :=
  match w.opendir dname with
  | none => ⟨[], false⟩
  | some names => write_dirstats_loop w dname details names

/-- The listing part of `handle_dir_common` (between the choice of `fd` and the
label `bail`). -/
def dir_listing (w : World) (g : Globals) (full_details : Bool) : Emit :=
  match g.ftp_arg with
  | some arg =>
    match w.lstat arg with
    | none => ⟨[], true⟩
    | some statbuf =>
      if S_ISREG statbuf.st_mode || S_ISLNK statbuf.st_mode then
        write_filestats w arg (some statbuf)
      else if S_ISDIR statbuf.st_mode then write_dirstats w arg full_details
      else ⟨[], true⟩
  | none => write_dirstats w [46] full_details

/-- Function `handle_dir_common(full_details, stat_cmd)`. -/
def handle_dir_common (w : World) (g : Globals) (full_details stat_cmd : Bool) : Step :=
  let c := data_transfer_checks_ok g
  if !stat_cmd && !c.2 then .ok c.1 ()
  else if stat_cmd then
    let g := g.write (str "213-Status follows:\r\n")
    let e := dir_listing w g full_details
    let g := g.write e.bytes
    if e.alive then .ok (g.write (cmdio_write_ok FTP_STATFILE_OK)) ()
    else .exit g 1
  else
    match get_remote_transfer_fd w g (str " Here comes the directory listing") with
    | .exit g n => .exit g n
    | .fault g => .fault g
    | .ok g fd =>
      let bail (g : Globals) : Step :=
        let g := ftpdataio_dispose_transfer_fd w g
        let g := port_pasv_cleanup g
        .ok (g.write (cmdio_write_ok FTP_TRANSFEROK)) ()
      if fd < 0 then bail g
      else
        let e := dir_listing w g full_details
        if e.bytes ≠ [] && !w.data_write then .exit g 1
        else
          let g := { g with data := g.data ++ e.bytes }
          if e.alive then bail g else .exit g 1

/-- Function `handle_list`. -/
def handle_list (w : World) (g : Globals) : Step := handle_dir_common w g true false

/-- Function `handle_nlst`. -/
def handle_nlst (w : World) (g : Globals) : Step := handle_dir_common w g false false

/-- Function `handle_stat_file`. -/
def handle_stat_file (w : World) (g : Globals) : Step := handle_dir_common w g true true

/-! ## Upload commands (lines 730-866) -/

/-- Function `handle_mkd`. -/
def handle_mkd (w : World) (g : Globals) : Step :=
  match g.ftp_arg with
  | none => .ok (g.write (cmdio_write_error FTP_FILEFAIL)) ()
  | some arg =>
    let g := g.log (.mkdir arg (w.mkdir arg))
    if w.mkdir arg ≠ 0 then .ok (g.write (cmdio_write_error FTP_FILEFAIL)) ()
    else .ok (g.write (cmdio_write_ok FTP_MKDIROK)) ()

/-- Function `handle_rmd`. -/
def handle_rmd (w : World) (g : Globals) : Step :=
  match g.ftp_arg with
  | none => .ok (g.write (cmdio_write_error FTP_FILEFAIL)) ()
  | some arg =>
    let g := g.log (.rmdir arg (w.rmdir arg))
    if w.rmdir arg ≠ 0 then .ok (g.write (cmdio_write_error FTP_FILEFAIL)) ()
    else .ok (g.write (cmdio_write_ok FTP_RMDIROK)) ()

/-- Function `handle_dele`. -/
def handle_dele (w : World) (g : Globals) : Step :=
  match g.ftp_arg with
  | none => .ok (g.write (cmdio_write_error FTP_FILEFAIL)) ()
  | some arg =>
    let g := g.log (.unlink arg (w.unlink arg))
    if w.unlink arg ≠ 0 then .ok (g.write (cmdio_write_error FTP_FILEFAIL)) ()
    else .ok (g.write (cmdio_write_ok FTP_DELEOK)) ()

/-- Function `xstrdup` of libbb (not part of `ftpd.c`): a copy of the string, and
NULL for NULL. -/
def xstrdup (s : Option Bytes) : Option Bytes := s

/-- Function `handle_rnfr`. -/
def handle_rnfr (g : Globals) : Step :=
  .ok ({ g with rnfr_filename := xstrdup g.ftp_arg }.write (cmdio_write_ok FTP_RNFROK)) ()

/-- Function `handle_rnto`. -/
def handle_rnto (w : World) (g : Globals) : Step :=
  match g.rnfr_filename, g.ftp_arg with
  | some rnfr, some arg =>
    let retval := w.rename rnfr arg
    let g := { g.log (.rename rnfr arg retval) with rnfr_filename := none }
    if retval ≠ 0 then .ok (g.write (cmdio_write_error FTP_FILEFAIL)) ()
    else .ok (g.write (cmdio_write_ok FTP_RENAMEOK)) ()
  | _, _ => .ok (g.write (str "503 RNFR required first\r\n")) ()

/-- Function `handle_upload_common(is_append, is_unique)`. -/
def handle_upload_common (w : World) (g : Globals) (is_append is_unique : Bool) : Step :=
  let offset := g.restart_pos
  let g := { g with restart_pos := 0 }
  let c := data_transfer_checks_ok g
  if !c.2 then .ok c.1 ()
  else
    let g := c.1
    -- the local file: descriptor, the `tempname` of STOU, the call made
    let f : Int × Option Bytes × Globals :=
      if is_unique then
        (w.mkstemp.1, some (str " FILE: " ++ w.mkstemp.2),
          g.log (.mkstemp w.mkstemp.1 w.mkstemp.2))
      else
        match g.ftp_arg with
        | some arg =>
          let flags := O_WRONLY ||| O_CREAT ||| O_TRUNC
          let flags := if is_append then O_WRONLY ||| O_CREAT ||| O_APPEND else flags
          let flags := if offset ≠ 0 then O_WRONLY ||| O_CREAT else flags
          (w.open_ arg flags, none, g.log (.open_ arg flags (w.open_ arg flags)))
        | none => (-1, none, g)
    let local_file_fd := f.1
    let tempname := f.2.1
    let g := f.2.2
    if local_file_fd < 0 then .ok (g.write (cmdio_write_error FTP_UPLOADFAIL)) ()
    else if offset ≠ 0 && !w.xlseek then .exit g 1
    else
      let g := if offset ≠ 0 then g.log (.lseek local_file_fd offset) else g
      let msg := match tempname with
        | some t => t
        | none => str " Ok to send data"
      match get_remote_transfer_fd w g msg with
      | .exit g n => .exit g n
      | .fault g => .fault g
      | .ok g remote_fd =>
        if remote_fd < 0 then
          -- goto bail
          .ok ((port_pasv_cleanup g).log (.close local_file_fd)) ()
        else
          let trans_ret := w.bb_copyfd_eof
          let g := g.log (.copyfd remote_fd local_file_fd trans_ret)
          let g := ftpdataio_dispose_transfer_fd w g
          let g :=
            if trans_ret < 0 then g.write (cmdio_write_error FTP_BADSENDFILE)
            else g.write (cmdio_write_ok FTP_TRANSFEROK)
          .ok ((port_pasv_cleanup g).log (.close local_file_fd)) ()

/-- Function `handle_stor`. -/
def handle_stor (w : World) (g : Globals) : Step := handle_upload_common w g false false

/-- Function `handle_appe`. -/
def handle_appe (w : World) (g : Globals) : Step :=
  handle_upload_common w { g with restart_pos := 0 } true false

/-- Function `handle_stou`. -/
def handle_stou (w : World) (g : Globals) : Step :=
  handle_upload_common w { g with restart_pos := 0 } false true

/-! ## The command loop of `ftpd_main` (lines 1005-1112) -/

/-- The part `else if (G.opts & OPT_w) { ... }` of the loop: the chain of
write verbs, which has no final `else`. -/
def dispatch_write (w : World) (g : Globals) (cmdval : Nat) : Step :=
  if cmdval = const_STOR then handle_stor w g
  else if cmdval = const_MKD then handle_mkd w g
  else if cmdval = const_RMD then handle_rmd w g
  else if cmdval = const_DELE then handle_dele w g
  else if cmdval = const_RNFR then handle_rnfr g
  else if cmdval = const_RNTO then handle_rnto w g
  else if cmdval = const_APPE then handle_appe w g
  else if cmdval = const_STOU then handle_stou w g
  else .ok g ()

/-- The body of the loop behind the test for QUIT: the chain
`if (cmdval == const_PWD) ... else if ... else { 500 Unknown command }`. -/
def dispatch (w : World) (g : Globals) (cmdval : Nat) : Step :=
  if cmdval = const_PWD then handle_pwd w g
  else if cmdval = const_CWD then handle_cwd w g
  else if cmdval = const_CDUP then handle_cdup w g
  else if cmdval = const_PASV then handle_pasv w g
  else if cmdval = const_RETR then handle_retr w g
  else if cmdval = const_NOOP then .ok (g.write (cmdio_write_ok FTP_NOOPOK)) ()
  else if cmdval = const_SYST then .ok (g.write (str "215 UNIX Type: L8\r\n")) ()
  else if cmdval = const_HELP then handle_help g
  else if cmdval = const_LIST then handle_list w g
  else if cmdval = const_TYPE then .ok (g.write (cmdio_write_ok FTP_TYPEOK)) ()
  else if cmdval = const_PORT then handle_port w g
  else if cmdval = const_REST then handle_rest w g
  else if cmdval = const_NLST then handle_nlst w g
  else if cmdval = const_STRU then .ok (g.write (cmdio_write_ok FTP_STRUOK)) ()
  else if cmdval = const_MODE then .ok (g.write (cmdio_write_ok FTP_MODEOK)) ()
  else if cmdval = const_ALLO then .ok (g.write (cmdio_write_ok FTP_ALLOOK)) ()
  else if cmdval = const_STAT then
    match g.ftp_arg with
    | none => handle_stat g
    | some _ => handle_stat_file w g
  else if cmdval = const_USER then .ok (g.write (cmdio_write_ok FTP_GIVEPWORD)) ()
  else if cmdval = const_PASS then .ok (g.write (cmdio_write_ok FTP_LOGINOK)) ()
  else if g.opts_w then dispatch_write w g cmdval
  else .ok (g.write (str "500 Unknown command\r\n")) ()

/-- One round of the `while (1)` loop of `ftpd_main`: read a command with
`cmdio_get_cmd_and_arg`, answer QUIT and leave, or dispatch. -/
def ftpd_iter (w : World) (g : Globals) (line : Option Bytes) : Step :=
  match cmdio_get_cmd_and_arg w.oob line with
  | none => .exit g 0
  | some c =>
    let g := { g with ftp_arg := c.ftp_arg }
    if c.cmdval = const_QUIT then .exit (g.write (str "221 Goodbye\r\n")) 0
    else dispatch w g c.cmdval

/-- The loop of `ftpd_main` over the lines the peer sends, each with the
outcomes of the calls made while it is handled; `none` is end of input.  When
the lines run out the state reached is returned. -/
def ftpd_loop : Globals → List (World × Option Bytes) → Step
  | g, [] => .ok g ()
  | g, (w, line) :: rest =>
    match ftpd_iter w g line with
    | .ok g _ => ftpd_loop g rest
    | .exit g n => .exit g n
    | .fault g => .fault g

/-- The verbs of the dispatch table, as tokens (QUIT apart). -/
def known_verbs : List Nat :=
  [const_PWD, const_CWD, const_CDUP, const_PASV, const_RETR, const_NOOP, const_SYST,
   const_HELP, const_LIST, const_TYPE, const_PORT, const_REST, const_NLST, const_STRU,
   const_MODE, const_ALLO, const_STAT, const_USER, const_PASS, const_STOR, const_MKD,
   const_RMD, const_DELE, const_RNFR, const_RNTO, const_APPE, const_STOU]

/-! ## A sample world

Every call succeeds; numbers are parsed as decimal digits; addresses are taken
as they come. -/

/-- Decimal digits to a number; `none` when the string is empty, has another
byte, or the number exceeds `max`. -/
def parse_dec (max : Nat) (s : Bytes) : Option Nat :=
  if s = [] ∨ ¬ s.all (fun b => decide (48 ≤ b ∧ b ≤ 57)) then none
  else
    let n := s.foldl (fun acc b => acc * 10 + (b - 48)) 0
    if n ≤ max then some n else none

/-- The part behind the last `/`, as `bb_get_last_path_component_nostrip` finds it. -/
def last_component (path : Bytes) : Bytes :=
  match strrchr path 47 with
  | none => path
  | some k => if k = 0 ∧ path.drop 1 = [] then path else path.drop (k + 1)

/-- A world in which every call succeeds. -/
def calm : World :=
  { oob := fun _ => 0
    getcwd := some (str "/")
    chdir := fun _ => 0
    xsocket := some 3
    rand := fun k => 40000 + k
    bind := fun _ _ => 0
    xlisten := true
    sockaddr2dotted := str "127.0.0.1"
    xatou16 := parse_dec 65535
    xdotted2sockaddr := fun host port => some (some ⟨host, port⟩)
    xatoi_u := parse_dec 2147483647
    accept := 4
    xconnect_stream := some 4
    open_ := fun _ _ => 5
    fstat := (0, ⟨S_IFREG ||| 0o644, 1, 5, 0⟩)
    xlseek := true
    bb_copyfd_eof := 5
    close_data := 0
    mkstemp := (5, str "uniq.a1B2c3")
    lstat := fun _ => some ⟨S_IFREG ||| 0o644, 1, 5, 0⟩
    opendir := fun _ => some []
    readlink := fun _ => none
    strftime := fun _ => str "Jan 01 00:00"
    last_path_component := last_component
    data_write := true
    mkdir := fun _ => 0
    rmdir := fun _ => 0
    unlink := fun _ => 0
    rename := fun _ _ => 0 }

/-! ## The claims in the words of the specification -/

/-- The message as the specification wants it on the wire: every 0xFF doubled,
every LF replaced by NUL. -/
def spec_message (s : Bytes) : Bytes :=
  s.flatMap (fun b => if b = 255 then [255, 255] else if b = 10 then [0] else [b])

/-- A string with every `"` doubled. -/
def spec_quote (s : Bytes) : Bytes :=
  s.flatMap (fun b => if b = 34 then [34, 34] else [b])

/-- ASCII `toupper`: only the letters `a`..`z` change. -/
def toupper (b : Nat) : Nat := if 97 ≤ b ∧ b ≤ 122 then b - 32 else b

/-- Two byte strings differ only in the case of ASCII letters. -/
def same_case (u v : Bytes) : Prop := u.map toupper = v.map toupper

instance (u v : Bytes) : Decidable (same_case u v) :=
  inferInstanceAs (Decidable (u.map toupper = v.map toupper))

/-- The verb of a command line: trailing CR bytes are stripped, the first
space (if any) ends the verb. -/
def spec_verb (line : Bytes) : Bytes :=
  (line.rdropWhile (· == 13)).takeWhile (· != 32)

/-- The token of a verb: per byte, shift left by 8 bits and add the byte under
the upper-case mask, in 32 bits. -/
def spec_token (verb : Bytes) : Nat :=
  verb.foldl (fun cmdval b => (cmdval * 2 ^ 8 + (b &&& 0xDF)) % 2 ^ 32) 0

/-- The argument of a command line: what follows the first space of the line
without its trailing CR bytes; absent when there is no space. -/
def spec_arg (line : Bytes) : Option Bytes :=
  match (line.rdropWhile (· == 13)).dropWhile (· != 32) with
  | [] => none
  | _ :: arg => some arg

/-- The verbs of the dispatch table with their tokens. -/
def verb_table : List (Bytes × Nat) :=
  [(str "ALLO", const_ALLO), (str "APPE", const_APPE), (str "CDUP", const_CDUP),
   (str "CWD", const_CWD), (str "DELE", const_DELE), (str "HELP", const_HELP),
   (str "LIST", const_LIST), (str "MKD", const_MKD), (str "MODE", const_MODE),
   (str "NLST", const_NLST), (str "NOOP", const_NOOP), (str "PASS", const_PASS),
   (str "PASV", const_PASV), (str "PORT", const_PORT), (str "PWD", const_PWD),
   (str "QUIT", const_QUIT), (str "REST", const_REST), (str "RETR", const_RETR),
   (str "RMD", const_RMD), (str "RNFR", const_RNFR), (str "RNTO", const_RNTO),
   (str "STAT", const_STAT), (str "STOR", const_STOR), (str "STOU", const_STOU),
   (str "STRU", const_STRU), (str "SYST", const_SYST), (str "TYPE", const_TYPE),
   (str "USER", const_USER)]

/-- The type glyph of a mode. -/
def spec_type_glyph (m : Nat) : Nat :=
  if m &&& S_IFMT = S_IFREG then 45        -- `-` regular file
  else if m &&& S_IFMT = S_IFDIR then 100  -- `d` directory
  else if m &&& S_IFMT = S_IFLNK then 108  -- `l` symlink
  else if m &&& S_IFMT = S_IFIFO then 112  -- `p` FIFO
  else if m &&& S_IFMT = S_IFSOCK then 115 -- `s` socket
  else if m &&& S_IFMT = S_IFCHR then 99   -- `c` character device
  else if m &&& S_IFMT = S_IFBLK then 98   -- `b` block device
  else 63                                  -- `?`

/-- Glyph of a read or write bit: the letter when the bit is set, else `-`. -/
def spec_glyph (m mask letter : Nat) : Nat := if m &&& mask ≠ 0 then letter else 45

/-- Glyph at an execute position: when the special bit (setuid, setgid,
sticky) is set, the letter `lo` if the execute bit is set too and `up`
otherwise; else `x` or `-`. -/
def spec_exec_glyph (m xmask smask lo up : Nat) : Nat :=
  if m &&& smask ≠ 0 then (if m &&& xmask ≠ 0 then lo else up)
  else if m &&& xmask ≠ 0 then 120 else 45

/-- The ten glyphs of a mode as the specification describes them. -/
def spec_perms (m : Nat) : Bytes :=
  [spec_type_glyph m,
   spec_glyph m S_IRUSR 114, spec_glyph m S_IWUSR 119, spec_exec_glyph m S_IXUSR S_ISUID 115 83,
   spec_glyph m S_IRGRP 114, spec_glyph m S_IWGRP 119, spec_exec_glyph m S_IXGRP S_ISGID 115 83,
   spec_glyph m S_IROTH 114, spec_glyph m S_IWOTH 119, spec_exec_glyph m S_IXOTH S_ISVTX 116 84]

/-- The part of the session a command can pass on to later commands. -/
def Globals.held (g : Globals) : Option Bytes × Nat × Option Sockaddr × Int × Bool :=
  (g.rnfr_filename, g.restart_pos, g.port_addr, g.pasv_listen_fd, g.opts_w)

/-- What one round of the command loop with token `c` does to the pending
rename source, the restart offset and the option `-w`, from `g` to `g2`. -/
def step_spec (g g2 : Globals) (c : Nat) : Prop :=
  g2.opts_w = g.opts_w
  ∧ (c ≠ const_RNFR → c ≠ const_RNTO → g2.rnfr_filename = g.rnfr_filename)
  ∧ (c = const_RNFR → g.opts_w = true → g2.rnfr_filename = g.ftp_arg)
  ∧ (c = const_RNTO → g.opts_w = true → g.ftp_arg ≠ none → g2.rnfr_filename = none)
  ∧ (c ≠ const_REST → c ≠ const_RETR →
      (g.opts_w = true → c ≠ const_STOR ∧ c ≠ const_APPE ∧ c ≠ const_STOU) →
      g2.restart_pos = g.restart_pos)
  ∧ (c = const_RETR ∨ (g.opts_w = true ∧ (c = const_STOR ∨ c = const_APPE ∨ c = const_STOU)) →
      g2.restart_pos = 0)

/-- The token `cmdio_get_cmd_and_arg` computes for a line; `none` at end of input. -/
def verb_token (x : World × Option Bytes) : Option Nat :=
  (cmdio_get_cmd_and_arg x.1.oob x.2).map Cmd.cmdval

/-- The command is a REST. -/
def is_rest (x : World × Option Bytes) : Prop := verb_token x = some const_REST

/-- The command is one whose handler zeroes `restart_pos`: RETR, and in write
mode STOR, APPE and STOU. -/
def clears_restart (opts_w : Bool) (x : World × Option Bytes) : Prop :=
  verb_token x = some const_RETR
  ∨ (opts_w = true ∧ (verb_token x = some const_STOR ∨ verb_token x = some const_APPE
      ∨ verb_token x = some const_STOU))

/-- Neither a passive listener nor an active peer address is held. -/
def endpoint_absent (g : Globals) : Prop := pasv_active g = false ∧ port_active g = false

/-- The sample world, except that no file can be opened. -/
def calm_no_open : World := { calm with open_ := fun _ _ => -1 }

/-- The sample world, except that `bind` fails nine times before it succeeds. -/
def calm_bind_tenth : World := { calm with bind := fun k _ => if k < 9 then -1 else 0 }

/-- The calls of `bind` number `k` to `k + n - 1` of one PASV command, on the
socket `fd`, as they are logged. -/
def bind_events (w : World) (fd : Int) (k : Nat) : Nat → List Event
  | 0 => []
  | n + 1 =>
    .bind fd (pasv_port (w.rand k)) (w.bind k (pasv_port (w.rand k)))
      :: bind_events w fd (k + 1) n

/-- The response `handle_pasv` formats for the port it bound. -/
def pasv_response (w : World) (port : Nat) : Bytes :=
  str " Entering Passive Mode (" ++ cstr (replace_char (w.sockaddr2dotted ++ [0]) 46 44)
    ++ [44] ++ utoa (port >>> 8) ++ [44] ++ utoa (port &&& 255) ++ [41]

/-- The argument `cmdio_get_cmd_and_arg` leaves in `G.ftp_arg` for a line;
`none` is NULL. -/
def arg_of (x : World × Option Bytes) : Option Bytes :=
  (cmdio_get_cmd_and_arg x.1.oob x.2).bind Cmd.ftp_arg

/-- Whether an RNFR has been handled since the start of the session and since
the last RNTO, for a session whose RNFR and RNTO all carry an argument (an
RNTO then either reaches the rename or finds nothing pending). -/
def spec_pending (cmds : List (World × Option Bytes)) : Bool :=
  cmds.foldl (fun p x =>
    if verb_token x = some const_RNFR then true
    else if verb_token x = some const_RNTO then false
    else p) false

/-! ## Lemmas on C strings -/

theorem utoa_loop_digits (fuel n : Nat) (acc : Bytes)
    (hacc : ∀ b ∈ acc, 48 ≤ b ∧ b ≤ 57) :
    ∀ b ∈ utoa_loop fuel n acc, 48 ≤ b ∧ b ≤ 57 := by
  induction fuel generalizing n acc with
  | zero => simpa [utoa_loop] using hacc
  | succ f ih =>
    have hd : ∀ b ∈ (48 + n % 10) :: acc, 48 ≤ b ∧ b ≤ 57 := by
      intro b hb
      rcases List.mem_cons.1 hb with h | h
      · subst h; omega
      · exact hacc b h
    unfold utoa_loop
    split
    · exact hd
    · exact ih _ _ hd

theorem utoa_digits (n : Nat) : ∀ b ∈ utoa n, 48 ≤ b ∧ b ≤ 57 :=
  utoa_loop_digits _ _ _ (by simp)

theorem digitChar_toNat (d : Nat) (h : d < 10) : (Nat.digitChar d).toNat = 48 + d := by
  interval_cases d <;> rfl

/-- The digits of `utoa` are those of the decimal numeral of the library. -/
theorem utoa_loop_toDigits (fuel n : Nat) (ds : List Char) :
    utoa_loop fuel n (ds.map Char.toNat)
      = (Nat.toDigitsCore 10 fuel n ds).map Char.toNat := by
  induction fuel generalizing n ds with
  | zero => rfl
  | succ f ih =>
    unfold utoa_loop Nat.toDigitsCore
    have hd : 48 + n % 10 = (Nat.digitChar (n % 10)).toNat :=
      (digitChar_toNat _ (Nat.mod_lt _ (by decide))).symm
    simp only
    split
    · rw [hd]; rfl
    · rw [hd]
      exact ih _ (Nat.digitChar (n % 10) :: ds)

theorem utoa_toDigits (n : Nat) : utoa n = (Nat.toDigits 10 n).map Char.toNat :=
  utoa_loop_toDigits (n + 1) n []

theorem strlen_append_nul (l t : Bytes) (h0 : 0 ∉ l) : strlen (l ++ 0 :: t) = l.length := by
  induction l with
  | nil => simp [strlen]
  | cons b l ih =>
    have hb : b ≠ 0 := fun h => h0 (by simp [h])
    have hl : 0 ∉ l := fun h => h0 (by simp [h])
    simp [strlen, hb, ih hl]

theorem cstr_append_nul (l t : Bytes) (h0 : 0 ∉ l) : cstr (l ++ 0 :: t) = l := by
  induction l with
  | nil => simp [cstr]
  | cons b l ih =>
    have hb : b ≠ 0 := fun h => h0 (by simp [h])
    have hl : 0 ∉ l := fun h => h0 (by simp [h])
    simp [cstr, hb, ih hl]

theorem cstr_self (l : Bytes) (h0 : 0 ∉ l) : cstr l = l := by
  induction l with
  | nil => simp [cstr]
  | cons b l ih =>
    have hb : b ≠ 0 := fun h => h0 (by simp [h])
    have hl : 0 ∉ l := fun h => h0 (by simp [h])
    simp [cstr, hb, ih hl]

theorem strchr_none (l : Bytes) (c : Nat) (hc : c ∉ l) : strchr l c = none := by
  induction l with
  | nil => simp [strchr]
  | cons b l ih =>
    have hb : b ≠ c := fun h => hc (by simp [h])
    have hl : c ∉ l := fun h => hc (by simp [h])
    simp [strchr, hb, ih hl]

theorem strchr_found (pre t : Bytes) (c : Nat) (hc : c ∉ pre) (h0 : 0 ∉ pre) :
    strchr (pre ++ c :: t) c = some pre.length := by
  induction pre with
  | nil => simp [strchr]
  | cons b l ih =>
    have hb : b ≠ c := fun h => hc (by simp [h])
    have hb0 : b ≠ 0 := fun h => h0 (by simp [h])
    have hl : c ∉ l := fun h => hc (by simp [h])
    have hl0 : 0 ∉ l := fun h => h0 (by simp [h])
    simp [strchr, hb, hb0, ih hl hl0]

theorem strchr_nul (pre t : Bytes) (c : Nat) (hc : c ∉ pre) (hc0 : c ≠ 0) :
    strchr (pre ++ 0 :: t) c = none := by
  induction pre with
  | nil => simp [strchr, Ne.symm hc0]
  | cons b l ih =>
    have hb : b ≠ c := fun h => hc (by simp [h])
    have hl : c ∉ l := fun h => hc (by simp [h])
    simp [strchr, hb, ih hl]

theorem take_length_append (pre t : Bytes) : (pre ++ t).take pre.length = pre := by
  induction pre with
  | nil => simp
  | cons b l ih => simp [ih]

theorem drop_length_succ_append (pre t : Bytes) (c : Nat) :
    (pre ++ c :: t).drop (pre.length + 1) = t := by
  induction pre with
  | nil => simp
  | cons b l ih => simp [ih]

theorem flatMap_id_of_not_mem (l to_s : Bytes) (c : Nat) (hc : c ∉ l) :
    l.flatMap (fun b => if b = c then to_s else [b]) = l := by
  induction l with
  | nil => simp
  | cons b l ih =>
    have hb : b ≠ c := fun h => hc (by simp [h])
    have hl : c ∉ l := fun h => hc (by simp [h])
    simp [hb, ih hl]

/-- The loop of `replace_text` replaces every `c` of a NUL-free string. -/
theorem replace_text_loop_eq (c : Nat) (to_s : Bytes) :
    ∀ (fuel : Nat) (remain ret : Bytes), 0 ∉ remain → remain.length < fuel →
      replace_text_loop c to_s fuel remain ret
        = ret ++ remain.flatMap (fun b => if b = c then to_s else [b]) := by
  intro fuel
  induction fuel with
  | zero => intro remain ret _ h; omega
  | succ f ih =>
    intro remain ret h0 hlen
    by_cases hmem : c ∈ remain
    · obtain ⟨pre, post, rfl, hpre⟩ := List.eq_append_cons_of_mem hmem
      have hpre0 : 0 ∉ pre := fun h => h0 (by simp [h])
      have hpost0 : 0 ∉ post := fun h => h0 (by simp [h])
      have hlen2 : post.length < f := by
        simp only [List.length_append, List.length_cons] at hlen; omega
      unfold replace_text_loop
      rw [strchr_found pre post c hpre hpre0]
      simp only
      rw [drop_length_succ_append, take_length_append, ih post _ hpost0 hlen2]
      simp [flatMap_id_of_not_mem pre to_s c hpre]
    · unfold replace_text_loop
      rw [strchr_none remain c hmem, cstr_self remain h0,
        flatMap_id_of_not_mem remain to_s c hmem]

theorem replace_text_eq (s to_s : Bytes) (c : Nat) (h0 : 0 ∉ s) :
    replace_text s c to_s = s.flatMap (fun b => if b = c then to_s else [b]) := by
  unfold replace_text
  rw [replace_text_loop_eq c to_s _ _ _ h0 (Nat.lt_succ_self _)]
  simp

theorem map_id_of_not_mem (l : Bytes) (c to_c : Nat) (hc : c ∉ l) :
    l.map (fun b => if b = c then to_c else b) = l := by
  induction l with
  | nil => simp
  | cons b l ih =>
    have hb : b ≠ c := fun h => hc (by simp [h])
    have hl : c ∉ l := fun h => hc (by simp [h])
    simp [hb, ih hl]

/-- The loop of `replace_char` replaces every `c` in front of the first NUL and
leaves the NUL and what follows it alone. -/
theorem replace_char_loop_eq (c to_c : Nat) (hc0 : c ≠ 0) (t : Bytes) :
    ∀ (fuel : Nat) (l : Bytes), 0 ∉ l → l.length ≤ fuel →
      replace_char_loop c to_c fuel (l ++ 0 :: t)
        = l.map (fun b => if b = c then to_c else b) ++ 0 :: t := by
  intro fuel
  induction fuel with
  | zero =>
    intro l _ hlen
    have : l = [] := List.eq_nil_of_length_eq_zero (by omega)
    subst this
    simp [replace_char_loop]
  | succ f ih =>
    intro l h0 hlen
    by_cases hmem : c ∈ l
    · obtain ⟨pre, post, rfl, hpre⟩ := List.eq_append_cons_of_mem hmem
      have hpre0 : 0 ∉ pre := fun h => h0 (by simp [h])
      have hpost0 : 0 ∉ post := fun h => h0 (by simp [h])
      have hlen2 : post.length ≤ f := by
        simp only [List.length_append, List.length_cons] at hlen; omega
      unfold replace_char_loop
      have hs : strchr ((pre ++ c :: post) ++ 0 :: t) c = some pre.length := by
        rw [List.append_assoc]; exact strchr_found pre _ c hpre hpre0
      rw [hs]
      simp only
      have e : (pre ++ c :: post) ++ 0 :: t = pre ++ (c :: (post ++ 0 :: t)) := by simp
      rw [e, drop_length_succ_append, take_length_append, ih post hpost0 hlen2]
      simp [map_id_of_not_mem pre c to_c hpre]
    · unfold replace_char_loop
      rw [strchr_nul l t c hmem hc0, map_id_of_not_mem l c to_c hmem]

theorem replace_char_eq (l t : Bytes) (c to_c : Nat) (hc0 : c ≠ 0) (h0 : 0 ∉ l) :
    replace_char (l ++ 0 :: t) c to_c
      = l.map (fun b => if b = c then to_c else b) ++ 0 :: t := by
  unfold replace_char
  exact replace_char_loop_eq c to_c hc0 t _ l h0 (by simp)

theorem set_length_append (l t : Bytes) (a b : Nat) :
    (l ++ a :: t).set l.length b = l ++ b :: t := by
  induction l with
  | nil => simp
  | cons x l ih => simp [ih]

theorem take_length_succ_append (l : Bytes) (a : Nat) :
    (l ++ [a]).take (l.length + 1) = l ++ [a] := by
  rw [List.take_of_length_le]; simp

theorem escape_then_lf (s : Bytes) :
    (s.flatMap (fun b => if b = 255 then [255, 255] else [b])).map
        (fun b => if b = 10 then 0 else b) = spec_message s := by
  unfold spec_message
  induction s with
  | nil => simp
  | cons b l ih =>
    simp only [List.flatMap_cons, List.map_append, ih]
    congr 1
    by_cases h1 : b = 255
    · subst h1; simp
    · by_cases h2 : b = 10
      · subst h2; simp
      · simp [h1, h2]

theorem escape_no_nul (s : Bytes) (h0 : 0 ∉ s) :
    0 ∉ s.flatMap (fun b => if b = 255 then [255, 255] else [b]) := by
  intro h
  rw [List.mem_flatMap] at h
  obtain ⟨b, hb, h⟩ := h
  by_cases h1 : b = 255
  · simp [h1] at h
  · simp only [h1, if_false, List.mem_singleton] at h
    exact h0 (h ▸ hb)

/-- What `cmdio_write` hands to `xwrite`, for a NUL-free message. -/
theorem cmdio_write_eq (status : Nat) (s : Bytes) (h0 : 0 ∉ s) :
    cmdio_write status s = utoa (status % 2 ^ 32) ++ spec_message s ++ [13, 10] := by
  have hd := utoa_digits (status % 2 ^ 32)
  have hesc := escape_no_nul s h0
  have hc0 : 0 ∉ utoa (status % 2 ^ 32)
      ++ s.flatMap (fun b => if b = 255 then [255, 255] else [b]) ++ [13] := by
    intro h
    rcases List.mem_append.1 h with h | h
    · rcases List.mem_append.1 h with h | h
      · have := hd 0 h; omega
      · exact hesc h
    · simp at h
  have hu : (utoa (status % 2 ^ 32)).map (fun b => if b = 10 then 0 else b)
      = utoa (status % 2 ^ 32) := by
    apply map_id_of_not_mem
    intro h
    have := hd 10 h
    omega
  unfold cmdio_write
  simp only
  rw [replace_text_eq s _ 255 h0]
  have e : utoa (status % 2 ^ 32)
      ++ s.flatMap (fun b => if b = 255 then [255, 255] else [b]) ++ [13, 0]
      = (utoa (status % 2 ^ 32)
      ++ s.flatMap (fun b => if b = 255 then [255, 255] else [b]) ++ [13]) ++ 0 :: [] := by
    simp
  rw [e, strlen_append_nul _ _ hc0, replace_char_eq _ _ 10 0 (by decide) hc0]
  rw [← List.length_map (utoa (status % 2 ^ 32)
      ++ s.flatMap (fun b => if b = 255 then [255, 255] else [b]) ++ [13])
      (fun b => if b = 10 then 0 else b)]
  rw [set_length_append, take_length_succ_append]
  simp only [List.map_append, hu, escape_then_lf]
  simp

theorem spec_message_no_lf (s : Bytes) : 10 ∉ spec_message s := by
  unfold spec_message
  intro h
  rw [List.mem_flatMap] at h
  obtain ⟨b, _, h⟩ := h
  by_cases h1 : b = 255
  · simp [h1] at h
  · by_cases h2 : b = 10
    · simp [h2] at h
    · simp only [h1, h2, if_false, List.mem_singleton] at h
      exact h2 h.symm

theorem spec_message_append (u v : Bytes) :
    spec_message (u ++ v) = spec_message u ++ spec_message v := by
  simp [spec_message]

theorem spec_message_id (s : Bytes) (hlf : 10 ∉ s) (hff : 255 ∉ s) : spec_message s = s := by
  unfold spec_message
  induction s with
  | nil => simp
  | cons b l ih =>
    have h1 : b ≠ 10 := fun h => hlf (by simp [h])
    have h2 : b ≠ 255 := fun h => hff (by simp [h])
    have hl1 : 10 ∉ l := fun h => hlf (by simp [h])
    have hl2 : 255 ∉ l := fun h => hff (by simp [h])
    simp [h1, h2, ih hl1 hl2]

theorem spec_quote_not_mem (s : Bytes) (c : Nat) (hc : c ≠ 34) (hs : c ∉ s) :
    c ∉ spec_quote s := by
  unfold spec_quote
  intro h
  rw [List.mem_flatMap] at h
  obtain ⟨b, hb, h⟩ := h
  by_cases h1 : b = 34
  · simp only [h1, if_true, List.mem_cons, List.mem_singleton, or_self, List.not_mem_nil,
      or_false] at h
    exact hc h
  · simp only [h1, if_false, List.mem_singleton] at h
    exact hs (h ▸ hb)

/-! ## C7: the reply operation -/

/-- C7: for every status number (an `unsigned`) and every NUL-free message,
`cmdio_write` writes the status in decimal, then the message with every 0xFF
byte doubled and every LF byte replaced by NUL, then CR LF.  Hence a 0xFF of
the message stands doubled at its place on the wire, and the only LF byte
written is the last byte.  (`utoa` yields the digits of the decimal numeral.) -/
theorem cmdio_write_wire (status : Nat) (s : Bytes) (hs : status < 2 ^ 32) (h0 : 0 ∉ s) :
    cmdio_write status s = utoa status ++ spec_message s ++ [13, 10]
    ∧ (∀ pre post : Bytes, s = pre ++ 255 :: post →
        cmdio_write status s
          = utoa status ++ spec_message pre ++ [255, 255] ++ spec_message post ++ [13, 10])
    ∧ 10 ∉ (cmdio_write status s).dropLast
    ∧ (cmdio_write status s).getLast? = some 10
    ∧ utoa status = (Nat.toDigits 10 status).map Char.toNat := by
  have e : cmdio_write status s = utoa status ++ spec_message s ++ [13, 10] := by
    rw [cmdio_write_eq status s h0, Nat.mod_eq_of_lt hs]
  refine ⟨e, ?_, ?_, ?_, utoa_toDigits status⟩
  · intro pre post hsplit
    rw [e, hsplit, spec_message_append]
    simp [spec_message]
  · have e2 : utoa status ++ spec_message s ++ [13, 10]
        = (utoa status ++ spec_message s ++ [13]) ++ [10] := by simp
    rw [e, e2, List.dropLast_concat]
    intro h
    rcases List.mem_append.1 h with h | h
    · rcases List.mem_append.1 h with h | h
      · have := utoa_digits status 10 h; omega
      · exact spec_message_no_lf s h
    · simp at h
  · rw [e]; simp

/-- C7, at status 200 and the message ` `, 0xFF, LF, `A`. -/
theorem cmdio_write_wire_witness :
    (200 < 2 ^ 32 ∧ 0 ∉ [32, 255, 10, 65])
    ∧ cmdio_write 200 [32, 255, 10, 65]
        = utoa 200 ++ spec_message [32, 255, 10, 65] ++ [13, 10] :=
  ⟨⟨by decide, by decide⟩, (cmdio_write_wire 200 [32, 255, 10, 65] (by decide) (by decide)).1⟩

/-! ## C10: PWD -/

/-- C10: for every working directory `cwd` (a C string) without LF and without
0xFF, `handle_pwd` writes `257 "`, then `cwd` with every `"` doubled, then
`"` CR LF, and nothing else changes; `/x"y` gives `257 "/x""y"` CR LF. -/
theorem handle_pwd_reply (w : World) (g : Globals) (cwd : Bytes)
    (hcwd : w.getcwd = some cwd) (h0 : 0 ∉ cwd) (hlf : 10 ∉ cwd) (hff : 255 ∉ cwd) :
    handle_pwd w g = .ok (g.write (str "257 \"" ++ spec_quote cwd ++ str "\"\r\n")) () := by
  have hq0 : 0 ∉ [32, 34] ++ spec_quote cwd ++ [34] := by
    intro h
    rcases List.mem_append.1 h with h | h
    · rcases List.mem_append.1 h with h | h
      · simp at h
      · exact spec_quote_not_mem cwd 0 (by decide) h0 h
    · simp at h
  have hqlf : 10 ∉ [32, 34] ++ spec_quote cwd ++ [34] := by
    intro h
    rcases List.mem_append.1 h with h | h
    · rcases List.mem_append.1 h with h | h
      · simp at h
      · exact spec_quote_not_mem cwd 10 (by decide) hlf h
    · simp at h
  have hqff : 255 ∉ [32, 34] ++ spec_quote cwd ++ [34] := by
    intro h
    rcases List.mem_append.1 h with h | h
    · rcases List.mem_append.1 h with h | h
      · simp at h
      · exact spec_quote_not_mem cwd 255 (by decide) hff h
    · simp at h
  have hu : utoa (FTP_PWDOK % 2 ^ 32) = [50, 53, 55] := by decide
  unfold handle_pwd
  simp only [hcwd]
  rw [replace_text_eq cwd _ 34 h0]
  change Res.ok (g.write (cmdio_write FTP_PWDOK ([32, 34] ++ spec_quote cwd ++ [34]))) () = _
  rw [cmdio_write_eq _ _ hq0, spec_message_id _ hqlf hqff, hu]
  have hs1 : str "257 \"" = [50, 53, 55, 32, 34] := by decide
  have hs2 : str "\"\r\n" = [34, 13, 10] := by decide
  rw [hs1, hs2]
  simp

/-- C10, in the sample world with the working directory `/x"y`: the reply is
`257 "/x""y"` CR LF. -/
theorem handle_pwd_reply_witness :
    ((({ calm with getcwd := some (str "/x\"y") } : World).getcwd = some (str "/x\"y"))
      ∧ 0 ∉ str "/x\"y" ∧ 10 ∉ str "/x\"y" ∧ 255 ∉ str "/x\"y")
    ∧ handle_pwd { calm with getcwd := some (str "/x\"y") } (G_init false)
        = .ok ((G_init false).write (str "257 \"/x\"\"y\"\r\n")) () :=
  ⟨⟨rfl, by decide, by decide, by decide⟩,
    handle_pwd_reply { calm with getcwd := some (str "/x\"y") } (G_init false) (str "/x\"y")
      rfl (by decide) (by decide) (by decide)⟩

/-! ## C9: permission glyphs -/

theorem set_getD_self (l : Bytes) (i d : Nat) : l.set i (l.getD i d) = l := by
  induction l generalizing i with
  | nil => simp
  | cons a l ih =>
    cases i with
    | zero => simp
    | succ n => simpa using ih n

theorem perm_bit_eq (m mask : Nat) (l : Bytes) (i v : Nat) :
    perm_bit m mask l i v = l.set i (if m &&& mask ≠ 0 then v else l.getD i 0) := by
  unfold perm_bit
  split
  · rfl
  · exact (set_getD_self l i 0).symm

theorem perm_special_eq (m mask : Nat) (l : Bytes) (i lo up : Nat) :
    perm_special m mask l i lo up
      = l.set i (if m &&& mask ≠ 0 then (if l.getD i 0 = 120 then lo else up)
          else l.getD i 0) := by
  unfold perm_special
  split
  · rfl
  · exact (set_getD_self l i 0).symm

theorem perm_type_cons (m : Nat) (l : Bytes) :
    perm_type m (63 :: l) = spec_type_glyph m :: l := by
  unfold perm_type spec_type_glyph
  split_ifs <;> rfl

theorem exec_glyph_eq (m xmask smask lo up : Nat) :
    (if m &&& smask ≠ 0 then
        (if (if m &&& xmask ≠ 0 then 120 else 45) = 120 then lo else up)
      else (if m &&& xmask ≠ 0 then 120 else 45))
      = spec_exec_glyph m xmask smask lo up := by
  unfold spec_exec_glyph
  by_cases hx : m &&& xmask ≠ 0 <;> simp [hx]

/-- C9: for every `st_mode`, `statbuf_getperms` yields exactly ten glyphs:
index 0 is the type glyph (`-` regular, `d` directory, `l` symlink, `p` FIFO,
`s` socket, `c` character device, `b` block device, `?` otherwise), indices 1-9
are the r/w/x glyphs of user, group and other (`-` for a clear bit), except
that index 3 is `s`/`S` under setuid, index 6 is `s`/`S` under setgid and
index 9 is `t`/`T` under the sticky bit, in lower case exactly when the
execute bit of that position is set too. -/
theorem statbuf_getperms_glyphs (m : Nat) :
    (statbuf_getperms m).length = 10 ∧ statbuf_getperms m = spec_perms m := by
  have e : statbuf_getperms m = spec_perms m := by
    unfold statbuf_getperms spec_perms
    simp only [List.replicate, List.set_cons_zero, perm_type_cons, perm_bit_eq, perm_special_eq,
      List.set_cons_succ, List.getD_cons_succ, List.getD_cons_zero, exec_glyph_eq]
    rfl
  exact ⟨by rw [e]; rfl, e⟩

/-! ## The command reader -/

theorem cmdval_loop_eq (v t : Bytes) (h0 : 0 ∉ v) (acc : Nat) :
    cmdval_loop (v ++ 0 :: t) acc
      = v.foldl (fun cmdval b => (cmdval * 2 ^ 8 + (b &&& 0xDF)) % 2 ^ 32) acc := by
  induction v generalizing acc with
  | nil => simp [cmdval_loop]
  | cons b l ih =>
    have hb : b ≠ 0 := fun h => h0 (by simp [h])
    have hl : 0 ∉ l := fun h => h0 (by simp [h])
    simp only [List.cons_append, cmdval_loop, hb, if_false, List.foldl_cons]
    exact ih hl _

/-- While the index stays outside of the buffer the CR loop leaves it alone. -/
theorem cr_loop_outside (oob : Nat → Nat) (cmd : Bytes) :
    ∀ (fuel len : Nat) (used : List Nat), cmd.length + fuel ≤ len + 1 → len < SIZE_MOD →
      (cr_loop oob fuel cmd len used).1 = cmd := by
  intro fuel
  induction fuel with
  | zero => intro len used _ _; rfl
  | succ f ih =>
    intro len used h1 h2
    have hout : ¬ len < cmd.length := by omega
    unfold cr_loop
    simp only [hout, if_false]
    split
    · rw [List.set_eq_of_length_le (by omega)]
      by_cases hz : len = 0
      · subst hz
        have hS : SIZE_MOD = 4294967296 := rfl
        apply ih
        · rw [hS]; omega
        · exact Nat.mod_lt _ (by decide)
      · have hm : (len + SIZE_MOD - 1) % SIZE_MOD = len - 1 := by
          have hS : SIZE_MOD = 4294967296 := rfl
          rw [hS] at h2 ⊢
          omega
        rw [hm]
        apply ih
        · omega
        · omega
    · rfl

theorem getD_length_append (l t : Bytes) (b d : Nat) : (l ++ b :: t).getD l.length d = b := by
  induction l with
  | nil => simp
  | cons a l ih => simpa using ih

/-- The CR loop leaves in the buffer the line without its trailing CR bytes. -/
theorem cr_loop_strip (oob : Nat → Nat) (l : Bytes) :
    ∀ (zs : Bytes) (fuel : Nat) (used : List Nat), 0 ∉ l → l.length < fuel →
      l.length + zs.length + 1 + fuel ≤ SIZE_MOD →
      ∃ zs2, (cr_loop oob fuel (l ++ 0 :: zs) ((l.length + SIZE_MOD - 1) % SIZE_MOD) used).1
        = l.rdropWhile (· == 13) ++ 0 :: zs2 := by
  induction l using List.reverseRecOn with
  | nil =>
    intro zs fuel used _ _ hb
    refine ⟨zs, ?_⟩
    have hS : SIZE_MOD = 4294967296 := rfl
    simp only [List.length_nil, Nat.zero_add, List.nil_append, List.rdropWhile_nil]
    apply cr_loop_outside
    · simp only [List.length_cons, List.length_nil] at hb ⊢
      rw [hS] at hb ⊢
      omega
    · exact Nat.mod_lt _ (by decide)
  | append_singleton l b ih =>
    intro zs fuel used h0 hf hb
    have hS : SIZE_MOD = 4294967296 := rfl
    have hl0 : 0 ∉ l := fun h => h0 (by simp [h])
    simp only [List.length_append, List.length_cons, List.length_nil] at hf hb
    rw [hS] at hb
    have hlen : ((l ++ [b]).length + SIZE_MOD - 1) % SIZE_MOD = l.length := by
      simp only [List.length_append, List.length_cons, List.length_nil]
      rw [hS]
      omega
    rw [hlen]
    cases fuel with
    | zero => omega
    | succ f =>
      have hin : l.length < ((l ++ [b]) ++ 0 :: zs).length := by simp
      have e : (l ++ [b]) ++ 0 :: zs = l ++ b :: (0 :: zs) := by simp
      unfold cr_loop
      simp only [hin, if_true]
      rw [e, getD_length_append]
      by_cases hcr : b = 13
      · subst hcr
        simp only [if_true]
        rw [set_length_append]
        obtain ⟨zs2, h⟩ := ih (0 :: zs) f (used ++ [l.length]) hl0 (by omega)
          (by simp only [List.length_cons]; rw [hS]; omega)
        refine ⟨zs2, ?_⟩
        rw [h, List.rdropWhile_concat_pos _ _ _ (by simp)]
      · simp only [hcr, if_false]
        refine ⟨zs, ?_⟩
        rw [List.rdropWhile_concat_neg _ _ _ (by simpa using hcr)]
        simp

theorem not_mem_rdropWhile (l : Bytes) (p : Nat → Bool) (c : Nat) (h : c ∉ l) :
    c ∉ l.rdropWhile p := fun hc => h (( List.rdropWhile_prefix p l).subset hc)

theorem takeWhile_dropWhile_found (pre post : Bytes) (hpre : 32 ∉ pre) :
    (pre ++ 32 :: post).takeWhile (· != 32) = pre
    ∧ (pre ++ 32 :: post).dropWhile (· != 32) = 32 :: post := by
  induction pre with
  | nil => simp
  | cons a l ih =>
    have ha : a ≠ 32 := fun h => hpre (by simp [h])
    have hl : 32 ∉ l := fun h => hpre (by simp [h])
    simp [ha, ih hl]

theorem takeWhile_dropWhile_none (l : Bytes) (h : 32 ∉ l) :
    l.takeWhile (· != 32) = l ∧ l.dropWhile (· != 32) = [] := by
  induction l with
  | nil => simp
  | cons a l ih =>
    have ha : a ≠ 32 := fun h2 => h (by simp [h2])
    have hl : 32 ∉ l := fun h2 => h (by simp [h2])
    simp [ha, ih hl]

/-- What `cmdio_get_cmd_and_arg` returns for a line of at most 8 KiB: the token
of the verb and the argument. -/
theorem cmdio_get_cmd_and_arg_eq (oob : Nat → Nat) (l : Bytes) (h0 : 0 ∉ l)
    (hlen : l.length ≤ 8192) :
    ∃ used, cmdio_get_cmd_and_arg oob (some l)
      = some ⟨spec_token (spec_verb l), spec_arg l, used⟩ := by
  have hS : SIZE_MOD = 4294967296 := rfl
  unfold cmdio_get_cmd_and_arg
  simp only
  have e : l ++ [0] = l ++ 0 :: [] := rfl
  rw [e, strlen_append_nul l [] h0]
  obtain ⟨zs2, h⟩ := cr_loop_strip oob l [] (l ++ 0 :: []).length [] h0 (by simp)
    (by simp only [List.length_append, List.length_cons, List.length_nil]; rw [hS]; omega)
  rw [h]
  have hs0 : 0 ∉ l.rdropWhile (· == 13) := not_mem_rdropWhile l _ 0 h0
  by_cases hsp : 32 ∈ l.rdropWhile (· == 13)
  · obtain ⟨pre, post, hsplit, hpre⟩ := List.eq_append_cons_of_mem hsp
    have hpre0 : 0 ∉ pre := fun hh => hs0 (by rw [hsplit]; simp [hh])
    have hpost0 : 0 ∉ post := fun hh => hs0 (by rw [hsplit]; simp [hh])
    have hv : spec_verb l = pre := by
      unfold spec_verb; rw [hsplit]; exact (takeWhile_dropWhile_found pre post hpre).1
    have ha : spec_arg l = some post := by
      unfold spec_arg; rw [hsplit, (takeWhile_dropWhile_found pre post hpre).2]
    rw [hsplit, hv, ha]
    have e2 : (pre ++ 32 :: post) ++ 0 :: zs2 = pre ++ 32 :: (post ++ 0 :: zs2) := by simp
    rw [e2, strchr_found pre _ 32 hpre hpre0]
    simp only
    rw [set_length_append, drop_length_succ_append, cmdval_loop_eq pre _ hpre0,
      cstr_append_nul post zs2 hpost0]
    exact ⟨_, rfl⟩
  · have hv : spec_verb l = l.rdropWhile (· == 13) := by
      unfold spec_verb; exact (takeWhile_dropWhile_none _ hsp).1
    have ha : spec_arg l = none := by
      unfold spec_arg; rw [(takeWhile_dropWhile_none _ hsp).2]
    rw [hv, ha, strchr_nul _ zs2 32 hsp (by decide)]
    simp only
    rw [cmdval_loop_eq _ _ hs0]
    exact ⟨_, rfl⟩

/-! ## C8: verb folding -/

theorem mask_of_toupper (a b : Nat) (h : toupper a = toupper b) : a &&& 0xDF = b &&& 0xDF := by
  unfold toupper at h
  by_cases ha : 97 ≤ a ∧ a ≤ 122
  · by_cases hb : 97 ≤ b ∧ b ≤ 122
    · simp only [ha, hb, and_self, if_true] at h
      have : a = b := by omega
      rw [this]
    · simp only [ha, hb, and_self, if_true, if_false] at h
      subst h
      obtain ⟨h1, h2⟩ := ha
      interval_cases a <;> rfl
  · by_cases hb : 97 ≤ b ∧ b ≤ 122
    · simp only [ha, hb, and_self, if_true, if_false] at h
      subst h
      obtain ⟨h1, h2⟩ := hb
      interval_cases b <;> rfl
    · simp only [ha, hb, if_false] at h
      rw [h]

theorem foldl_same_case (u v : Bytes) (h : same_case u v) (acc : Nat) :
    u.foldl (fun cmdval b => (cmdval * 2 ^ 8 + (b &&& 0xDF)) % 2 ^ 32) acc
      = v.foldl (fun cmdval b => (cmdval * 2 ^ 8 + (b &&& 0xDF)) % 2 ^ 32) acc := by
  unfold same_case at h
  induction u generalizing v acc with
  | nil =>
    cases v with
    | nil => rfl
    | cons b v => simp at h
  | cons a u ih =>
    cases v with
    | nil => simp at h
    | cons b v =>
      simp only [List.map_cons, List.cons.injEq] at h
      simp only [List.foldl_cons, mask_of_toupper a b h.1]
      exact ih v h.2 _

theorem spec_token_same_case (u v : Bytes) (h : same_case u v) :
    spec_token u = spec_token v := foldl_same_case u v h 0

theorem verb_table_tokens : ∀ p ∈ verb_table, spec_token p.1 = p.2 := by decide

/-- C8: two command lines whose verbs differ only in the case of ASCII letters
get the same 32-bit token from `cmdio_get_cmd_and_arg`; and a line whose verb
is, in any mixture of upper and lower case, a verb of the dispatch table gets
exactly that verb's `const_` value.  (Lines are C strings of at most 8 KiB, as
the line reader delivers them.) -/
theorem verb_folding (oob1 oob2 : Nat → Nat) (l1 l2 : Bytes)
    (h1 : 0 ∉ l1) (h2 : 0 ∉ l2) (hlen1 : l1.length ≤ 8192) (hlen2 : l2.length ≤ 8192) :
    (same_case (spec_verb l1) (spec_verb l2) →
      (cmdio_get_cmd_and_arg oob1 (some l1)).map Cmd.cmdval
        = (cmdio_get_cmd_and_arg oob2 (some l2)).map Cmd.cmdval)
    ∧ (∀ p ∈ verb_table, same_case (spec_verb l1) p.1 →
        (cmdio_get_cmd_and_arg oob1 (some l1)).map Cmd.cmdval = some p.2) := by
  obtain ⟨u1, e1⟩ := cmdio_get_cmd_and_arg_eq oob1 l1 h1 hlen1
  obtain ⟨u2, e2⟩ := cmdio_get_cmd_and_arg_eq oob2 l2 h2 hlen2
  rw [e1, e2]
  simp only [Option.map_some', Option.some.injEq]
  refine ⟨fun h => spec_token_same_case _ _ h, ?_⟩
  intro p hp h
  rw [spec_token_same_case _ _ h]
  exact verb_table_tokens p hp

/-- C8, at the lines `quit` CR and `QUIT now`, and at `pwd` for the table entry
of PWD. -/
theorem verb_folding_witness :
    ((0 ∉ str "quit\r" ∧ 0 ∉ str "QUIT now" ∧ (str "quit\r").length ≤ 8192
        ∧ (str "QUIT now").length ≤ 8192)
      ∧ same_case (spec_verb (str "quit\r")) (spec_verb (str "QUIT now"))
      ∧ (cmdio_get_cmd_and_arg calm.oob (some (str "quit\r"))).map Cmd.cmdval
        = (cmdio_get_cmd_and_arg calm.oob (some (str "QUIT now"))).map Cmd.cmdval)
    ∧ ((0 ∉ str "pwd" ∧ (str "pwd").length ≤ 8192)
      ∧ (str "PWD", const_PWD) ∈ verb_table
      ∧ same_case (spec_verb (str "pwd")) (str "PWD")
      ∧ (cmdio_get_cmd_and_arg calm.oob (some (str "pwd"))).map Cmd.cmdval = some const_PWD) :=
  ⟨⟨⟨by decide, by decide, by decide, by decide⟩, by decide,
      (verb_folding calm.oob calm.oob (str "quit\r") (str "QUIT now")
        (by decide) (by decide) (by decide) (by decide)).1 (by decide)⟩,
    ⟨by decide, by decide⟩, by decide, by decide,
      (verb_folding calm.oob calm.oob (str "pwd") (str "pwd")
        (by decide) (by decide) (by decide) (by decide)).2 (str "PWD", const_PWD)
        (by decide) (by decide)⟩

/-! ## What the helpers leave alone -/

@[simp] theorem held_write (g : Globals) (b : Bytes) : (g.write b).held = g.held := rfl

@[simp] theorem held_log (g : Globals) (e : Event) : (g.log e).held = g.held := rfl

@[simp] theorem held_dispose (w : World) (g : Globals) :
    (ftpdataio_dispose_transfer_fd w g).held = g.held := by
  unfold ftpdataio_dispose_transfer_fd
  simp only
  split_ifs <;> rfl

theorem held_cleanup (g : Globals) :
    (port_pasv_cleanup g).held = (g.held.1, g.held.2.1, none, -1, g.held.2.2.2.2) := by
  unfold port_pasv_cleanup
  simp only
  split_ifs <;> rfl

theorem held_checks (g : Globals) : (data_transfer_checks_ok g).1.held = g.held := by
  unfold data_transfer_checks_ok
  split_ifs <;> rfl

theorem held_pasv_fd (w : World) (g : Globals) :
    (ftpdataio_get_pasv_fd w g).1.held = g.held := by
  unfold ftpdataio_get_pasv_fd
  simp only
  split_ifs <;> rfl

theorem held_port_fd (w : World) (g g2 : Globals) (fd : Int)
    (h : ftpdataio_get_port_fd w g = .ok g2 fd) : g2.held = g.held := by
  unfold ftpdataio_get_port_fd at h
  cases hp : g.port_addr with
  | none => simp [hp] at h
  | some addr =>
    cases hc : w.xconnect_stream with
    | none => simp [hp, hc] at h
    | some r =>
      simp only [hp, hc, Res.ok.injEq] at h
      rw [← h.1]
      rfl

theorem held_remote (w : World) (g g2 : Globals) (msg : Bytes) (fd : Int)
    (h : get_remote_transfer_fd w g msg = .ok g2 fd) : g2.held = g.held := by
  unfold get_remote_transfer_fd at h
  cases hp : pasv_active g with
  | true =>
    simp only [hp, ↓reduceIte] at h
    by_cases hfd : (ftpdataio_get_pasv_fd w g).2 < 0
    · simp only [hfd, ↓reduceIte, Res.ok.injEq] at h
      rw [← h.1]; exact held_pasv_fd w g
    · simp only [hfd, ↓reduceIte, Res.ok.injEq] at h
      rw [← h.1, held_write]; exact held_pasv_fd w g
  | false =>
    simp only [hp, Bool.false_eq_true, ↓reduceIte] at h
    cases hq : ftpdataio_get_port_fd w g with
    | ok g3 fd3 =>
      have h3 := held_port_fd w g g3 fd3 hq
      simp only [hq] at h
      by_cases hfd : fd3 < 0
      · simp only [hfd, ↓reduceIte, Res.ok.injEq] at h
        rw [← h.1]; exact h3
      · simp only [hfd, ↓reduceIte, Res.ok.injEq] at h
        rw [← h.1, held_write]; exact h3
    | exit g3 n => simp [hq] at h
    | fault g3 => simp [hq] at h

theorem checks_fst (g : Globals) (h : (data_transfer_checks_ok g).2 = true) :
    (data_transfer_checks_ok g).1 = g := by
  unfold data_transfer_checks_ok at h ⊢
  split_ifs at h ⊢
  · rfl

theorem checks_snd (g : Globals) (h : (data_transfer_checks_ok g).2 = false) :
    pasv_active g = false ∧ port_active g = false := by
  unfold data_transfer_checks_ok at h
  split_ifs at h with hc
  simpa using hc

theorem handle_retr_held (w : World) (g g2 : Globals) (h : handle_retr w g = .ok g2 ()) :
    g2.held = (g.rnfr_filename, 0, none, -1, g.opts_w)
    ∨ (g2.held = (g.rnfr_filename, 0, g.port_addr, g.pasv_listen_fd, g.opts_w)
      ∧ ((pasv_active g = false ∧ port_active g = false)
        ∨ (g2.out = g.out ++ cmdio_write_error FTP_FILEFAIL
          ∧ (g.ftp_arg = none ∨ ∃ arg, g.ftp_arg = some arg
              ∧ (w.open_ arg (O_RDONLY ||| O_NONBLOCK) < 0 ∨ w.fstat.1 < 0
                ∨ S_ISREG w.fstat.2.st_mode = false))))) := by
  unfold handle_retr at h
  simp only at h
  generalize hg0 : ({ g with restart_pos := 0 } : Globals) = g0 at h
  have e1 : g0.held = (g.rnfr_filename, 0, g.port_addr, g.pasv_listen_fd, g.opts_w) := by
    subst hg0; rfl
  have e2 : pasv_active g0 = pasv_active g := by subst hg0; rfl
  have e3 : port_active g0 = port_active g := by subst hg0; rfl
  have e4 : g0.out = g.out := by subst hg0; rfl
  have e5 : g0.ftp_arg = g.ftp_arg := by subst hg0; rfl
  cases hc : (data_transfer_checks_ok g0).2 with
  | false =>
    simp only [hc, Bool.not_false, ↓reduceIte, Res.ok.injEq, and_true] at h
    right
    refine ⟨by rw [← h, held_checks, e1], Or.inl ?_⟩
    rw [← e2, ← e3]
    exact checks_snd g0 hc
  | true =>
    have hf := checks_fst g0 hc
    simp only [hc, hf, Bool.not_true, Bool.false_eq_true, ↓reduceIte] at h
    cases harg : g0.ftp_arg with
    | none =>
      simp only [harg, Res.ok.injEq, and_true] at h
      right
      refine ⟨by rw [← h, held_write, e1], Or.inr ⟨?_, Or.inl (by rw [← e5, harg])⟩⟩
      rw [← h, ← e4]; rfl
    | some arg =>
      simp only [harg] at h
      by_cases ho : w.open_ arg (O_RDONLY ||| O_NONBLOCK) < 0
      · simp only [ho, ↓reduceIte, Res.ok.injEq, and_true] at h
        right
        refine ⟨by rw [← h, held_write, held_log, e1],
          Or.inr ⟨?_, Or.inr ⟨arg, by rw [← e5, harg], Or.inl ho⟩⟩⟩
        rw [← h, ← e4]; rfl
      · simp only [ho, ↓reduceIte] at h
        cases hs : (decide (w.fstat.1 < 0) || !S_ISREG w.fstat.2.st_mode) with
        | true =>
          simp only [hs, ↓reduceIte, Res.ok.injEq, and_true] at h
          right
          refine ⟨by rw [← h, held_log, held_write, held_log, e1],
            Or.inr ⟨?_, Or.inr ⟨arg, by rw [← e5, harg], Or.inr ?_⟩⟩⟩
          · rw [← h, ← e4]; rfl
          · simp only [Bool.or_eq_true, decide_eq_true_eq, Bool.not_eq_true'] at hs
            exact hs
        | false =>
          simp only [hs, Bool.false_eq_true, ↓reduceIte] at h
          split_ifs at h <;> split at h <;> try (cases h)
          all_goals
            rename_i g3 fd heq
            have h3 := held_remote _ _ _ _ _ heq
            simp only [held_log] at h3
            left
            split_ifs at h <;>
            · simp only [Res.ok.injEq, and_true] at h
              rw [← h]
              simp [held_cleanup, h3, e1]

theorem handle_upload_common_held (w : World) (g g2 : Globals) (is_append is_unique : Bool)
    (h : handle_upload_common w g is_append is_unique = .ok g2 ()) :
    g2.held = (g.rnfr_filename, 0, none, -1, g.opts_w)
    ∨ (g2.held = (g.rnfr_filename, 0, g.port_addr, g.pasv_listen_fd, g.opts_w)
      ∧ ((pasv_active g = false ∧ port_active g = false)
        ∨ (g2.out = g.out ++ cmdio_write_error FTP_UPLOADFAIL
          ∧ ((is_unique = true ∧ w.mkstemp.1 < 0)
            ∨ (is_unique = false ∧ (g.ftp_arg = none
                ∨ ∃ arg flags, g.ftp_arg = some arg ∧ w.open_ arg flags < 0)))))) := by
  unfold handle_upload_common at h
  simp only at h
  generalize hg0 : ({ g with restart_pos := 0 } : Globals) = g0 at h
  have e1 : g0.held = (g.rnfr_filename, 0, g.port_addr, g.pasv_listen_fd, g.opts_w) := by
    subst hg0; rfl
  have e2 : pasv_active g0 = pasv_active g := by subst hg0; rfl
  have e3 : port_active g0 = port_active g := by subst hg0; rfl
  have e4 : g0.out = g.out := by subst hg0; rfl
  have e5 : g0.ftp_arg = g.ftp_arg := by subst hg0; rfl
  cases hc : (data_transfer_checks_ok g0).2 with
  | false =>
    simp only [hc, Bool.not_false, ↓reduceIte, Res.ok.injEq, and_true] at h
    right
    refine ⟨by rw [← h, held_checks, e1], Or.inl ?_⟩
    rw [← e2, ← e3]
    exact checks_snd g0 hc
  | true =>
    have hf := checks_fst g0 hc
    simp only [hc, hf, Bool.not_true, Bool.false_eq_true, ↓reduceIte] at h
    cases is_unique with
    | true =>
      simp only [↓reduceIte] at h
      by_cases ho : w.mkstemp.1 < 0
      · simp only [ho, ↓reduceIte, Res.ok.injEq, and_true] at h
        right
        refine ⟨by rw [← h, held_write, held_log, e1], Or.inr ⟨?_, Or.inl ⟨rfl, ho⟩⟩⟩
        rw [← h, ← e4]; rfl
      · simp only [ho, ↓reduceIte] at h
        split_ifs at h <;> split at h <;> try (cases h)
        all_goals
          rename_i g3 fd heq
          have h3 := held_remote _ _ _ _ _ heq
          simp only [held_log] at h3
          left
          split_ifs at h <;>
          · simp only [Res.ok.injEq, and_true] at h
            rw [← h]
            simp [held_cleanup, h3, e1]
    | false =>
      simp only [Bool.false_eq_true, ↓reduceIte] at h
      cases harg : g0.ftp_arg with
      | none =>
        simp only [harg, Int.reduceNeg, Int.reduceLT, ↓reduceIte, Res.ok.injEq, and_true] at h
        right
        refine ⟨by rw [← h, held_write, e1],
          Or.inr ⟨?_, Or.inr ⟨rfl, Or.inl (by rw [← e5, harg])⟩⟩⟩
        rw [← h, ← e4]; rfl
      | some arg =>
        simp only [harg] at h
        generalize hfl : (if g.restart_pos ≠ 0 then O_WRONLY ||| O_CREAT
          else if is_append = true then O_WRONLY ||| O_CREAT ||| O_APPEND
          else O_WRONLY ||| O_CREAT ||| O_TRUNC) = flags at h
        by_cases ho : w.open_ arg flags < 0
        · simp only [ho, ↓reduceIte, Res.ok.injEq, and_true] at h
          right
          refine ⟨by rw [← h, held_write, held_log, e1],
            Or.inr ⟨?_, Or.inr ⟨rfl, Or.inr ⟨arg, flags, by rw [← e5, harg], ho⟩⟩⟩⟩
          rw [← h, ← e4]; rfl
        · simp only [ho, ↓reduceIte] at h
          split_ifs at h <;> split at h <;> try (cases h)
          all_goals
            rename_i g3 fd heq
            have h3 := held_remote _ _ _ _ _ heq
            simp only [held_log] at h3
            left
            split_ifs at h <;>
            · simp only [Res.ok.injEq, and_true] at h
              rw [← h]
              simp [held_cleanup, h3, e1]

theorem handle_dir_common_held (w : World) (g g2 : Globals) (full_details : Bool)
    (h : handle_dir_common w g full_details false = .ok g2 ()) :
    g2.held = (g.rnfr_filename, g.restart_pos, none, -1, g.opts_w)
    ∨ (g2.held = g.held ∧ pasv_active g = false ∧ port_active g = false) := by
  unfold handle_dir_common at h
  simp only at h
  cases hc : (data_transfer_checks_ok g).2 with
  | false =>
    simp only [hc, Bool.not_false, Bool.and_self, ↓reduceIte, Res.ok.injEq, and_true] at h
    right
    exact ⟨by rw [← h, held_checks], checks_snd g hc⟩
  | true =>
    simp only [hc, Bool.not_true, Bool.and_false, Bool.false_eq_true, ↓reduceIte] at h
    left
    split at h <;> try (cases h)
    rename_i g3 fd heq
    have h3 := held_remote _ _ _ _ _ heq
    split_ifs at h <;>
    · simp only [Res.ok.injEq, and_true] at h
      have hh : g2.held = (g3.held.1, g3.held.2.1, none, -1, g3.held.2.2.2.2) := by
        rw [← h, held_write, held_cleanup, held_dispose] <;> rfl
      rw [hh, h3]
      rfl

theorem handle_stat_file_held (w : World) (g g2 : Globals)
    (h : handle_stat_file w g = .ok g2 ()) : g2.held = g.held := by
  unfold handle_stat_file handle_dir_common at h
  simp only [Bool.not_true, Bool.false_and, Bool.false_eq_true, ↓reduceIte] at h
  split_ifs at h
  cases h
  rfl

theorem handle_pwd_held (w : World) (g g2 : Globals)
    (h : handle_pwd w g = .ok g2 ()) : g2.held = g.held := by
  unfold handle_pwd at h
  cases h
  rfl

theorem handle_cwd_held (w : World) (g g2 : Globals)
    (h : handle_cwd w g = .ok g2 ()) : g2.held = g.held := by
  unfold handle_cwd at h
  split at h
  · cases h; rfl
  · simp only at h
    split_ifs at h <;> (cases h; rfl)

theorem handle_cdup_held (w : World) (g g2 : Globals)
    (h : handle_cdup w g = .ok g2 ()) : g2.held = g.held := by
  unfold handle_cdup at h
  have h2 := handle_cwd_held w _ g2 h
  exact h2

theorem handle_mkd_held (w : World) (g g2 : Globals)
    (h : handle_mkd w g = .ok g2 ()) : g2.held = g.held := by
  unfold handle_mkd at h
  split at h
  · cases h; rfl
  · simp only at h
    split_ifs at h <;> (cases h; rfl)

theorem handle_rmd_held (w : World) (g g2 : Globals)
    (h : handle_rmd w g = .ok g2 ()) : g2.held = g.held := by
  unfold handle_rmd at h
  split at h
  · cases h; rfl
  · simp only at h
    split_ifs at h <;> (cases h; rfl)

theorem handle_dele_held (w : World) (g g2 : Globals)
    (h : handle_dele w g = .ok g2 ()) : g2.held = g.held := by
  unfold handle_dele at h
  split at h
  · cases h; rfl
  · simp only at h
    split_ifs at h <;> (cases h; rfl)

theorem handle_rest_held (w : World) (g g2 : Globals) (h : handle_rest w g = .ok g2 ()) :
    g2.rnfr_filename = g.rnfr_filename ∧ g2.port_addr = g.port_addr
    ∧ g2.pasv_listen_fd = g.pasv_listen_fd ∧ g2.opts_w = g.opts_w := by
  unfold handle_rest at h
  split at h
  · cases h; exact ⟨rfl, rfl, rfl, rfl⟩
  · split at h
    · cases h
    · cases h; exact ⟨rfl, rfl, rfl, rfl⟩

theorem handle_rnfr_held (g g2 : Globals) (h : handle_rnfr g = .ok g2 ()) :
    g2.rnfr_filename = g.ftp_arg ∧ g2.restart_pos = g.restart_pos ∧ g2.port_addr = g.port_addr
    ∧ g2.pasv_listen_fd = g.pasv_listen_fd ∧ g2.opts_w = g.opts_w := by
  unfold handle_rnfr at h
  cases h
  exact ⟨rfl, rfl, rfl, rfl, rfl⟩

theorem handle_rnto_held (w : World) (g g2 : Globals) (h : handle_rnto w g = .ok g2 ()) :
    (g2.rnfr_filename = none ∨ (g.ftp_arg = none ∧ g2.rnfr_filename = g.rnfr_filename))
    ∧ g2.restart_pos = g.restart_pos ∧ g2.port_addr = g.port_addr
    ∧ g2.pasv_listen_fd = g.pasv_listen_fd ∧ g2.opts_w = g.opts_w := by
  unfold handle_rnto at h
  split at h
  · simp only at h
    split_ifs at h <;> (cases h; exact ⟨Or.inl rfl, rfl, rfl, rfl, rfl⟩)
  · rename_i hno
    cases h
    cases hr : g.rnfr_filename with
    | none => exact ⟨Or.inl hr, rfl, rfl, rfl, rfl⟩
    | some r =>
      cases ha : g.ftp_arg with
      | none => exact ⟨Or.inr ⟨rfl, hr⟩, rfl, rfl, rfl, rfl⟩
      | some a => exact absurd ha (by intro ha2; exact hno r a hr ha2)

theorem pasv_bind_loop_held (w : World) :
    ∀ (n k port : Nat) (g : Globals), (pasv_bind_loop w n k port g).g.held = g.held := by
  intro n
  induction n with
  | zero => intro k port g; rfl
  | succ n ih =>
    intro k port g
    unfold pasv_bind_loop
    simp only
    split_ifs
    · rfl
    · rw [ih]; rfl
    · rfl
    · rfl

theorem handle_pasv_held (w : World) (g g2 : Globals) (h : handle_pasv w g = .ok g2 ()) :
    g2.rnfr_filename = g.rnfr_filename ∧ g2.restart_pos = g.restart_pos
    ∧ g2.opts_w = g.opts_w := by
  unfold handle_pasv at h
  simp only at h
  split at h
  · cases h
  · rename_i fd hfd
    split_ifs at h
    simp only [Res.ok.injEq, and_true] at h
    have hh : g2.held = ((port_pasv_cleanup g).rnfr_filename, (port_pasv_cleanup g).restart_pos,
        (port_pasv_cleanup g).port_addr, fd, (port_pasv_cleanup g).opts_w) := by
      rw [← h, held_write, pasv_bind_loop_held]; rfl
    have hc := held_cleanup g
    simp only [Globals.held, Prod.mk.injEq] at hh hc
    exact ⟨hh.1.trans hc.1, hh.2.1.trans hc.2.1, hh.2.2.2.2.trans hc.2.2.2.2⟩

theorem handle_port_held (w : World) (g g2 : Globals) (h : handle_port w g = .ok g2 ()) :
    g2.rnfr_filename = g.rnfr_filename ∧ g2.restart_pos = g.restart_pos
    ∧ g2.opts_w = g.opts_w ∧ g2.pasv_listen_fd = -1 := by
  have hc := held_cleanup g
  simp only [Globals.held, Prod.mk.injEq] at hc
  unfold handle_port at h
  simp only at h
  repeat' split at h
  all_goals first
    | (cases h; done)
    | (cases h
       exact ⟨hc.1, hc.2.1, hc.2.2.2.2, hc.2.2.2.1⟩)

/-! ## One round of the command loop -/

theorem kept_of_held (g g2 : Globals) (hh : g2.held = g.held) :
    g2.rnfr_filename = g.rnfr_filename ∧ g2.restart_pos = g.restart_pos
    ∧ g2.opts_w = g.opts_w := by
  simp only [Globals.held, Prod.mk.injEq] at hh
  exact ⟨hh.1, hh.2.1, hh.2.2.2.2⟩

theorem spec_kept (g g2 : Globals) (c : Nat)
    (hk : g2.rnfr_filename = g.rnfr_filename ∧ g2.restart_pos = g.restart_pos
      ∧ g2.opts_w = g.opts_w)
    (n1 : c ≠ const_RNTO ∨ g.opts_w = false) (n2 : c ≠ const_RETR)
    (n3 : c ≠ const_RNFR ∨ g.opts_w = false)
    (n4 : g.opts_w = true → c ≠ const_STOR ∧ c ≠ const_APPE ∧ c ≠ const_STOU) :
    step_spec g g2 c := by
  refine ⟨hk.2.2, fun _ _ => hk.1, ?_, ?_, fun _ _ _ => hk.2.1, ?_⟩
  · intro hc hw
    rcases n3 with n | n
    · exact absurd hc n
    · rw [n] at hw; cases hw
  · intro hc hw
    rcases n1 with n | n
    · exact absurd hc n
    · rw [n] at hw; cases hw
  · intro hc
    rcases hc with hc | ⟨hw, hc⟩
    · exact absurd hc n2
    · have := n4 hw
      rcases hc with hc | hc | hc
      · exact absurd hc this.1
      · exact absurd hc this.2.1
      · exact absurd hc this.2.2

theorem upload_kept (w : World) (g g2 : Globals) (a u : Bool)
    (h : handle_upload_common w g a u = .ok g2 ()) :
    g2.rnfr_filename = g.rnfr_filename ∧ g2.restart_pos = 0 ∧ g2.opts_w = g.opts_w := by
  rcases handle_upload_common_held w g g2 a u h with hh | hh
  · simp only [Globals.held, Prod.mk.injEq] at hh; exact ⟨hh.1, hh.2.1, hh.2.2.2.2⟩
  · have := hh.1
    simp only [Globals.held, Prod.mk.injEq] at this; exact ⟨this.1, this.2.1, this.2.2.2.2⟩

/-- The chain of write verbs, entered in write mode with a token that is
neither RETR nor REST nor a verb in front of it in the loop. -/
theorem dispatch_write_spec (w : World) (g g2 : Globals) (c : Nat)
    (hw : g.opts_w = true) (hretr : c ≠ const_RETR) (hrest : c ≠ const_REST)
    (h : dispatch_write w g c = .ok g2 ()) : step_spec g g2 c := by
  unfold dispatch_write at h
  split_ifs at h
  all_goals try subst_vars
  · have hu := upload_kept w g g2 _ _ h
    exact ⟨hu.2.2, fun _ _ => hu.1, fun hc => absurd hc (by decide),
      fun hc => absurd hc (by decide), fun _ _ hc => absurd rfl (hc hw).1, fun _ => hu.2.1⟩
  · exact spec_kept _ _ _ (kept_of_held _ _ (handle_mkd_held w g g2 h)) (Or.inl (by decide))
      (by decide) (Or.inl (by decide)) (fun _ => by decide)
  · exact spec_kept _ _ _ (kept_of_held _ _ (handle_rmd_held w g g2 h)) (Or.inl (by decide))
      (by decide) (Or.inl (by decide)) (fun _ => by decide)
  · exact spec_kept _ _ _ (kept_of_held _ _ (handle_dele_held w g g2 h)) (Or.inl (by decide))
      (by decide) (Or.inl (by decide)) (fun _ => by decide)
  · have hr := handle_rnfr_held g g2 h
    exact ⟨hr.2.2.2.2, fun hc => absurd rfl hc, fun _ _ => hr.1,
      fun hc => absurd hc (by decide), fun _ _ _ => hr.2.1,
      fun hc => by rcases hc with hc | ⟨_, hc | hc | hc⟩ <;> exact absurd hc (by decide)⟩
  · have hr := handle_rnto_held w g g2 h
    refine ⟨hr.2.2.2.2, fun _ hc => absurd rfl hc, fun hc => absurd hc (by decide), ?_,
      fun _ _ _ => hr.2.1,
      fun hc => by rcases hc with hc | ⟨_, hc | hc | hc⟩ <;> exact absurd hc (by decide)⟩
    intro _ _ harg
    rcases hr.1 with h1 | h1
    · exact h1
    · exact absurd h1.1 harg
  · unfold handle_appe at h
    have hu := upload_kept w _ g2 _ _ h
    exact ⟨hu.2.2, fun _ _ => hu.1, fun hc => absurd hc (by decide),
      fun hc => absurd hc (by decide), fun _ _ hc => absurd rfl (hc hw).2.1, fun _ => hu.2.1⟩
  · unfold handle_stou at h
    have hu := upload_kept w _ g2 _ _ h
    exact ⟨hu.2.2, fun _ _ => hu.1, fun hc => absurd hc (by decide),
      fun hc => absurd hc (by decide), fun _ _ hc => absurd rfl (hc hw).2.2, fun _ => hu.2.1⟩
  · exact spec_kept _ _ _ (kept_of_held _ _ (by cases h; rfl)) (Or.inl (by assumption))
      hretr (Or.inl (by assumption)) (fun _ => ⟨by assumption, by assumption, by assumption⟩)

/-- What the dispatch chain does to the pending rename source, the restart
offset and the option `-w`. -/
theorem dispatch_spec (w : World) (g g2 : Globals) (c : Nat)
    (h : dispatch w g c = .ok g2 ()) : step_spec g g2 c := by
  unfold dispatch at h
  by_cases h0 : c = const_PWD
  · rw [if_pos h0] at h
    subst h0
    exact spec_kept _ _ _ (kept_of_held _ _ (handle_pwd_held w g g2 h)) (Or.inl (by decide)) (by decide)
      (Or.inl (by decide)) (fun _ => by decide)
  rw [if_neg h0] at h
  by_cases h1 : c = const_CWD
  · rw [if_pos h1] at h
    subst h1
    exact spec_kept _ _ _ (kept_of_held _ _ (handle_cwd_held w g g2 h)) (Or.inl (by decide)) (by decide)
      (Or.inl (by decide)) (fun _ => by decide)
  rw [if_neg h1] at h
  by_cases h2 : c = const_CDUP
  · rw [if_pos h2] at h
    subst h2
    exact spec_kept _ _ _ (kept_of_held _ _ (handle_cdup_held w g g2 h)) (Or.inl (by decide)) (by decide)
      (Or.inl (by decide)) (fun _ => by decide)
  rw [if_neg h2] at h
  by_cases h3 : c = const_PASV
  · rw [if_pos h3] at h
    subst h3
    exact spec_kept _ _ _ (handle_pasv_held w g g2 h) (Or.inl (by decide)) (by decide)
      (Or.inl (by decide)) (fun _ => by decide)
  rw [if_neg h3] at h
  by_cases h4 : c = const_RETR
  · rw [if_pos h4] at h
    subst h4
    have hr : g2.held.1 = g.rnfr_filename ∧ g2.held.2.1 = 0 ∧ g2.held.2.2.2.2 = g.opts_w := by
      rcases handle_retr_held w g g2 h with hh | hh
      · rw [hh]; exact ⟨rfl, rfl, rfl⟩
      · rw [hh.1]; exact ⟨rfl, rfl, rfl⟩
    exact ⟨hr.2.2, fun _ _ => hr.1, fun hc => absurd hc (by decide),
      fun hc => absurd hc (by decide), fun _ hc => absurd rfl hc, fun _ => hr.2.1⟩
  rw [if_neg h4] at h
  by_cases h5 : c = const_NOOP
  · rw [if_pos h5] at h
    subst h5
    exact spec_kept _ _ _ (kept_of_held _ _ (by cases h; rfl)) (Or.inl (by decide)) (by decide)
      (Or.inl (by decide)) (fun _ => by decide)
  rw [if_neg h5] at h
  by_cases h6 : c = const_SYST
  · rw [if_pos h6] at h
    subst h6
    exact spec_kept _ _ _ (kept_of_held _ _ (by cases h; rfl)) (Or.inl (by decide)) (by decide)
      (Or.inl (by decide)) (fun _ => by decide)
  rw [if_neg h6] at h
  by_cases h7 : c = const_HELP
  · rw [if_pos h7] at h
    subst h7
    exact spec_kept _ _ _ (kept_of_held _ _ (by unfold handle_help at h; cases h; rfl)) (Or.inl (by decide)) (by decide)
      (Or.inl (by decide)) (fun _ => by decide)
  rw [if_neg h7] at h
  by_cases h8 : c = const_LIST
  · rw [if_pos h8] at h
    subst h8
    have hr : g2.rnfr_filename = g.rnfr_filename ∧ g2.restart_pos = g.restart_pos
        ∧ g2.opts_w = g.opts_w := by
      rcases handle_dir_common_held w g g2 true h with hh | hh
      · simp only [Globals.held, Prod.mk.injEq] at hh; exact ⟨hh.1, hh.2.1, hh.2.2.2.2⟩
      · exact kept_of_held _ _ hh.1
    exact spec_kept _ _ _ hr (Or.inl (by decide)) (by decide) (Or.inl (by decide)) (fun _ => by decide)
  rw [if_neg h8] at h
  by_cases h9 : c = const_TYPE
  · rw [if_pos h9] at h
    subst h9
    exact spec_kept _ _ _ (kept_of_held _ _ (by cases h; rfl)) (Or.inl (by decide)) (by decide)
      (Or.inl (by decide)) (fun _ => by decide)
  rw [if_neg h9] at h
  by_cases h10 : c = const_PORT
  · rw [if_pos h10] at h
    subst h10
    have hp := handle_port_held w g g2 h
    exact spec_kept _ _ _ ⟨hp.1, hp.2.1, hp.2.2.1⟩ (Or.inl (by decide)) (by decide)
      (Or.inl (by decide)) (fun _ => by decide)
  rw [if_neg h10] at h
  by_cases h11 : c = const_REST
  · rw [if_pos h11] at h
    subst h11
    have hp := handle_rest_held w g g2 h
    exact ⟨hp.2.2.2, fun _ _ => hp.1, fun hc => absurd hc (by decide),
      fun hc => absurd hc (by decide), fun hc => absurd rfl hc,
      fun hc => by rcases hc with hc | ⟨_, hc | hc | hc⟩ <;> exact absurd hc (by decide)⟩
  rw [if_neg h11] at h
  by_cases h12 : c = const_NLST
  · rw [if_pos h12] at h
    subst h12
    have hr : g2.rnfr_filename = g.rnfr_filename ∧ g2.restart_pos = g.restart_pos
        ∧ g2.opts_w = g.opts_w := by
      rcases handle_dir_common_held w g g2 false h with hh | hh
      · simp only [Globals.held, Prod.mk.injEq] at hh; exact ⟨hh.1, hh.2.1, hh.2.2.2.2⟩
      · exact kept_of_held _ _ hh.1
    exact spec_kept _ _ _ hr (Or.inl (by decide)) (by decide) (Or.inl (by decide)) (fun _ => by decide)
  rw [if_neg h12] at h
  by_cases h13 : c = const_STRU
  · rw [if_pos h13] at h
    subst h13
    exact spec_kept _ _ _ (kept_of_held _ _ (by cases h; rfl)) (Or.inl (by decide)) (by decide)
      (Or.inl (by decide)) (fun _ => by decide)
  rw [if_neg h13] at h
  by_cases h14 : c = const_MODE
  · rw [if_pos h14] at h
    subst h14
    exact spec_kept _ _ _ (kept_of_held _ _ (by cases h; rfl)) (Or.inl (by decide)) (by decide)
      (Or.inl (by decide)) (fun _ => by decide)
  rw [if_neg h14] at h
  by_cases h15 : c = const_ALLO
  · rw [if_pos h15] at h
    subst h15
    exact spec_kept _ _ _ (kept_of_held _ _ (by cases h; rfl)) (Or.inl (by decide)) (by decide)
      (Or.inl (by decide)) (fun _ => by decide)
  rw [if_neg h15] at h
  by_cases h16 : c = const_STAT
  · rw [if_pos h16] at h
    subst h16
    have hr : g2.held = g.held := by
      split at h
      · unfold handle_stat at h; cases h; rfl
      · exact handle_stat_file_held w g g2 h
    exact spec_kept _ _ _ (kept_of_held _ _ hr) (Or.inl (by decide)) (by decide)
      (Or.inl (by decide)) (fun _ => by decide)
  rw [if_neg h16] at h
  by_cases h17 : c = const_USER
  · rw [if_pos h17] at h
    subst h17
    exact spec_kept _ _ _ (kept_of_held _ _ (by cases h; rfl)) (Or.inl (by decide)) (by decide)
      (Or.inl (by decide)) (fun _ => by decide)
  rw [if_neg h17] at h
  by_cases h18 : c = const_PASS
  · rw [if_pos h18] at h
    subst h18
    exact spec_kept _ _ _ (kept_of_held _ _ (by cases h; rfl)) (Or.inl (by decide)) (by decide)
      (Or.inl (by decide)) (fun _ => by decide)
  rw [if_neg h18] at h
  by_cases hw : g.opts_w = true
  · rw [if_pos hw] at h
    exact dispatch_write_spec w g g2 c hw h4 h11 h
  rw [if_neg hw] at h
  have hw2 : g.opts_w = false := by simpa using hw
  exact spec_kept _ _ _ (kept_of_held _ _ (by cases h; rfl)) (Or.inr hw2) h4
    (Or.inr hw2) (fun hw3 => by rw [hw2] at hw3; cases hw3)

theorem ftpd_iter_spec (w : World) (g g2 : Globals) (line : Option Bytes)
    (h : ftpd_iter w g line = .ok g2 ()) :
    ∃ c, cmdio_get_cmd_and_arg w.oob line = some c
      ∧ step_spec { g with ftp_arg := c.ftp_arg } g2 c.cmdval := by
  unfold ftpd_iter at h
  cases hc : cmdio_get_cmd_and_arg w.oob line with
  | none => simp [hc] at h
  | some c =>
    simp only [hc] at h
    split_ifs at h
    exact ⟨c, rfl, dispatch_spec w _ g2 c.cmdval h⟩

/-! ## C1: unknown verbs -/

/-- C1: one round of the command loop on a line whose token is not QUIT and
not a verb of the dispatch table writes exactly `500 Unknown command` CR LF
when the option `-w` is off, and writes nothing at all when `-w` is on: the
chain of write verbs inside `else if (G.opts & OPT_w)` has no final `else`. -/
theorem unknown_verb_reply (w : World) (g : Globals) (line : Bytes) (c : Cmd)
    (hc : cmdio_get_cmd_and_arg w.oob (some line) = some c)
    (hq : c.cmdval ≠ const_QUIT) (hk : c.cmdval ∉ known_verbs) :
    ftpd_iter w g (some line)
      = .ok (if g.opts_w = true then { g with ftp_arg := c.ftp_arg }
          else ({ g with ftp_arg := c.ftp_arg } : Globals).write (str "500 Unknown command\r\n"))
          () := by
  simp only [known_verbs, List.mem_cons, List.mem_singleton, not_or, List.not_mem_nil,
    or_false] at hk
  obtain ⟨kPWD, kCWD, kCDUP, kPASV, kRETR, kNOOP, kSYST, kHELP, kLIST, kTYPE, kPORT, kREST,
    kNLST, kSTRU, kMODE, kALLO, kSTAT, kUSER, kPASS, kSTOR, kMKD, kRMD, kDELE, kRNFR, kRNTO,
    kAPPE, kSTOU⟩ := hk
  unfold ftpd_iter
  simp only [hc]
  rw [if_neg hq]
  unfold dispatch
  rw [if_neg kPWD, if_neg kCWD, if_neg kCDUP, if_neg kPASV, if_neg kRETR, if_neg kNOOP,
    if_neg kSYST, if_neg kHELP, if_neg kLIST, if_neg kTYPE, if_neg kPORT, if_neg kREST,
    if_neg kNLST, if_neg kSTRU, if_neg kMODE, if_neg kALLO, if_neg kSTAT, if_neg kUSER,
    if_neg kPASS]
  by_cases hw : g.opts_w = true
  · have e : ({ g with ftp_arg := c.ftp_arg } : Globals).opts_w = true := hw
    rw [if_pos e, if_pos hw]
    unfold dispatch_write
    rw [if_neg kSTOR, if_neg kMKD, if_neg kRMD, if_neg kDELE, if_neg kRNFR, if_neg kRNTO,
      if_neg kAPPE, if_neg kSTOU]
  · have e : ¬ ({ g with ftp_arg := c.ftp_arg } : Globals).opts_w = true := hw
    rw [if_neg e, if_neg hw]

/-- C1, at the line `FEAT` in write mode: nothing is written. -/
theorem unknown_verb_reply_witness :
    (cmdio_get_cmd_and_arg calm.oob (some (str "FEAT")) = some ⟨mk_const4 70 69 65 84, none, [3]⟩
      ∧ mk_const4 70 69 65 84 ≠ const_QUIT ∧ mk_const4 70 69 65 84 ∉ known_verbs)
    ∧ ftpd_iter calm (G_init true) (some (str "FEAT")) = .ok (G_init true) () :=
  ⟨⟨by decide, by decide, by decide⟩,
    unknown_verb_reply calm (G_init true) (str "FEAT") ⟨mk_const4 70 69 65 84, none, [3]⟩
      (by decide) (by decide) (by decide)⟩

/-! ## The dispatch chain at the verbs of the table -/

theorem dispatch_PWD (w : World) (g : Globals) :
    dispatch w g const_PWD = handle_pwd w g := by
  unfold dispatch
  rw [if_pos rfl]

theorem dispatch_CWD (w : World) (g : Globals) :
    dispatch w g const_CWD = handle_cwd w g := by
  unfold dispatch
  rw [if_neg (by decide), if_pos rfl]

theorem dispatch_CDUP (w : World) (g : Globals) :
    dispatch w g const_CDUP = handle_cdup w g := by
  unfold dispatch
  rw [if_neg (by decide), if_neg (by decide), if_pos rfl]

theorem dispatch_PASV (w : World) (g : Globals) :
    dispatch w g const_PASV = handle_pasv w g := by
  unfold dispatch
  rw [if_neg (by decide), if_neg (by decide), if_neg (by decide), if_pos rfl]

theorem dispatch_RETR (w : World) (g : Globals) :
    dispatch w g const_RETR = handle_retr w g := by
  unfold dispatch
  rw [if_neg (by decide), if_neg (by decide), if_neg (by decide), if_neg (by decide), if_pos rfl]

theorem dispatch_NOOP (w : World) (g : Globals) :
    dispatch w g const_NOOP = .ok (g.write (cmdio_write_ok FTP_NOOPOK)) () := by
  unfold dispatch
  rw [if_neg (by decide), if_neg (by decide), if_neg (by decide), if_neg (by decide),
      if_neg (by decide), if_pos rfl]

theorem dispatch_LIST (w : World) (g : Globals) :
    dispatch w g const_LIST = handle_list w g := by
  unfold dispatch
  rw [if_neg (by decide), if_neg (by decide), if_neg (by decide), if_neg (by decide),
      if_neg (by decide), if_neg (by decide), if_neg (by decide), if_neg (by decide),
      if_pos rfl]

theorem dispatch_PORT (w : World) (g : Globals) :
    dispatch w g const_PORT = handle_port w g := by
  unfold dispatch
  rw [if_neg (by decide), if_neg (by decide), if_neg (by decide), if_neg (by decide),
      if_neg (by decide), if_neg (by decide), if_neg (by decide), if_neg (by decide),
      if_neg (by decide), if_neg (by decide), if_pos rfl]

theorem dispatch_REST (w : World) (g : Globals) :
    dispatch w g const_REST = handle_rest w g := by
  unfold dispatch
  rw [if_neg (by decide), if_neg (by decide), if_neg (by decide), if_neg (by decide),
      if_neg (by decide), if_neg (by decide), if_neg (by decide), if_neg (by decide),
      if_neg (by decide), if_neg (by decide), if_neg (by decide), if_pos rfl]

theorem dispatch_NLST (w : World) (g : Globals) :
    dispatch w g const_NLST = handle_nlst w g := by
  unfold dispatch
  rw [if_neg (by decide), if_neg (by decide), if_neg (by decide), if_neg (by decide),
      if_neg (by decide), if_neg (by decide), if_neg (by decide), if_neg (by decide),
      if_neg (by decide), if_neg (by decide), if_neg (by decide), if_neg (by decide),
      if_pos rfl]

theorem dispatch_STOR (w : World) (g : Globals) (hw : g.opts_w = true) :
    dispatch w g const_STOR = handle_stor w g := by
  unfold dispatch
  rw [if_neg (by decide), if_neg (by decide), if_neg (by decide), if_neg (by decide),
      if_neg (by decide), if_neg (by decide), if_neg (by decide), if_neg (by decide),
      if_neg (by decide), if_neg (by decide), if_neg (by decide), if_neg (by decide),
      if_neg (by decide), if_neg (by decide), if_neg (by decide), if_neg (by decide),
      if_neg (by decide), if_neg (by decide), if_neg (by decide), if_pos hw]
  unfold dispatch_write
  rw [if_pos rfl]

theorem dispatch_MKD (w : World) (g : Globals) (hw : g.opts_w = true) :
    dispatch w g const_MKD = handle_mkd w g := by
  unfold dispatch
  rw [if_neg (by decide), if_neg (by decide), if_neg (by decide), if_neg (by decide),
      if_neg (by decide), if_neg (by decide), if_neg (by decide), if_neg (by decide),
      if_neg (by decide), if_neg (by decide), if_neg (by decide), if_neg (by decide),
      if_neg (by decide), if_neg (by decide), if_neg (by decide), if_neg (by decide),
      if_neg (by decide), if_neg (by decide), if_neg (by decide), if_pos hw]
  unfold dispatch_write
  rw [if_neg (by decide), if_pos rfl]

theorem dispatch_RMD (w : World) (g : Globals) (hw : g.opts_w = true) :
    dispatch w g const_RMD = handle_rmd w g := by
  unfold dispatch
  rw [if_neg (by decide), if_neg (by decide), if_neg (by decide), if_neg (by decide),
      if_neg (by decide), if_neg (by decide), if_neg (by decide), if_neg (by decide),
      if_neg (by decide), if_neg (by decide), if_neg (by decide), if_neg (by decide),
      if_neg (by decide), if_neg (by decide), if_neg (by decide), if_neg (by decide),
      if_neg (by decide), if_neg (by decide), if_neg (by decide), if_pos hw]
  unfold dispatch_write
  rw [if_neg (by decide), if_neg (by decide), if_pos rfl]

theorem dispatch_DELE (w : World) (g : Globals) (hw : g.opts_w = true) :
    dispatch w g const_DELE = handle_dele w g := by
  unfold dispatch
  rw [if_neg (by decide), if_neg (by decide), if_neg (by decide), if_neg (by decide),
      if_neg (by decide), if_neg (by decide), if_neg (by decide), if_neg (by decide),
      if_neg (by decide), if_neg (by decide), if_neg (by decide), if_neg (by decide),
      if_neg (by decide), if_neg (by decide), if_neg (by decide), if_neg (by decide),
      if_neg (by decide), if_neg (by decide), if_neg (by decide), if_pos hw]
  unfold dispatch_write
  rw [if_neg (by decide), if_neg (by decide), if_neg (by decide), if_pos rfl]

theorem dispatch_RNFR (w : World) (g : Globals) (hw : g.opts_w = true) :
    dispatch w g const_RNFR = handle_rnfr g := by
  unfold dispatch
  rw [if_neg (by decide), if_neg (by decide), if_neg (by decide), if_neg (by decide),
      if_neg (by decide), if_neg (by decide), if_neg (by decide), if_neg (by decide),
      if_neg (by decide), if_neg (by decide), if_neg (by decide), if_neg (by decide),
      if_neg (by decide), if_neg (by decide), if_neg (by decide), if_neg (by decide),
      if_neg (by decide), if_neg (by decide), if_neg (by decide), if_pos hw]
  unfold dispatch_write
  rw [if_neg (by decide), if_neg (by decide), if_neg (by decide), if_neg (by decide), if_pos rfl]

theorem dispatch_RNTO (w : World) (g : Globals) (hw : g.opts_w = true) :
    dispatch w g const_RNTO = handle_rnto w g := by
  unfold dispatch
  rw [if_neg (by decide), if_neg (by decide), if_neg (by decide), if_neg (by decide),
      if_neg (by decide), if_neg (by decide), if_neg (by decide), if_neg (by decide),
      if_neg (by decide), if_neg (by decide), if_neg (by decide), if_neg (by decide),
      if_neg (by decide), if_neg (by decide), if_neg (by decide), if_neg (by decide),
      if_neg (by decide), if_neg (by decide), if_neg (by decide), if_pos hw]
  unfold dispatch_write
  rw [if_neg (by decide), if_neg (by decide), if_neg (by decide), if_neg (by decide),
      if_neg (by decide), if_pos rfl]

theorem dispatch_APPE (w : World) (g : Globals) (hw : g.opts_w = true) :
    dispatch w g const_APPE = handle_appe w g := by
  unfold dispatch
  rw [if_neg (by decide), if_neg (by decide), if_neg (by decide), if_neg (by decide),
      if_neg (by decide), if_neg (by decide), if_neg (by decide), if_neg (by decide),
      if_neg (by decide), if_neg (by decide), if_neg (by decide), if_neg (by decide),
      if_neg (by decide), if_neg (by decide), if_neg (by decide), if_neg (by decide),
      if_neg (by decide), if_neg (by decide), if_neg (by decide), if_pos hw]
  unfold dispatch_write
  rw [if_neg (by decide), if_neg (by decide), if_neg (by decide), if_neg (by decide),
      if_neg (by decide), if_neg (by decide), if_pos rfl]

theorem dispatch_STOU (w : World) (g : Globals) (hw : g.opts_w = true) :
    dispatch w g const_STOU = handle_stou w g := by
  unfold dispatch
  rw [if_neg (by decide), if_neg (by decide), if_neg (by decide), if_neg (by decide),
      if_neg (by decide), if_neg (by decide), if_neg (by decide), if_neg (by decide),
      if_neg (by decide), if_neg (by decide), if_neg (by decide), if_neg (by decide),
      if_neg (by decide), if_neg (by decide), if_neg (by decide), if_neg (by decide),
      if_neg (by decide), if_neg (by decide), if_neg (by decide), if_pos hw]
  unfold dispatch_write
  rw [if_neg (by decide), if_neg (by decide), if_neg (by decide), if_neg (by decide),
      if_neg (by decide), if_neg (by decide), if_neg (by decide), if_pos rfl]

theorem ftpd_iter_eq (w : World) (g : Globals) (line : Bytes) (c : Cmd)
    (hc : cmdio_get_cmd_and_arg w.oob (some line) = some c) (hq : c.cmdval ≠ const_QUIT) :
    ftpd_iter w g (some line) = dispatch w { g with ftp_arg := c.ftp_arg } c.cmdval := by
  unfold ftpd_iter
  simp only [hc]
  rw [if_neg hq]

theorem ftpd_loop_cons_ok (w : World) (g g1 : Globals) (line : Option Bytes)
    (rest : List (World × Option Bytes)) (h : ftpd_iter w g line = .ok g1 ()) :
    ftpd_loop g ((w, line) :: rest) = ftpd_loop g1 rest := by
  simp only [ftpd_loop, h]

/-! ## C2: the pending rename source -/

/-- C2 fails as stated: in write mode, after `RNFR a` and `NOOP` the pending
rename source is still `a`, and the following `RNTO b` calls `rename(a, b)` and
is answered 250. -/
theorem rnfr_survives_noop :
    ftpd_loop (G_init true) [(calm, some (str "RNFR a")), (calm, some (str "NOOP"))]
      = .ok { G_init true with
          rnfr_filename := some (str "a")
          out := str "350 Operation successful\r\n200 Operation successful\r\n" } ()
    ∧ ftpd_loop (G_init true)
        [(calm, some (str "RNFR a")), (calm, some (str "NOOP")), (calm, some (str "RNTO b"))]
      = .ok { G_init true with
          ftp_arg := some (str "b")
          out := str ("350 Operation successful\r\n200 Operation successful\r\n"
            ++ "250 Operation successful\r\n")
          events := [.rename (str "a") (str "b") 0] } () :=
  ⟨rfl, rfl⟩

/-- C2 as amended: in write mode, once the dispatcher has finished an RNTO that
has an argument the pending rename source is absent, and every command other
than RNFR and RNTO leaves the pending rename source as it was.  In the sequence
`RNFR a`, `NOOP`, `RNTO b` the RNTO calls `rename(a, b)` and is answered 250
when the rename succeeds, 550 when it fails. -/
theorem rnfr_after_command (w : World) (g g2 : Globals) (line : Option Bytes) (c : Cmd)
    (hw : g.opts_w = true) (hc : cmdio_get_cmd_and_arg w.oob line = some c)
    (h : ftpd_iter w g line = .ok g2 ()) :
    (c.cmdval = const_RNTO → c.ftp_arg ≠ none → g2.rnfr_filename = none)
    ∧ (c.cmdval ≠ const_RNFR → c.cmdval ≠ const_RNTO → g2.rnfr_filename = g.rnfr_filename)
    ∧ (∀ w1 w2 w3 : World,
        ftpd_loop g [(w1, some (str "RNFR a")), (w2, some (str "NOOP")),
            (w3, some (str "RNTO b"))]
          = .ok { g with
              ftp_arg := some (str "b")
              rnfr_filename := none
              out := g.out ++ str "350 Operation successful\r\n"
                ++ str "200 Operation successful\r\n"
                ++ (if w3.rename (str "a") (str "b") ≠ 0 then str "550 Error\r\n"
                    else str "250 Operation successful\r\n")
              events := g.events
                ++ [.rename (str "a") (str "b") (w3.rename (str "a") (str "b"))] } ()) := by
  obtain ⟨c2, hc2, hs⟩ := ftpd_iter_spec w g g2 line h
  rw [hc] at hc2
  cases hc2
  refine ⟨fun h1 h2 => hs.2.2.2.1 h1 hw h2, fun h1 h2 => hs.2.1 h1 h2, ?_⟩
  intro w1 w2 w3
  have e1 : cmdio_get_cmd_and_arg w1.oob (some (str "RNFR a"))
      = some ⟨const_RNFR, some (str "a"), [5]⟩ := rfl
  have e2 : cmdio_get_cmd_and_arg w2.oob (some (str "NOOP"))
      = some ⟨const_NOOP, none, [3]⟩ := rfl
  have e3 : cmdio_get_cmd_and_arg w3.oob (some (str "RNTO b"))
      = some ⟨const_RNTO, some (str "b"), [5]⟩ := rfl
  have s1 : ftpd_iter w1 g (some (str "RNFR a"))
      = .ok { g with
          ftp_arg := some (str "a")
          rnfr_filename := some (str "a")
          out := g.out ++ str "350 Operation successful\r\n" } () := by
    exact (ftpd_iter_eq w1 g _ _ e1 (by decide)).trans
      ((dispatch_RNFR w1 _
        (show ({ g with ftp_arg := some (str "a") } : Globals).opts_w = true from hw)).trans rfl)
  have s2 : ftpd_iter w2 { g with
          ftp_arg := some (str "a")
          rnfr_filename := some (str "a")
          out := g.out ++ str "350 Operation successful\r\n" } (some (str "NOOP"))
      = .ok { g with
          ftp_arg := none
          rnfr_filename := some (str "a")
          out := g.out ++ str "350 Operation successful\r\n"
            ++ str "200 Operation successful\r\n" } () := by
    exact (ftpd_iter_eq w2 _ _ _ e2 (by decide)).trans ((dispatch_NOOP w2 _).trans rfl)
  have s3 : ftpd_iter w3 { g with
          ftp_arg := none
          rnfr_filename := some (str "a")
          out := g.out ++ str "350 Operation successful\r\n"
            ++ str "200 Operation successful\r\n" } (some (str "RNTO b"))
      = .ok { g with
          ftp_arg := some (str "b")
          rnfr_filename := none
          out := g.out ++ str "350 Operation successful\r\n"
            ++ str "200 Operation successful\r\n"
            ++ (if w3.rename (str "a") (str "b") ≠ 0 then str "550 Error\r\n"
                else str "250 Operation successful\r\n")
          events := g.events
            ++ [.rename (str "a") (str "b") (w3.rename (str "a") (str "b"))] } () := by
    refine (ftpd_iter_eq w3 _ _ _ e3 (by decide)).trans
      ((dispatch_RNTO w3 { g with
          ftp_arg := some (str "b")
          rnfr_filename := some (str "a")
          out := g.out ++ str "350 Operation successful\r\n"
            ++ str "200 Operation successful\r\n" } hw).trans ?_)
    unfold handle_rnto
    by_cases hr : w3.rename (str "a") (str "b") ≠ 0
    · simp only [if_pos hr]; rfl
    · simp only [if_neg hr]; rfl
  exact (ftpd_loop_cons_ok _ _ _ _ _ s1).trans
    ((ftpd_loop_cons_ok _ _ _ _ _ s2).trans ((ftpd_loop_cons_ok _ _ _ _ _ s3).trans rfl))

/-- C2 as amended, at `NOOP` in write mode with the pending rename source `a`:
the source is still `a` afterwards. -/
theorem rnfr_after_command_witness :
    (({ G_init true with rnfr_filename := some (str "a") } : Globals).opts_w = true
      ∧ cmdio_get_cmd_and_arg calm.oob (some (str "NOOP")) = some ⟨const_NOOP, none, [3]⟩
      ∧ ftpd_iter calm { G_init true with rnfr_filename := some (str "a") } (some (str "NOOP"))
        = .ok { G_init true with
            rnfr_filename := some (str "a")
            out := str "200 Operation successful\r\n" } ())
    ∧ (const_NOOP ≠ const_RNFR → const_NOOP ≠ const_RNTO →
        ({ G_init true with
            rnfr_filename := some (str "a")
            out := str "200 Operation successful\r\n" } : Globals).rnfr_filename
          = ({ G_init true with rnfr_filename := some (str "a") } : Globals).rnfr_filename) :=
  ⟨⟨rfl, rfl, rfl⟩,
    (rnfr_after_command calm { G_init true with rnfr_filename := some (str "a") }
      { G_init true with
        rnfr_filename := some (str "a")
        out := str "200 Operation successful\r\n" }
      (some (str "NOOP")) ⟨const_NOOP, none, [3]⟩ rfl rfl rfl).2.1⟩

/-! ## C4: the restart offset -/

/-- C4 fails as stated: after `REST 100` and `NOOP` the restart offset is still
100, so the handler of the next command is entered with `restart_pos = 100`. -/
theorem rest_survives_noop :
    ftpd_loop (G_init false) [(calm, some (str "REST 100")), (calm, some (str "NOOP"))]
      = .ok { G_init false with
          restart_pos := 100
          out := str "350 Operation successful\r\n200 Operation successful\r\n" } () :=
  rfl

theorem ftpd_loop_opts (cmds : List (World × Option Bytes)) :
    ∀ g g2 : Globals, ftpd_loop g cmds = .ok g2 () → g2.opts_w = g.opts_w := by
  induction cmds with
  | nil =>
    intro g g2 h
    simp only [ftpd_loop, Res.ok.injEq, and_true] at h
    rw [h]
  | cons x rest ih =>
    intro g g2 h
    obtain ⟨w, line⟩ := x
    simp only [ftpd_loop] at h
    cases hi : ftpd_iter w g line with
    | ok g1 u =>
      cases u
      simp only [hi] at h
      obtain ⟨c, _, hs⟩ := ftpd_iter_spec w g g1 line hi
      exact (ih g1 g2 h).trans hs.1
    | exit g1 n => simp [hi] at h
    | fault g1 => simp [hi] at h

theorem restart_pos_trace (cmds : List (World × Option Bytes)) :
    ∀ g g2 : Globals, ftpd_loop g cmds = .ok g2 () → g2.restart_pos ≠ 0 →
      (∃ pre x post, cmds = pre ++ x :: post ∧ is_rest x
          ∧ ∀ y ∈ post, ¬ clears_restart g.opts_w y)
      ∨ (g2.restart_pos = g.restart_pos ∧ ∀ y ∈ cmds, ¬ clears_restart g.opts_w y) := by
  induction cmds with
  | nil =>
    intro g g2 h _
    simp only [ftpd_loop, Res.ok.injEq, and_true] at h
    right
    exact ⟨by rw [h], by simp⟩
  | cons x rest ih =>
    intro g g2 h hne
    obtain ⟨w, line⟩ := x
    simp only [ftpd_loop] at h
    cases hi : ftpd_iter w g line with
    | exit g1 n => simp [hi] at h
    | fault g1 => simp [hi] at h
    | ok g1 u =>
      cases u
      simp only [hi] at h
      obtain ⟨c, hc, hs⟩ := ftpd_iter_spec w g g1 line hi
      have ho : g1.opts_w = g.opts_w := hs.1
      have hv : verb_token (w, line) = some c.cmdval := by
        unfold verb_token; simp only [hc, Option.map_some']
      rcases ih g1 g2 h hne with ⟨pre, y, post, he, hr, hp⟩ | ⟨he, hp⟩
      · left
        refine ⟨(w, line) :: pre, y, post, by rw [he]; rfl, hr, ?_⟩
        rw [← ho]; exact hp
      · rw [ho] at hp
        by_cases hrest : c.cmdval = const_REST
        · left
          exact ⟨[], (w, line), rest, rfl, by unfold is_rest; rw [hv, hrest], hp⟩
        · by_cases hcl : clears_restart g.opts_w (w, line)
          · exfalso
            apply hne
            rw [he]
            apply hs.2.2.2.2.2
            unfold clears_restart at hcl
            simp only [hv, Option.some.injEq] at hcl
            exact hcl
          · right
            refine ⟨?_, ?_⟩
            · rw [he]
              unfold clears_restart at hcl
              simp only [hv, Option.some.injEq, not_or, not_and] at hcl
              exact hs.2.2.2.2.1 hrest hcl.1 (fun hw => by
                have := hcl.2 hw
                simpa only [not_or] using this)
            · intro y hy
              rcases List.mem_cons.1 hy with hy | hy
              · rw [hy]; exact hcl
              · exact hp y hy

/-- C4 as amended: for every sequence of commands the dispatcher has handled
from a state with `restart_pos = 0`, the restart offset at entry to the next
command handler is 0 unless some earlier command was a REST and no RETR (nor,
in write mode, STOR, APPE or STOU) was handled after it.  After `REST 100` and
`NOOP` the next handler is entered with `restart_pos = 100`. -/
theorem restart_pos_at_entry (g g2 : Globals) (cmds : List (World × Option Bytes))
    (h0 : g.restart_pos = 0) (h : ftpd_loop g cmds = .ok g2 ()) :
    (g2.restart_pos ≠ 0 →
      ∃ pre x post, cmds = pre ++ x :: post ∧ is_rest x
        ∧ ∀ y ∈ post, ¬ clears_restart g.opts_w y)
    ∧ (∀ w1 w2 : World, w1.xatoi_u (str "100") = some 100 →
        ftpd_loop g [(w1, some (str "REST 100")), (w2, some (str "NOOP"))]
          = .ok { g with
              ftp_arg := none
              restart_pos := 100
              out := g.out ++ str "350 Operation successful\r\n"
                ++ str "200 Operation successful\r\n" } ()) := by
  constructor
  · intro hne
    rcases restart_pos_trace cmds g g2 h hne with hx | hx
    · exact hx
    · exact absurd (hx.1.trans h0) hne
  · intro w1 w2 hx
    have e1 : cmdio_get_cmd_and_arg w1.oob (some (str "REST 100"))
        = some ⟨const_REST, some (str "100"), [7]⟩ := rfl
    have e2 : cmdio_get_cmd_and_arg w2.oob (some (str "NOOP"))
        = some ⟨const_NOOP, none, [3]⟩ := rfl
    have s1 : ftpd_iter w1 g (some (str "REST 100"))
        = .ok { g with
            ftp_arg := some (str "100")
            restart_pos := 100
            out := g.out ++ str "350 Operation successful\r\n" } () := by
      refine (ftpd_iter_eq w1 g _ _ e1 (by decide)).trans
        ((dispatch_REST w1 { g with ftp_arg := some (str "100") }).trans ?_)
      unfold handle_rest
      simp only [hx]
      rfl
    have s2 : ftpd_iter w2 { g with
            ftp_arg := some (str "100")
            restart_pos := 100
            out := g.out ++ str "350 Operation successful\r\n" } (some (str "NOOP"))
        = .ok { g with
            ftp_arg := none
            restart_pos := 100
            out := g.out ++ str "350 Operation successful\r\n"
              ++ str "200 Operation successful\r\n" } () :=
      (ftpd_iter_eq w2 _ _ _ e2 (by decide)).trans ((dispatch_NOOP w2 _).trans rfl)
    exact (ftpd_loop_cons_ok _ _ _ _ _ s1).trans ((ftpd_loop_cons_ok _ _ _ _ _ s2).trans rfl)

/-- C4 as amended, at `REST 100`, `NOOP` from the initial state: the offset 100
that is left goes back to the REST, which no RETR follows. -/
theorem restart_pos_at_entry_witness :
    ((G_init false).restart_pos = 0
      ∧ ftpd_loop (G_init false) [(calm, some (str "REST 100")), (calm, some (str "NOOP"))]
        = .ok { G_init false with
            restart_pos := 100
            out := str "350 Operation successful\r\n200 Operation successful\r\n" } ())
    ∧ (({ G_init false with
            restart_pos := 100
            out := str "350 Operation successful\r\n200 Operation successful\r\n" }
          : Globals).restart_pos ≠ 0 →
        ∃ pre x post,
          [(calm, some (str "REST 100")), (calm, some (str "NOOP"))] = pre ++ x :: post
          ∧ is_rest x ∧ ∀ y ∈ post, ¬ clears_restart (G_init false).opts_w y) :=
  ⟨⟨rfl, rfl⟩,
    (restart_pos_at_entry (G_init false)
      { G_init false with
        restart_pos := 100
        out := str "350 Operation successful\r\n200 Operation successful\r\n" }
      [(calm, some (str "REST 100")), (calm, some (str "NOOP"))] rfl rfl).1⟩

/-! ## C3: the data endpoint after a data-channel command -/

/-- C3 fails as stated: after `PASV`, a `RETR` of a file that cannot be opened
is answered 550 and returns with the passive listener (descriptor 3) still
held. -/
theorem retr_open_failure_keeps_listener :
    ftpd_loop (G_init false)
        [(calm, some (str "PASV")), (calm_no_open, some (str "RETR nofile"))]
      = .ok { G_init false with
          pasv_listen_fd := 3
          ftp_arg := some (str "nofile")
          out := str "227 Entering Passive Mode (127,0,0,1,156,64)\r\n550 Error\r\n"
          events := [.socket 3, .bind 3 40000 0, .listen 3,
            .open_ (str "nofile") (O_RDONLY ||| O_NONBLOCK) (-1)] } ()
    ∧ pasv_active { G_init false with
          pasv_listen_fd := 3
          ftp_arg := some (str "nofile")
          out := str "227 Entering Passive Mode (127,0,0,1,156,64)\r\n550 Error\r\n"
          events := [.socket 3, .bind 3 40000 0, .listen 3,
            .open_ (str "nofile") (O_RDONLY ||| O_NONBLOCK) (-1)] } = true :=
  ⟨rfl, rfl⟩

theorem absent_of_held (g : Globals) (r : Option Bytes) (n : Nat) (o : Bool)
    (h : g.held = (r, n, none, -1, o)) : endpoint_absent g := by
  simp only [Globals.held, Prod.mk.injEq] at h
  unfold endpoint_absent pasv_active port_active
  rw [h.2.2.1, h.2.2.2.1]
  exact ⟨rfl, rfl⟩

theorem absent_of_same (g g2 : Globals) (hp : g2.port_addr = g.port_addr)
    (hl : g2.pasv_listen_fd = g.pasv_listen_fd)
    (h : pasv_active g = false ∧ port_active g = false) : endpoint_absent g2 := by
  unfold endpoint_absent pasv_active port_active at *
  rw [hp, hl]
  exact h

/-- What is left of the endpoint when a transfer handler returns. -/
theorem upload_endpoint (w : World) (g g2 : Globals) (a u : Bool)
    (h : handle_upload_common w g a u = .ok g2 ()) :
    endpoint_absent g2
    ∨ (g2.out = g.out ++ cmdio_write_error FTP_UPLOADFAIL
      ∧ ((u = true ∧ w.mkstemp.1 < 0)
        ∨ (u = false ∧ (g.ftp_arg = none
            ∨ ∃ arg flags, g.ftp_arg = some arg ∧ w.open_ arg flags < 0)))
      ∧ g2.port_addr = g.port_addr ∧ g2.pasv_listen_fd = g.pasv_listen_fd) := by
  rcases handle_upload_common_held w g g2 a u h with hh | ⟨hh, hx⟩
  · exact Or.inl (absent_of_held g2 _ _ _ hh)
  · simp only [Globals.held, Prod.mk.injEq] at hh
    rcases hx with hx | hx
    · exact Or.inl (absent_of_same g g2 hh.2.2.1 hh.2.2.2.1 hx)
    · exact Or.inr ⟨hx.1, hx.2, hh.2.2.1, hh.2.2.2.1⟩

/-- C3 as amended: for every session state and every outcome of the file and
socket operations, after the handler of LIST or NLST returns neither a passive
listener nor an active peer address is held; after the handler of RETR, STOR,
APPE or STOU returns the same holds, unless the handler returned because the
local file could not be opened (or, for RETR, is not a regular file) with the
reply 550 (RETR) or 553 (uploads): then the listener and the peer address are
as they were before the command. -/
theorem data_command_endpoint (w : World) (g g2 : Globals) :
    (handle_list w g = .ok g2 () → endpoint_absent g2)
    ∧ (handle_nlst w g = .ok g2 () → endpoint_absent g2)
    ∧ (handle_retr w g = .ok g2 () →
        endpoint_absent g2
        ∨ (g2.out = g.out ++ cmdio_write_error FTP_FILEFAIL
          ∧ (g.ftp_arg = none ∨ ∃ arg, g.ftp_arg = some arg
              ∧ (w.open_ arg (O_RDONLY ||| O_NONBLOCK) < 0 ∨ w.fstat.1 < 0
                ∨ S_ISREG w.fstat.2.st_mode = false))
          ∧ g2.port_addr = g.port_addr ∧ g2.pasv_listen_fd = g.pasv_listen_fd))
    ∧ (handle_stor w g = .ok g2 () →
        endpoint_absent g2
        ∨ (g2.out = g.out ++ cmdio_write_error FTP_UPLOADFAIL
          ∧ (g.ftp_arg = none ∨ ∃ arg flags, g.ftp_arg = some arg ∧ w.open_ arg flags < 0)
          ∧ g2.port_addr = g.port_addr ∧ g2.pasv_listen_fd = g.pasv_listen_fd))
    ∧ (handle_appe w g = .ok g2 () →
        endpoint_absent g2
        ∨ (g2.out = g.out ++ cmdio_write_error FTP_UPLOADFAIL
          ∧ (g.ftp_arg = none ∨ ∃ arg flags, g.ftp_arg = some arg ∧ w.open_ arg flags < 0)
          ∧ g2.port_addr = g.port_addr ∧ g2.pasv_listen_fd = g.pasv_listen_fd))
    ∧ (handle_stou w g = .ok g2 () →
        endpoint_absent g2
        ∨ (g2.out = g.out ++ cmdio_write_error FTP_UPLOADFAIL ∧ w.mkstemp.1 < 0
          ∧ g2.port_addr = g.port_addr ∧ g2.pasv_listen_fd = g.pasv_listen_fd)) := by
  refine ⟨?_, ?_, ?_, ?_, ?_, ?_⟩
  · intro h
    rcases handle_dir_common_held w g g2 true h with hh | hh
    · exact absent_of_held g2 _ _ _ hh
    · have := hh.1
      simp only [Globals.held, Prod.mk.injEq] at this
      exact absent_of_same g g2 this.2.2.1 this.2.2.2.1 hh.2
  · intro h
    rcases handle_dir_common_held w g g2 false h with hh | hh
    · exact absent_of_held g2 _ _ _ hh
    · have := hh.1
      simp only [Globals.held, Prod.mk.injEq] at this
      exact absent_of_same g g2 this.2.2.1 this.2.2.2.1 hh.2
  · intro h
    rcases handle_retr_held w g g2 h with hh | ⟨hh, hx⟩
    · exact Or.inl (absent_of_held g2 _ _ _ hh)
    · simp only [Globals.held, Prod.mk.injEq] at hh
      rcases hx with hx | hx
      · exact Or.inl (absent_of_same g g2 hh.2.2.1 hh.2.2.2.1 hx)
      · exact Or.inr ⟨hx.1, hx.2, hh.2.2.1, hh.2.2.2.1⟩
  · intro h
    rcases upload_endpoint w g g2 false false h with hh | ⟨h1, h2, h3⟩
    · exact Or.inl hh
    · rcases h2 with ⟨hu, _⟩ | ⟨_, h2⟩
      · cases hu
      · exact Or.inr ⟨h1, h2, h3⟩
  · intro h
    rcases upload_endpoint w _ g2 true false h with hh | ⟨h1, h2, h3⟩
    · exact Or.inl hh
    · rcases h2 with ⟨hu, _⟩ | ⟨_, h2⟩
      · cases hu
      · exact Or.inr ⟨h1, h2, h3⟩
  · intro h
    rcases upload_endpoint w _ g2 false true h with hh | ⟨h1, h2, h3⟩
    · exact Or.inl hh
    · rcases h2 with ⟨_, h2⟩ | ⟨hu, _⟩
      · exact Or.inr ⟨h1, h2, h3⟩
      · cases hu

/-- C3 as amended, at `LIST` in the sample world with a passive listener held:
nothing is held afterwards. -/
theorem data_command_endpoint_witness :
    handle_list calm { G_init false with pasv_listen_fd := 3 }
        = .ok { G_init false with
            pasv_listen_fd := -1
            data_fd := -1
            out := str "150 Here comes the directory listing\r\n226 Operation successful\r\n"
            events := [.accept 3 4, .close 4, .close 3] } ()
    ∧ endpoint_absent { G_init false with
            pasv_listen_fd := -1
            data_fd := -1
            out := str "150 Here comes the directory listing\r\n226 Operation successful\r\n"
            events := [.accept 3 4, .close 4, .close 3] } :=
  ⟨rfl, (data_command_endpoint calm { G_init false with pasv_listen_fd := 3 }
    { G_init false with
      pasv_listen_fd := -1
      data_fd := -1
      out := str "150 Here comes the directory listing\r\n226 Operation successful\r\n"
      events := [.accept 3 4, .close 4, .close 3] }).1 rfl⟩

/-! ## C5: PORT with a malformed argument -/

theorem cleanup_ftp_arg (g : Globals) : (port_pasv_cleanup g).ftp_arg = g.ftp_arg := by
  unfold port_pasv_cleanup
  simp only
  split_ifs <;> rfl

/-- C5: what `handle_port` does with arguments that are not six comma-separated
integers.  For `1,2,3,4` it takes `4` and `3` as the two port bytes and hands
the rest, `1.2`, to `xdotted2sockaddr`; when that call yields an address the
peer is armed and the reply is `200 Operation successful`.  For `1,2,3,4,5,x`
the process ends inside `xatou16` without any reply.  Only an argument with
fewer than two commas reaches `500 Error` before any library call judges it. -/
theorem handle_port_malformed (w : World) (g : Globals) :
    (∀ lo hi lsa, g.ftp_arg = some (str "1,2,3,4") →
      w.xatou16 (str "4") = some lo → w.xatou16 (str "3") = some hi →
      w.xdotted2sockaddr (str "1.2") ((lo % 2 ^ 16 ||| (hi % 2 ^ 16) <<< 8) % 2 ^ 16)
        = some (some lsa) →
      handle_port w g
        = .ok ({ port_pasv_cleanup g with
            ftp_arg := some (str "1.2")
            port_addr := some lsa }.write (str "200 Operation successful\r\n")) ())
    ∧ (g.ftp_arg = some (str "1,2,3,4,5,x") → w.xatou16 (str "x") = none →
      handle_port w g = .exit (port_pasv_cleanup g) 1)
    ∧ (∀ arg, g.ftp_arg = some arg → strrchr arg 44 = none →
      handle_port w g = .ok ((port_pasv_cleanup g).write (str "500 Error\r\n")) ()) := by
  refine ⟨?_, ?_, ?_⟩
  · intro lo hi lsa ha hlo hhi hl
    unfold handle_port
    simp only [cleanup_ftp_arg, ha]
    have r1 : strrchr (str "1,2,3,4") 44 = some 5 := rfl
    have d1 : List.drop (5 + 1) (str "1,2,3,4") = str "4" := rfl
    have t1 : List.take 5 (str "1,2,3,4") = str "1,2,3" := rfl
    have r2 : strrchr (str "1,2,3") 44 = some 3 := rfl
    have d2 : List.drop (3 + 1) (str "1,2,3") = str "3" := rfl
    have t2 : List.take 3 (str "1,2,3") = str "1,2" := rfl
    have rc : cstr (replace_char (str "1,2" ++ [0]) 44 46) = str "1.2" := rfl
    simp only [r1, d1, hlo, t1, r2, d2, hhi, t2, rc, hl]
    rfl
  · intro ha hx
    unfold handle_port
    simp only [cleanup_ftp_arg, ha]
    have r1 : strrchr (str "1,2,3,4,5,x") 44 = some 9 := rfl
    have d1 : List.drop (9 + 1) (str "1,2,3,4,5,x") = str "x" := rfl
    simp only [r1, d1, hx]
  · intro arg ha hn
    unfold handle_port
    simp only [cleanup_ftp_arg, ha, hn]
    rfl

/-- C5, in the sample world: `PORT 1,2,3,4` arms the peer 1.2, port 772, and is
answered 200; `PORT 1,2,3,4,5,x` ends the process. -/
theorem handle_port_malformed_witness :
    ((({ G_init false with ftp_arg := some (str "1,2,3,4") } : Globals).ftp_arg
          = some (str "1,2,3,4")
        ∧ calm.xatou16 (str "4") = some 4 ∧ calm.xatou16 (str "3") = some 3
        ∧ calm.xdotted2sockaddr (str "1.2") ((4 % 2 ^ 16 ||| (3 % 2 ^ 16) <<< 8) % 2 ^ 16)
          = some (some ⟨str "1.2", 772⟩))
      ∧ handle_port calm { G_init false with ftp_arg := some (str "1,2,3,4") }
        = .ok { G_init false with
            pasv_listen_fd := -1
            ftp_arg := some (str "1.2")
            port_addr := some ⟨str "1.2", 772⟩
            out := str "200 Operation successful\r\n" } ())
    ∧ ((({ G_init false with ftp_arg := some (str "1,2,3,4,5,x") } : Globals).ftp_arg
          = some (str "1,2,3,4,5,x")
        ∧ calm.xatou16 (str "x") = none)
      ∧ handle_port calm { G_init false with ftp_arg := some (str "1,2,3,4,5,x") }
        = .exit { G_init false with
            pasv_listen_fd := -1
            ftp_arg := some (str "1,2,3,4,5,x") } 1) :=
  ⟨⟨⟨rfl, rfl, rfl, rfl⟩,
      (handle_port_malformed calm { G_init false with ftp_arg := some (str "1,2,3,4") }).1
        4 3 ⟨str "1.2", 772⟩ rfl rfl rfl rfl⟩,
    ⟨⟨rfl, rfl⟩,
      (handle_port_malformed calm
        { G_init false with ftp_arg := some (str "1,2,3,4,5,x") }).2.1 rfl rfl⟩⟩

/-! ## C6: the bind loop of PASV -/

theorem log_events (g : Globals) (e : Event) (evs : List Event) :
    ({ g.log e with events := (g.log e).events ++ evs } : Globals)
      = { g with events := g.events ++ e :: evs } := by
  simp [Globals.log]

/-- When the first `n - 1` calls of `bind` fail the loop ends with
`bind_retries = 0`, after exactly `n - 1` calls. -/
theorem pasv_bind_loop_fail (w : World) :
    ∀ (n k port : Nat) (g : Globals),
      (∀ j, j < n - 1 → w.bind (k + j) (pasv_port (w.rand (k + j))) ≠ 0) →
      (pasv_bind_loop w n k port g).bind_retries = 0
      ∧ (pasv_bind_loop w n k port g).died = false
      ∧ (pasv_bind_loop w n k port g).g
        = { g with events := g.events ++ bind_events w g.pasv_listen_fd k (n - 1) } := by
  intro n
  induction n with
  | zero =>
    intro k port g _
    simp [pasv_bind_loop, bind_events]
  | succ n ih =>
    intro k port g hf
    unfold pasv_bind_loop
    by_cases hn : n = 0
    · subst hn
      simp [bind_events]
    · simp only [hn, if_false]
      have h0 : w.bind k (pasv_port (w.rand k)) ≠ 0 := by
        have := hf 0 (by omega)
        simpa using this
      simp only [h0, ne_eq, not_false_eq_true, if_true]
      have hf2 : ∀ j, j < n - 1 →
          w.bind (k + 1 + j) (pasv_port (w.rand (k + 1 + j))) ≠ 0 := by
        intro j hj
        have := hf (j + 1) (by omega)
        have e : k + (j + 1) = k + 1 + j := by omega
        rw [e] at this
        exact this
      obtain ⟨a, b, c⟩ := ih (k + 1) (pasv_port (w.rand k))
        (g.log (.bind g.pasv_listen_fd (pasv_port (w.rand k))
          (w.bind k (pasv_port (w.rand k))))) hf2
      refine ⟨a, b, ?_⟩
      rw [c]
      obtain ⟨m, rfl⟩ : ∃ m, n = m + 1 := ⟨n - 1, by omega⟩
      simp only [Nat.add_sub_cancel, bind_events]
      exact log_events g _ _

/-- When the call of `bind` number `m` is the first to succeed, `m < n - 1`, and
`xlisten` comes back, the loop ends with the port of that call and a
`bind_retries` that is not 0. -/
theorem pasv_bind_loop_bound (w : World) (hl : w.xlisten = true) :
    ∀ (m n k port : Nat) (g : Globals), m + 1 < n →
      (∀ j, j < m → w.bind (k + j) (pasv_port (w.rand (k + j))) ≠ 0) →
      w.bind (k + m) (pasv_port (w.rand (k + m))) = 0 →
      (pasv_bind_loop w n k port g).bind_retries ≠ 0
      ∧ (pasv_bind_loop w n k port g).died = false
      ∧ (pasv_bind_loop w n k port g).port = pasv_port (w.rand (k + m))
      ∧ (pasv_bind_loop w n k port g).g
        = { g with events := g.events ++ bind_events w g.pasv_listen_fd k (m + 1)
              ++ [.listen g.pasv_listen_fd] } := by
  intro m
  induction m with
  | zero =>
    intro n k port g hn _ hs
    obtain ⟨n, rfl⟩ : ∃ n2, n = n2 + 1 := ⟨n - 1, by omega⟩
    have hn0 : n ≠ 0 := by omega
    unfold pasv_bind_loop
    simp only [Nat.add_zero] at hs
    simp only [hn0, if_false, hs, ne_eq, not_true_eq_false, hl, if_true, Nat.add_zero]
    simp [Globals.log, bind_events, hs]
  | succ m ih =>
    intro n k port g hn hf hs
    obtain ⟨n, rfl⟩ : ∃ n2, n = n2 + 1 := ⟨n - 1, by omega⟩
    have hn0 : n ≠ 0 := by omega
    have h0 : w.bind k (pasv_port (w.rand k)) ≠ 0 := by
      have := hf 0 (by omega)
      simpa using this
    have hf2 : ∀ j, j < m → w.bind (k + 1 + j) (pasv_port (w.rand (k + 1 + j))) ≠ 0 := by
      intro j hj
      have := hf (j + 1) (by omega)
      have e : k + (j + 1) = k + 1 + j := by omega
      rw [e] at this
      exact this
    have hs2 : w.bind (k + 1 + m) (pasv_port (w.rand (k + 1 + m))) = 0 := by
      have e : k + (m + 1) = k + 1 + m := by omega
      rw [e] at hs
      exact hs
    obtain ⟨a, b, c, d⟩ := ih n (k + 1) (pasv_port (w.rand k))
      (g.log (.bind g.pasv_listen_fd (pasv_port (w.rand k))
        (w.bind k (pasv_port (w.rand k))))) (by omega) hf2 hs2
    unfold pasv_bind_loop
    simp only [hn0, if_false, h0, ne_eq, not_false_eq_true, if_true]
    refine ⟨a, b, ?_, ?_⟩
    · rw [c]
      have e : k + (m + 1) = k + 1 + m := by omega
      rw [e]
    · rw [d]
      simp [Globals.log, bind_events]

/-- C6: `handle_pasv` calls `bind` at most nine times, not ten: the loop
`while (--bind_retries)` started at 10 runs its body for 9, 8, ..., 1.  When the
first nine calls fail the process ends after exactly nine calls, whatever a
tenth call would have returned.  When one of the first nine calls succeeds
(and `xlisten` comes back) the handler listens and replies 227 with the port of
that call. -/
theorem handle_pasv_attempts (w : World) (g : Globals) (fd : Int)
    (hs : w.xsocket = some fd) :
    ((∀ j, j < 9 → w.bind j (pasv_port (w.rand j)) ≠ 0) →
      handle_pasv w g
        = .exit { port_pasv_cleanup g with
            pasv_listen_fd := fd
            events := (port_pasv_cleanup g).events ++ .socket fd :: bind_events w fd 0 9 } 1)
    ∧ (∀ m, m < 9 → w.xlisten = true →
      (∀ j, j < m → w.bind j (pasv_port (w.rand j)) ≠ 0) →
      w.bind m (pasv_port (w.rand m)) = 0 →
      handle_pasv w g
        = .ok { port_pasv_cleanup g with
            pasv_listen_fd := fd
            events := (port_pasv_cleanup g).events
              ++ .socket fd :: bind_events w fd 0 (m + 1) ++ [.listen fd]
            out := (port_pasv_cleanup g).out
              ++ cmdio_write FTP_PASVOK (pasv_response w (pasv_port (w.rand m))) } ()) := by
  constructor
  · intro hf
    obtain ⟨a, b, c⟩ := pasv_bind_loop_fail w 10 0 0
      { (port_pasv_cleanup g).log (.socket fd) with pasv_listen_fd := fd }
      (by intro j hj; simpa using hf j (by omega))
    unfold handle_pasv
    simp only [hs, a, b, c]
    simp [Globals.log]
  · intro m hm hl hf hb
    obtain ⟨a, b, c, d⟩ := pasv_bind_loop_bound w hl m 10 0 0
      { (port_pasv_cleanup g).log (.socket fd) with pasv_listen_fd := fd } (by omega)
      (by intro j hj; simpa using hf j hj) (by simpa using hb)
    unfold handle_pasv
    simp only [hs, a, b, c, d, if_false]
    simp [Globals.log, Globals.write, pasv_response]

/-- C6, in the sample world where `bind` fails nine times and would succeed at
the tenth call: the process ends after nine calls; and in the sample world,
where the first call succeeds: the reply is 227. -/
theorem handle_pasv_attempts_witness :
    ((calm_bind_tenth.xsocket = some 3
        ∧ ∀ j, j < 9 → calm_bind_tenth.bind j (pasv_port (calm_bind_tenth.rand j)) ≠ 0)
      ∧ calm_bind_tenth.bind 9 (pasv_port (calm_bind_tenth.rand 9)) = 0
      ∧ handle_pasv calm_bind_tenth (G_init false)
        = .exit { G_init false with
            pasv_listen_fd := 3
            events := [.socket 3, .bind 3 40000 (-1), .bind 3 40001 (-1), .bind 3 40002 (-1),
              .bind 3 40003 (-1), .bind 3 40004 (-1), .bind 3 40005 (-1), .bind 3 40006 (-1),
              .bind 3 40007 (-1), .bind 3 40008 (-1)] } 1)
    ∧ ((calm.xsocket = some 3 ∧ 0 < 9 ∧ calm.xlisten = true
        ∧ (∀ j, j < 0 → calm.bind j (pasv_port (calm.rand j)) ≠ 0)
        ∧ calm.bind 0 (pasv_port (calm.rand 0)) = 0)
      ∧ handle_pasv calm (G_init false)
        = .ok { G_init false with
            pasv_listen_fd := 3
            events := [.socket 3, .bind 3 40000 0, .listen 3]
            out := str "227 Entering Passive Mode (127,0,0,1,156,64)\r\n" } ()) :=
  ⟨⟨⟨rfl, by decide⟩, rfl,
      (handle_pasv_attempts calm_bind_tenth (G_init false) 3 rfl).1 (by decide)⟩,
    ⟨rfl, by decide, rfl, by decide, rfl⟩,
      (handle_pasv_attempts calm (G_init false) 3 rfl).2 0 (by decide) rfl (by decide) rfl⟩

/-! ## C12: the port of PASV -/

theorem pasv_port_bounds (r : Nat) :
    1024 ≤ pasv_port r ∧ pasv_port r ≤ 65535
    ∧ pasv_port r >>> 8 ≤ 255 ∧ pasv_port r &&& 255 ≤ 255
    ∧ (pasv_port r >>> 8) * 256 + (pasv_port r &&& 255) = pasv_port r := by
  have h1 : 1024 ≤ pasv_port r ∧ pasv_port r ≤ 65535 := by
    unfold pasv_port
    simp only
    split_ifs <;> omega
  have e1 : pasv_port r >>> 8 = pasv_port r / 256 := by
    rw [Nat.shiftRight_eq_div_pow]
  have e2 : pasv_port r &&& 255 = pasv_port r % 256 := by
    have := Nat.and_pow_two_sub_one_eq_mod (pasv_port r) 8
    simpa using this
  rw [e1, e2]
  refine ⟨h1.1, h1.2, ?_, ?_, ?_⟩ <;> omega

/-- Whatever `bind` returns, the loop only logs calls of `bind` on ports drawn
by `pasv_port`, and a loop left with `bind_retries` not 0 leaves in `port` the
port of the call that returned 0. -/
theorem pasv_bind_loop_ports (w : World) :
    ∀ (n k port : Nat) (g : Globals),
      (∃ evs, (pasv_bind_loop w n k port g).g = { g with events := g.events ++ evs }
        ∧ ∀ fd p r, Event.bind fd p r ∈ evs → ∃ i, p = pasv_port (w.rand i))
      ∧ ((pasv_bind_loop w n k port g).bind_retries ≠ 0 →
          ∃ j, (pasv_bind_loop w n k port g).port = pasv_port (w.rand j)
            ∧ w.bind j (pasv_port (w.rand j)) = 0) := by
  intro n
  induction n with
  | zero =>
    intro k port g
    exact ⟨⟨[], by simp [pasv_bind_loop], by simp⟩, by simp [pasv_bind_loop]⟩
  | succ n ih =>
    intro k port g
    unfold pasv_bind_loop
    by_cases hn : n = 0
    · rw [if_pos hn]
      exact ⟨⟨[], by simp, by simp⟩, by simp⟩
    · simp only [hn, if_false]
      by_cases hb : w.bind k (pasv_port (w.rand k)) ≠ 0
      · rw [if_pos hb]
        obtain ⟨⟨evs, he, hp⟩, hr⟩ := ih (k + 1) (pasv_port (w.rand k))
          (g.log (.bind g.pasv_listen_fd (pasv_port (w.rand k))
            (w.bind k (pasv_port (w.rand k)))))
        refine ⟨⟨.bind g.pasv_listen_fd (pasv_port (w.rand k))
            (w.bind k (pasv_port (w.rand k))) :: evs, ?_, ?_⟩, hr⟩
        · rw [he]; exact log_events g _ _
        · intro fd p r hm
          rcases List.mem_cons.1 hm with hm | hm
          · simp only [Event.bind.injEq] at hm
            exact ⟨k, hm.2.1⟩
          · exact hp fd p r hm
      · rw [if_neg hb]
        have hb0 : w.bind k (pasv_port (w.rand k)) = 0 := by simpa using hb
        split_ifs
        · refine ⟨⟨[.bind g.pasv_listen_fd (pasv_port (w.rand k))
              (w.bind k (pasv_port (w.rand k))), .listen g.pasv_listen_fd], ?_, ?_⟩, ?_⟩
          · simp [Globals.log]
          · intro fd p r hm
            simp only [List.mem_cons, Event.bind.injEq, List.mem_singleton, List.not_mem_nil,
              or_false, reduceCtorEq] at hm
            exact ⟨k, hm.2.1⟩
          · intro _; exact ⟨k, rfl, hb0⟩
        · refine ⟨⟨[.bind g.pasv_listen_fd (pasv_port (w.rand k))
              (w.bind k (pasv_port (w.rand k)))], ?_, ?_⟩, ?_⟩
          · simp [Globals.log]
          · intro fd p r hm
            simp only [List.mem_singleton, Event.bind.injEq] at hm
            exact ⟨k, hm.2.1⟩
          · intro _; exact ⟨k, rfl, hb0⟩

/-- C12: for every value `r` of `rand()` the port `handle_pasv` passes to
`bind` lies in [1024, 65535], and the two numbers `p1 = port >> 8` and
`p2 = port & 255` it prints lie in 0..255 with `p1 * 256 + p2 = port`.  When
`handle_pasv` returns, every `bind` it made was on such a port, and its reply
is `227 Entering Passive Mode (...,p1,p2)` for the port whose `bind` returned
0. -/
theorem pasv_port_announced (w : World) (g g2 : Globals) (h : handle_pasv w g = .ok g2 ()) :
    (∀ r, 1024 ≤ pasv_port r ∧ pasv_port r ≤ 65535
      ∧ pasv_port r >>> 8 ≤ 255 ∧ pasv_port r &&& 255 ≤ 255
      ∧ (pasv_port r >>> 8) * 256 + (pasv_port r &&& 255) = pasv_port r)
    ∧ (∃ evs, g2.events = (port_pasv_cleanup g).events ++ evs
        ∧ ∀ fd p r, Event.bind fd p r ∈ evs → ∃ i, p = pasv_port (w.rand i))
    ∧ (∃ j, w.bind j (pasv_port (w.rand j)) = 0
        ∧ g2.out = g.out ++ cmdio_write FTP_PASVOK
            (str " Entering Passive Mode (" ++ cstr (replace_char (w.sockaddr2dotted ++ [0]) 46 44)
              ++ [44] ++ utoa (pasv_port (w.rand j) >>> 8) ++ [44]
              ++ utoa (pasv_port (w.rand j) &&& 255) ++ [41])) := by
  refine ⟨pasv_port_bounds, ?_⟩
  unfold handle_pasv at h
  simp only at h
  cases hs : w.xsocket with
  | none => simp [hs] at h
  | some fd =>
    simp only [hs] at h
    generalize hG : ({ (port_pasv_cleanup g).log (.socket fd) with pasv_listen_fd := fd }
      : Globals) = G1 at h
    have hev : G1.events = (port_pasv_cleanup g).events ++ [.socket fd] := by
      subst hG; rfl
    have hout : G1.out = g.out := by
      subst hG
      unfold port_pasv_cleanup
      simp only
      split_ifs <;> rfl
    obtain ⟨⟨evs, he, hp⟩, hr⟩ := pasv_bind_loop_ports w 10 0 0 G1
    split_ifs at h with hd hz
    simp only [Res.ok.injEq, and_true] at h
    obtain ⟨j, hj, hb⟩ := hr hz
    constructor
    · refine ⟨.socket fd :: evs, ?_, ?_⟩
      · rw [← h, he]
        show G1.events ++ evs = _
        rw [hev]
        simp
      · intro fd2 p r hm
        rcases List.mem_cons.1 hm with hm | hm
        · cases hm
        · exact hp fd2 p r hm
    · refine ⟨j, hb, ?_⟩
      rw [← h, he, hj]
      show G1.out ++ _ = _
      rw [hout]

/-- C12, in the sample world: `rand()` gives 40000, the port bound is 40000 and
the reply announces 156,64. -/
theorem pasv_port_announced_witness :
    handle_pasv calm (G_init false)
        = .ok { G_init false with
            pasv_listen_fd := 3
            events := [.socket 3, .bind 3 40000 0, .listen 3]
            out := str "227 Entering Passive Mode (127,0,0,1,156,64)\r\n" } ()
    ∧ (1024 ≤ pasv_port 40000 ∧ pasv_port 40000 ≤ 65535
      ∧ pasv_port 40000 >>> 8 ≤ 255 ∧ pasv_port 40000 &&& 255 ≤ 255
      ∧ (pasv_port 40000 >>> 8) * 256 + (pasv_port 40000 &&& 255) = pasv_port 40000) :=
  ⟨rfl, (pasv_port_announced calm (G_init false)
    { G_init false with
      pasv_listen_fd := 3
      events := [.socket 3, .bind 3 40000 0, .listen 3]
      out := str "227 Entering Passive Mode (127,0,0,1,156,64)\r\n" } rfl).1 40000⟩

/-! ## C11: RNTO needs RNFR -/

/-- In write mode the pending rename source is present exactly when the last
RNFR or RNTO handled was an RNFR. -/
theorem rnfr_pending_trace (cmds : List (World × Option Bytes)) :
    ∀ g g2 : Globals, g.opts_w = true → ftpd_loop g cmds = .ok g2 () →
      (∀ x ∈ cmds, verb_token x = some const_RNFR ∨ verb_token x = some const_RNTO →
        arg_of x ≠ none) →
      g2.rnfr_filename.isSome
        = cmds.foldl (fun p x =>
            if verb_token x = some const_RNFR then true
            else if verb_token x = some const_RNTO then false
            else p) g.rnfr_filename.isSome := by
  induction cmds with
  | nil =>
    intro g g2 _ h _
    simp only [ftpd_loop, Res.ok.injEq, and_true] at h
    rw [h]; rfl
  | cons x rest ih =>
    intro g g2 hw h hargs
    obtain ⟨w, line⟩ := x
    simp only [ftpd_loop] at h
    cases hi : ftpd_iter w g line with
    | exit g1 n => simp [hi] at h
    | fault g1 => simp [hi] at h
    | ok g1 u =>
      cases u
      simp only [hi] at h
      obtain ⟨c, hc, hs⟩ := ftpd_iter_spec w g g1 line hi
      have hv : verb_token (w, line) = some c.cmdval := by
        unfold verb_token; simp only [hc, Option.map_some']
      have ha : arg_of (w, line) = c.ftp_arg := by
        unfold arg_of; simp only [hc, Option.some_bind]
      have hw1 : g1.opts_w = true := hs.1.trans hw
      have hrest := ih g1 g2 hw1 h (fun y hy => hargs y (List.mem_cons_of_mem _ hy))
      rw [hrest, List.foldl_cons]
      congr 1
      have harg := hargs (w, line) (List.mem_cons_self _ _)
      rw [hv, ha] at harg
      simp only [Option.some.injEq] at harg
      simp only [hv, Option.some.injEq]
      by_cases h1 : c.cmdval = const_RNFR
      · rw [if_pos h1]
        have := hs.2.2.1 h1 hw
        rw [this]
        cases hca : c.ftp_arg with
        | none => exact absurd hca (harg (Or.inl h1))
        | some a => rfl
      · rw [if_neg h1]
        by_cases h2 : c.cmdval = const_RNTO
        · rw [if_pos h2]
          have := hs.2.2.2.1 h2 hw (harg (Or.inr h2))
          rw [this]; rfl
        · rw [if_neg h2]
          have := hs.2.1 h1 h2
          rw [this]

/-- C11: in write mode, in a session (started with nothing pending) whose RNFR
and RNTO commands all carry an argument, an RNTO is answered `503 RNFR
required first` CR LF, with no call of `rename`, exactly when no RNFR has been
handled since the start of the session and since the last RNTO; otherwise it
calls `rename` and is answered 250 or 550. -/
theorem rnto_needs_rnfr (cmds : List (World × Option Bytes)) (g : Globals)
    (w : World) (line : Bytes) (c : Cmd)
    (h : ftpd_loop (G_init true) cmds = .ok g ())
    (hargs : ∀ x ∈ cmds, verb_token x = some const_RNFR ∨ verb_token x = some const_RNTO →
      arg_of x ≠ none)
    (hc : cmdio_get_cmd_and_arg w.oob (some line) = some c)
    (hv : c.cmdval = const_RNTO) (ha : c.ftp_arg ≠ none) :
    (spec_pending cmds = false →
      ftpd_iter w g (some line)
        = .ok (({ g with ftp_arg := c.ftp_arg } : Globals).write
            (str "503 RNFR required first\r\n")) ())
    ∧ (spec_pending cmds = true →
      ∃ src dst, g.rnfr_filename = some src ∧ c.ftp_arg = some dst
        ∧ ftpd_iter w g (some line)
          = .ok ({ ({ g with ftp_arg := some dst } : Globals).log
                (.rename src dst (w.rename src dst)) with rnfr_filename := none }.write
              (if w.rename src dst ≠ 0 then str "550 Error\r\n"
                else str "250 Operation successful\r\n")) ()) := by
  have hp := rnfr_pending_trace cmds (G_init true) g rfl h hargs
  have hw : g.opts_w = true := ftpd_loop_opts cmds (G_init true) g h
  have hq : c.cmdval ≠ const_QUIT := by rw [hv]; decide
  have hi : ftpd_iter w g (some line) = handle_rnto w { g with ftp_arg := c.ftp_arg } := by
    rw [ftpd_iter_eq w g line c hc hq, hv]
    exact dispatch_RNTO w { g with ftp_arg := c.ftp_arg } hw
  have hp2 : g.rnfr_filename.isSome = spec_pending cmds := hp
  obtain ⟨dst, hd⟩ : ∃ dst, c.ftp_arg = some dst := by
    cases hca : c.ftp_arg with
    | none => exact absurd hca ha
    | some a => exact ⟨a, rfl⟩
  constructor
  · intro hf
    rw [hf] at hp2
    have hn : g.rnfr_filename = none := by
      cases hr : g.rnfr_filename with
      | none => rfl
      | some a => rw [hr] at hp2; cases hp2
    rw [hi]
    unfold handle_rnto
    simp only [hn]
  · intro ht
    rw [ht] at hp2
    obtain ⟨src, hsrc⟩ : ∃ src, g.rnfr_filename = some src := by
      cases hr : g.rnfr_filename with
      | none => rw [hr] at hp2; cases hp2
      | some a => exact ⟨a, rfl⟩
    refine ⟨src, dst, hsrc, hd, ?_⟩
    rw [hi]
    unfold handle_rnto
    simp only [hsrc, hd]
    by_cases hr : w.rename src dst ≠ 0
    · rw [if_pos hr, if_pos hr]; rfl
    · rw [if_neg hr, if_neg hr]; rfl

/-- C11, in the sample world: a fresh session answers `RNTO newname` with 503,
and after `RNFR a`, `RNTO b` a following `RNTO c` is answered 503 again. -/
theorem rnto_needs_rnfr_witness :
    (ftpd_loop (G_init true) [] = .ok (G_init true) ()
      ∧ cmdio_get_cmd_and_arg calm.oob (some (str "RNTO newname"))
        = some ⟨const_RNTO, some (str "newname"), [11]⟩
      ∧ spec_pending [] = false
      ∧ ftpd_iter calm (G_init true) (some (str "RNTO newname"))
        = .ok { G_init true with
            ftp_arg := some (str "newname")
            out := str "503 RNFR required first\r\n" } ())
    ∧ (ftpd_loop (G_init true) [(calm, some (str "RNFR a")), (calm, some (str "RNTO b"))]
        = .ok { G_init true with
            ftp_arg := some (str "b")
            out := str "350 Operation successful\r\n250 Operation successful\r\n"
            events := [.rename (str "a") (str "b") 0] } ()
      ∧ spec_pending [(calm, some (str "RNFR a")), (calm, some (str "RNTO b"))] = false
      ∧ ftpd_iter calm { G_init true with
            ftp_arg := some (str "b")
            out := str "350 Operation successful\r\n250 Operation successful\r\n"
            events := [.rename (str "a") (str "b") 0] } (some (str "RNTO c"))
        = .ok { G_init true with
            ftp_arg := some (str "c")
            out := str ("350 Operation successful\r\n250 Operation successful\r\n"
              ++ "503 RNFR required first\r\n")
            events := [.rename (str "a") (str "b") 0] } ()) :=
  ⟨⟨rfl, rfl, rfl,
      (rnto_needs_rnfr [] (G_init true) calm (str "RNTO newname")
        ⟨const_RNTO, some (str "newname"), [11]⟩ rfl (by simp) rfl rfl (by simp)).1 rfl⟩,
    ⟨rfl, rfl,
      (rnto_needs_rnfr [(calm, some (str "RNFR a")), (calm, some (str "RNTO b"))]
        { G_init true with
          ftp_arg := some (str "b")
          out := str "350 Operation successful\r\n250 Operation successful\r\n"
          events := [.rename (str "a") (str "b") 0] }
        calm (str "RNTO c") ⟨const_RNTO, some (str "c"), [5]⟩ rfl
        (by
          intro x hx _
          simp only [List.mem_cons, List.mem_singleton, List.not_mem_nil, or_false] at hx
          rcases hx with rfl | rfl <;> decide)
        rfl rfl (by simp)).1 rfl⟩⟩

/-! ## C13: the indices of the CR loop -/

theorem cr_loop_used_mono (oob : Nat → Nat) :
    ∀ (fuel : Nat) (cmd : Bytes) (len : Nat) (used : List Nat),
      ∀ i ∈ used, i ∈ (cr_loop oob fuel cmd len used).2 := by
  intro fuel
  induction fuel with
  | zero => intro cmd len used i hi; exact hi
  | succ f ih =>
    intro cmd len used i hi
    unfold cr_loop
    by_cases hc : (if len < cmd.length then cmd.getD len 0 else oob len) = 13
    · rw [if_pos hc]
      exact ih _ _ _ i (List.mem_append_left _ hi)
    · rw [if_neg hc]
      exact List.mem_append_left _ hi

/-- The first round of the loop uses the index it is entered with. -/
theorem cr_loop_used_first (oob : Nat → Nat) (f : Nat) (cmd : Bytes) (len : Nat)
    (used : List Nat) : len ∈ (cr_loop oob (f + 1) cmd len used).2 := by
  unfold cr_loop
  by_cases hc : (if len < cmd.length then cmd.getD len 0 else oob len) = 13
  · rw [if_pos hc]
    exact cr_loop_used_mono oob _ _ _ _ len (by simp)
  · rw [if_neg hc]
    simp

/-- A line that holds a byte other than CR: every index the loop uses lies
inside the line. -/
theorem cr_loop_used_inside (oob : Nat → Nat) (l : Bytes) :
    ∀ (zs : Bytes) (fuel : Nat) (used : List Nat), l.rdropWhile (· == 13) ≠ [] →
      l.length < SIZE_MOD →
      ∀ i ∈ (cr_loop oob fuel (l ++ 0 :: zs) ((l.length + SIZE_MOD - 1) % SIZE_MOD) used).2,
        i ∈ used ∨ i < l.length := by
  induction l using List.reverseRecOn with
  | nil => intro zs fuel used hne; simp at hne
  | append_singleton l b ih =>
    intro zs fuel used hne hlt i hi
    have hS : SIZE_MOD = 4294967296 := rfl
    simp only [List.length_append, List.length_cons, List.length_nil] at hlt ⊢
    have hlen : ((l ++ [b]).length + SIZE_MOD - 1) % SIZE_MOD = l.length := by
      simp only [List.length_append, List.length_cons, List.length_nil]
      rw [hS] at hlt ⊢
      omega
    rw [hlen] at hi
    cases fuel with
    | zero => exact Or.inl hi
    | succ f =>
      have hin : l.length < ((l ++ [b]) ++ 0 :: zs).length := by simp
      have e : (l ++ [b]) ++ 0 :: zs = l ++ b :: (0 :: zs) := by simp
      unfold cr_loop at hi
      simp only [hin, if_true] at hi
      rw [e, getD_length_append] at hi
      by_cases hcr : b = 13
      · subst hcr
        simp only [if_true] at hi
        rw [set_length_append] at hi
        have hne2 : l.rdropWhile (· == 13) ≠ [] := by
          rw [List.rdropWhile_concat_pos _ _ _ (by simp)] at hne
          exact hne
        rcases ih (0 :: zs) f (used ++ [l.length]) hne2 (by omega) i hi with h | h
        · rcases List.mem_append.1 h with h | h
          · exact Or.inl h
          · simp only [List.mem_singleton] at h
            right; omega
        · right; omega
      · simp only [hcr, if_false] at hi
        rcases List.mem_append.1 hi with h | h
        · exact Or.inl h
        · simp only [List.mem_singleton] at h
          right; omega

/-- A line of CR bytes only (the empty line among them): the loop runs down
the whole line and then uses the index `SIZE_MAX`. -/
theorem cr_loop_used_outside (oob : Nat → Nat) (l : Bytes) :
    ∀ (zs : Bytes) (fuel : Nat) (used : List Nat), l.rdropWhile (· == 13) = [] →
      l.length < fuel → l.length < SIZE_MOD →
      (SIZE_MOD - 1)
        ∈ (cr_loop oob fuel (l ++ 0 :: zs) ((l.length + SIZE_MOD - 1) % SIZE_MOD) used).2 := by
  induction l using List.reverseRecOn with
  | nil =>
    intro zs fuel used _ hf _
    obtain ⟨f, rfl⟩ : ∃ f, fuel = f + 1 := ⟨fuel - 1, by simp at hf; omega⟩
    have e : (([] : Bytes).length + SIZE_MOD - 1) % SIZE_MOD = SIZE_MOD - 1 := by decide
    rw [e]
    exact cr_loop_used_first oob f _ _ used
  | append_singleton l b ih =>
    intro zs fuel used hall hf hlt
    have hS : SIZE_MOD = 4294967296 := rfl
    simp only [List.length_append, List.length_cons, List.length_nil] at hf hlt
    have hlen : ((l ++ [b]).length + SIZE_MOD - 1) % SIZE_MOD = l.length := by
      simp only [List.length_append, List.length_cons, List.length_nil]
      rw [hS] at hlt ⊢
      omega
    rw [hlen]
    have hb : b = 13 := by
      by_contra hcr
      rw [List.rdropWhile_concat_neg _ _ _ (by simpa using hcr)] at hall
      simp at hall
    subst hb
    have hall2 : l.rdropWhile (· == 13) = [] := by
      rw [List.rdropWhile_concat_pos _ _ _ (by simp)] at hall
      exact hall
    obtain ⟨f, rfl⟩ : ∃ f, fuel = f + 1 := ⟨fuel - 1, by omega⟩
    have hin : l.length < ((l ++ [13]) ++ 0 :: zs).length := by simp
    have e : (l ++ [13]) ++ 0 :: zs = l ++ 13 :: (0 :: zs) := by simp
    unfold cr_loop
    simp only [hin, if_true]
    rw [e, getD_length_append]
    simp only [if_true]
    rw [set_length_append]
    exact ih (0 :: zs) f (used ++ [l.length]) hall2 (by omega) (by omega)

theorem cmdio_used (oob : Nat → Nat) (l : Bytes) :
    (cmdio_get_cmd_and_arg oob (some l)).map Cmd.used
      = some (cr_loop oob (l ++ [0]).length (l ++ [0])
          ((strlen (l ++ [0]) + SIZE_MOD - 1) % SIZE_MOD) []).2 := by
  unfold cmdio_get_cmd_and_arg
  simp only
  split <;> rfl

/-- C13: the indices the CR loop of `cmdio_get_cmd_and_arg` uses, for a line
(a C string of at most 8 KiB) as the line reader hands it over.  When the line
holds a byte other than CR every index lies inside the line.  When the line is
empty or holds only CR bytes the loop also uses the index `SIZE_MAX`
(`len` wrapped around below 0; `len >= 0` is always true for a `size_t`), which
lies outside the line.  In both cases the line is left without its trailing CR
bytes: the token and the argument are those of the stripped line. -/
theorem cr_loop_indices (oob : Nat → Nat) (l : Bytes) (h0 : 0 ∉ l) (hlen : l.length ≤ 8192) :
    ∃ c, cmdio_get_cmd_and_arg oob (some l) = some c
      ∧ (l.rdropWhile (· == 13) ≠ [] → ∀ i ∈ c.used, i < l.length)
      ∧ (l.rdropWhile (· == 13) = [] → (SIZE_MOD - 1) ∈ c.used ∧ ¬ (SIZE_MOD - 1 < l.length))
      ∧ c.cmdval = spec_token (spec_verb l) ∧ c.ftp_arg = spec_arg l := by
  have hS : SIZE_MOD = 4294967296 := rfl
  obtain ⟨u, hc⟩ := cmdio_get_cmd_and_arg_eq oob l h0 hlen
  have hu := cmdio_used oob l
  rw [hc] at hu
  simp only [Option.map_some', Option.some.injEq] at hu
  have e : l ++ [0] = l ++ 0 :: [] := rfl
  rw [e, strlen_append_nul l [] h0] at hu
  refine ⟨_, hc, ?_, ?_, rfl, rfl⟩
  · intro hne i hi
    simp only at hi
    rw [hu] at hi
    rcases cr_loop_used_inside oob l [] _ [] hne (by rw [hS]; omega) i hi with h | h
    · simp at h
    · exact h
  · intro hall
    refine ⟨?_, by rw [hS]; omega⟩
    simp only
    rw [hu]
    exact cr_loop_used_outside oob l [] _ [] hall (by simp) (by rw [hS]; omega)

/-- C13, at the empty line, at the line of one CR, and at `PWD` CR. -/
theorem cr_loop_indices_witness :
    (cmdio_get_cmd_and_arg calm.oob (some []) = some ⟨0, none, [4294967295]⟩
      ∧ cmdio_get_cmd_and_arg calm.oob (some [13]) = some ⟨0, none, [0, 4294967295]⟩
      ∧ cmdio_get_cmd_and_arg calm.oob (some (str "PWD\r")) = some ⟨const_PWD, none, [3, 2]⟩)
    ∧ ((0 ∉ ([] : Bytes) ∧ ([] : Bytes).length ≤ 8192)
      ∧ ∃ c, cmdio_get_cmd_and_arg calm.oob (some []) = some c
        ∧ (([] : Bytes).rdropWhile (· == 13) ≠ [] → ∀ i ∈ c.used, i < ([] : Bytes).length)
        ∧ (([] : Bytes).rdropWhile (· == 13) = [] →
            (SIZE_MOD - 1) ∈ c.used ∧ ¬ (SIZE_MOD - 1 < ([] : Bytes).length))
        ∧ c.cmdval = spec_token (spec_verb []) ∧ c.ftp_arg = spec_arg []) :=
  ⟨⟨rfl, rfl, rfl⟩, ⟨by decide, by decide⟩, cr_loop_indices calm.oob [] (by decide) (by decide)⟩

/-! ## C14: verbs longer than four bytes -/

theorem mask_le (b : Nat) : b &&& 0xDF ≤ 223 := Nat.and_le_right

/-- Four rounds of the token loop forget the token they started from. -/
theorem token_last_four (acc x y z t : Nat) :
    [x, y, z, t].foldl (fun cmdval b => (cmdval * 2 ^ 8 + (b &&& 0xDF)) % 2 ^ 32) acc
      = [x, y, z, t].foldl (fun cmdval b => (cmdval * 2 ^ 8 + (b &&& 0xDF)) % 2 ^ 32) 0 := by
  simp only [List.foldl_cons, List.foldl_nil]
  have hx := mask_le x
  have hy := mask_le y
  have hz := mask_le z
  have ht := mask_le t
  generalize x &&& 0xDF = mx at hx ⊢
  generalize y &&& 0xDF = my at hy ⊢
  generalize z &&& 0xDF = mz at hz ⊢
  generalize t &&& 0xDF = mt at ht ⊢
  omega

theorem spec_token_long (v : Bytes) (h : 4 ≤ v.length) :
    spec_token v = spec_token (v.drop (v.length - 4)) := by
  have hsplit : v = v.take (v.length - 4) ++ v.drop (v.length - 4) :=
    (List.take_append_drop _ _).symm
  have hl : (v.drop (v.length - 4)).length = 4 := by
    rw [List.length_drop]; omega
  generalize v.drop (v.length - 4) = last at hsplit hl
  generalize v.take (v.length - 4) = pre at hsplit
  subst hsplit
  match last, hl with
  | [x, y, z, t], _ =>
    unfold spec_token
    rw [List.foldl_append]
    exact token_last_four _ x y z t

set_option maxRecDepth 8000 in
theorem mask_letter : ∀ a, a < 256 → 65 ≤ a &&& 0xDF → a &&& 0xDF ≤ 90 →
    toupper a = a &&& 0xDF := by
  decide

set_option maxRecDepth 8000 in
theorem mask_zero : ∀ a, a < 256 → a &&& 0xDF = 0 → a = 0 ∨ a = 32 := by
  decide

theorem mask_upper : ∀ a, a < 91 → 65 ≤ a → a &&& 0xDF = a ∧ toupper a = a := by
  decide

/-- Up to four bytes under the mask, none of them 0, are determined by their
token. -/
theorem token_inj (p q : List Nat) (hp : ∀ x ∈ p, 0 < x ∧ x ≤ 223)
    (hq : ∀ x ∈ q, 0 < x ∧ x ≤ 223) (hlp : p.length ≤ 4) (hlq : q.length ≤ 4)
    (h : p.foldl (fun cmdval x => (cmdval * 2 ^ 8 + x) % 2 ^ 32) 0
      = q.foldl (fun cmdval x => (cmdval * 2 ^ 8 + x) % 2 ^ 32) 0) : p = q := by
  rcases p with _ | ⟨a1, _ | ⟨a2, _ | ⟨a3, _ | ⟨a4, _ | ⟨a5, p⟩⟩⟩⟩⟩ <;>
  rcases q with _ | ⟨b1, _ | ⟨b2, _ | ⟨b3, _ | ⟨b4, _ | ⟨b5, q⟩⟩⟩⟩⟩ <;>
  simp only [List.length_cons, List.length_nil, List.mem_cons, List.not_mem_nil, or_false,
    forall_eq_or_imp, forall_eq, List.foldl_cons, List.foldl_nil, List.cons.injEq, and_true,
    reduceCtorEq, and_false, false_and, IsEmpty.forall_iff, implies_true] at * <;>
  omega

theorem same_case_of_mask (v V : Bytes) (hv : ∀ b ∈ v, b < 256)
    (hV : ∀ b ∈ V, 65 ≤ b ∧ b ≤ 90)
    (h : v.map (· &&& 0xDF) = V.map (· &&& 0xDF)) : same_case v V := by
  unfold same_case
  induction v generalizing V with
  | nil =>
    cases V with
    | nil => rfl
    | cons b V => simp at h
  | cons a v ih =>
    cases V with
    | nil => simp at h
    | cons b V =>
      simp only [List.map_cons, List.cons.injEq] at h ⊢
      have hb := hV b (by simp)
      have ha := hv a (by simp)
      have mb := mask_upper b (by omega) hb.1
      refine ⟨?_, ih V (fun x hx => hv x (by simp [hx])) (fun x hx => hV x (by simp [hx])) h.2⟩
      have e : a &&& 0xDF = b := h.1.trans mb.1
      rw [mb.2, mask_letter a ha (by omega) (by omega), e]

theorem verb_table_letters :
    ∀ p ∈ verb_table, p.1.length ≤ 4 ∧ ∀ b ∈ p.1, 65 ≤ b ∧ b ≤ 90 := by
  decide

theorem spec_token_map (v : Bytes) :
    spec_token v
      = (v.map (· &&& 0xDF)).foldl (fun cmdval x => (cmdval * 2 ^ 8 + x) % 2 ^ 32) 0 := by
  unfold spec_token
  rw [List.foldl_map]

theorem not_mem_takeWhile (l : Bytes) : 32 ∉ l.takeWhile (· != 32) := by
  intro h
  have := List.mem_takeWhile_imp h
  simp at this

/-- A verb of at most four bytes gets the token of a verb of the table only
when it is that verb up to the case of letters. -/
theorem short_verb_token (v : Bytes) (hlen : v.length ≤ 4) (h0 : 0 ∉ v) (hsp : 32 ∉ v)
    (hb : ∀ b ∈ v, b < 256) (p : Bytes × Nat) (hp : p ∈ verb_table)
    (h : spec_token v = p.2) : same_case v p.1 := by
  obtain ⟨hl, hlet⟩ := verb_table_letters p hp
  apply same_case_of_mask v p.1 hb hlet
  apply token_inj
  · intro x hx
    obtain ⟨b, hbm, rfl⟩ := List.mem_map.1 hx
    refine ⟨?_, mask_le b⟩
    rcases Nat.eq_zero_or_pos (b &&& 0xDF) with hz | hz
    · rcases mask_zero b (hb b hbm) hz with h1 | h1
      · exact absurd (h1 ▸ hbm) h0
      · exact absurd (h1 ▸ hbm) hsp
    · exact hz
  · intro x hx
    obtain ⟨b, hbm, rfl⟩ := List.mem_map.1 hx
    have := hlet b hbm
    have m := mask_upper b (by omega) this.1
    show 0 < b &&& 0xDF ∧ b &&& 0xDF ≤ 223
    rw [m.1]
    omega
  · simpa using hlen
  · simpa using hl
  · rw [← spec_token_map, ← spec_token_map, h, verb_table_tokens p hp]

/-- C14: a verb longer than four bytes gets the token of its last four bytes
(the bytes in front are shifted out of the 32 bits), so the line `XXQUIT` gets
`const_QUIT` and is answered as QUIT; and a verb of at most four bytes gets the
token `const_V` of a verb V of the table only if it equals V up to the case of
ASCII letters.  (Lines are C strings of bytes, at most 8 KiB long.) -/
theorem long_verb_token (oob : Nat → Nat) (l : Bytes) (h0 : 0 ∉ l) (hlen : l.length ≤ 8192) :
    (4 < (spec_verb l).length →
      (cmdio_get_cmd_and_arg oob (some l)).map Cmd.cmdval
        = some (spec_token ((spec_verb l).drop ((spec_verb l).length - 4))))
    ∧ ((cmdio_get_cmd_and_arg oob (some (str "XXQUIT"))).map Cmd.cmdval = some const_QUIT
      ∧ ∀ (w : World) (g : Globals),
        ftpd_iter w g (some (str "XXQUIT"))
          = .exit (({ g with ftp_arg := none } : Globals).write (str "221 Goodbye\r\n")) 0)
    ∧ ((spec_verb l).length ≤ 4 → (∀ b ∈ l, b < 256) →
      ∀ p ∈ verb_table, (cmdio_get_cmd_and_arg oob (some l)).map Cmd.cmdval = some p.2 →
        same_case (spec_verb l) p.1) := by
  obtain ⟨u, hc⟩ := cmdio_get_cmd_and_arg_eq oob l h0 hlen
  have eq : ∀ o : Nat → Nat, cmdio_get_cmd_and_arg o (some (str "XXQUIT"))
      = some ⟨const_QUIT, none, [5]⟩ := fun _ => rfl
  refine ⟨?_, ⟨by rw [eq]; rfl, ?_⟩, ?_⟩
  · intro h4
    rw [hc]
    simp only [Option.map_some', Option.some.injEq]
    exact spec_token_long _ (Nat.le_of_lt h4)
  · intro w g
    unfold ftpd_iter
    simp only [eq]
    rw [if_pos trivial]
  · intro h4 hb p hp ht
    rw [hc] at ht
    simp only [Option.map_some', Option.some.injEq] at ht
    have hsub : ∀ b ∈ spec_verb l, b ∈ l := by
      intro b hbm
      unfold spec_verb at hbm
      exact ( List.rdropWhile_prefix _ l).subset (( List.takeWhile_prefix _).subset hbm)
    exact short_verb_token (spec_verb l) h4 (fun h => h0 (hsub 0 h))
      (by unfold spec_verb; exact not_mem_takeWhile _)
      (fun b hbm => hb b (hsub b hbm)) p hp ht

/-- C14, at the line `XXQUIT` (token of `QUIT`) and at the line `quit`. -/
theorem long_verb_token_witness :
    ((0 ∉ str "XXQUIT" ∧ (str "XXQUIT").length ≤ 8192 ∧ 4 < (spec_verb (str "XXQUIT")).length)
      ∧ (spec_verb (str "XXQUIT")).drop ((spec_verb (str "XXQUIT")).length - 4) = str "QUIT"
      ∧ (cmdio_get_cmd_and_arg calm.oob (some (str "XXQUIT"))).map Cmd.cmdval
        = some (spec_token
            ((spec_verb (str "XXQUIT")).drop ((spec_verb (str "XXQUIT")).length - 4))))
    ∧ ((0 ∉ str "quit" ∧ (str "quit").length ≤ 8192 ∧ (spec_verb (str "quit")).length ≤ 4
        ∧ (∀ b ∈ str "quit", b < 256) ∧ (str "QUIT", const_QUIT) ∈ verb_table
        ∧ (cmdio_get_cmd_and_arg calm.oob (some (str "quit"))).map Cmd.cmdval
          = some const_QUIT)
      ∧ same_case (spec_verb (str "quit")) (str "QUIT")) :=
  ⟨⟨⟨by decide, by decide, by decide⟩, rfl,
      (long_verb_token calm.oob (str "XXQUIT") (by decide) (by decide)).1 (by decide)⟩,
    ⟨by decide, by decide, by decide, by decide, by decide, rfl⟩,
      (long_verb_token calm.oob (str "quit") (by decide) (by decide)).2.2 (by decide)
        (by decide) (str "QUIT", const_QUIT) (by decide) rfl⟩

end Ftpd
